import Mathlib

/-!
# Operation-rate manager of the zumapro primary display

Shallow embedding of `libhwc2.1/libmaindisplay/ExynosPrimaryDisplayModule.cpp`
(`OperationRateManager` and its `HistogramQueryWorker`).

* `int32_t` and `uint32_t` values are `Int` (a `uint32_t` lies in
  0..4294967295); conversions between the two and mixed comparisons are
  explicit (`toInt32`, `toUInt32`).
* The display object, the system-property store and the histogram service
  are collaborators outside the file: they appear as explicit arguments.
* `float` arithmetic of the worker is taken through a record of operations
  (`LumaArith`), so the control flow is stated for any arithmetic. The
  arithmetic of the program is the instance `float32Arith` (binary32,
  round to nearest even); `exactArith` is an idealisation without rounding.
-/

namespace zumapro

/-! ## Machine integers -/

/-- Conversion of an integer value to `int32_t` (two's complement wrap). -/
def toInt32 (x : Int) : Int := (x + 2147483648) % 4294967296 - 2147483648

/-- Conversion of an integer value to `uint32_t`. -/
def toUInt32 (x : Int) : Int := x % 4294967296

/-- Range of `int32_t`. -/
def isInt32 (x : Int) : Prop := -2147483648 ≤ x ∧ x ≤ 2147483647

instance (x : Int) : Decidable (isInt32 x) := by unfold isInt32; infer_instance

/-- The call `abs(a)` on an `int32_t` (result stored in an `int32_t`). -/
def abs32 (x : Int) : Int := toInt32 (if x < 0 then -x else x)

/-! ## Constants -/

/-- Power modes of `hwc2_power_mode_t` (values of `hardware/hwcomposer2.h`). -/
def HWC2_POWER_MODE_OFF : Int := 0
/-- Doze power mode. -/
def HWC2_POWER_MODE_DOZE : Int := 1
/-- Fully-on power mode. -/
def HWC2_POWER_MODE_ON : Int := 2
/-- Doze-suspend power mode. -/
def HWC2_POWER_MODE_DOZE_SUSPEND : Int := 3

/-- Success code returned by every entry point. -/
def HWC2_ERROR_NONE : Int := 0

/-- Header constant `kBrightnessDeltaThreshold` (a `uint32_t`). -/
def kBrightnessDeltaThreshold : Int := 10
/-- Header constant `kLowPowerOperationRate` (a `uint32_t`). -/
def kLowPowerOperationRate : Int := 30

/-- Value of `EINTR` in `errno.h`. -/
def EINTR : Int := 4

/-- Condition tag of an evaluation (`enum class DispOpCondition`). -/
inductive DispOpCondition where
  | PANEL_SET_POWER
  | SET_CONFIG
  | SET_DBV
  | HISTOGRAM_DELTA
  | MAX
  deriving DecidableEq, Repr

/-- Error codes of the histogram service; only `NONE` and `BAD_TOKEN` are
told apart by the worker. -/
inductive HistogramErrorCode where
  | NONE
  | BAD_TOKEN
  | OTHER
  deriving DecidableEq, Repr

/-! ## Collaborators -/

/-- What the manager reads from `ExynosPrimaryDisplay`. -/
structure Display where
  /-- Answer of `getRefreshRate(cfg)`. -/
  getRefreshRate : Nat → Int
  /-- Panel width `mXres` (`uint32_t`). -/
  mXres : Int
  /-- Panel height `mYres` (`uint32_t`). -/
  mYres : Int
  /-- Answer of `isConfigSettingEnabled()`. -/
  isConfigSettingEnabled : Bool
  /-- Whether `mHistogramController` is non-null. -/
  mHistogramController : Bool

/-- The Android system-property store seen through `property_get`,
`property_set` and `property_get_int32`. -/
structure Properties where
  /-- String values currently stored, most recent first. -/
  entries : List (String × String)
  /-- Whether `property_set` is refused by the property service. -/
  setFails : Bool
  /-- Answer of `property_get_int32(key, default)`. -/
  getInt32 : String → Int → Int

/-- Lookup of a key in the stored entries. -/
def Properties.lookup (p : Properties) (key : String) : Option String :=
  (p.entries.find? (fun kv => kv.1 == key)).map (fun kv => kv.2)

/-- The call `property_get(key, value, default)`: the length written and
the string left in `value`. -/
def property_get (p : Properties) (key dflt : String) : Int × String :=
  match p.lookup key with
  | some v => ((v.length : Int), v)
  | none => ((dflt.length : Int), dflt)

/-- The call `property_set(key, value)`: a negative result on failure,
otherwise the store holds the new value. -/
def property_set (p : Properties) (key value : String) : Int × Properties :=
  if p.setFails then (-1, p)
  else (0, { p with entries := (key, value) :: p.entries })

/-! ## Decimal text (`sprintf("%d")` and `atoi`) -/

/-- The character of a decimal digit. -/
def digitChar (n : Nat) : Char := Char.ofNat (48 + n % 10)

/-- Decimal digits of a natural number, most significant first. -/
def decDigits (n : Nat) : List Char :=
  if n < 10 then [digitChar n]
  else decDigits (n / 10) ++ [digitChar n]
termination_by n
decreasing_by omega

/-- The text written by `sprintf(buf, "%d", v)` for an `int` value `v`. -/
def sprintf_d (v : Int) : String :=
  if v < 0 then String.mk ('-' :: decDigits v.natAbs) else String.mk (decDigits v.natAbs)

/-- Whether a character is a decimal digit. -/
def isDigitChar (c : Char) : Bool := 48 ≤ c.toNat && c.toNat ≤ 57

/-- Digit-accumulation loop of `atoi`. -/
def atoiDigits : Nat → List Char → Nat
  | acc, [] => acc
  | acc, c :: cs => if isDigitChar c then atoiDigits (acc * 10 + (c.toNat - 48)) cs else acc

/-- Whether a character is skipped as white space by `atoi`. -/
def isSpaceChar (c : Char) : Bool :=
  c.toNat == 32 || (9 ≤ c.toNat && c.toNat ≤ 13)

/-- Sign and digits of `atoi`, after leading white space. -/
def atoiSigned : List Char → Int
  | [] => 0
  | c :: cs =>
    if c = '-' then -((atoiDigits 0 cs : Nat) : Int)
    else if c = '+' then ((atoiDigits 0 cs : Nat) : Int)
    else ((atoiDigits 0 (c :: cs) : Nat) : Int)

/-- Leading white space of `atoi`. -/
def atoiSkip : List Char → Int
  | [] => 0
  | c :: cs => if isSpaceChar c then atoiSkip cs else atoiSigned (c :: cs)

/-- The result of `strtol` for a number read from decimal text: the number,
saturated to the range of a 64-bit `long`. -/
def strtolSaturate (x : Int) : Int :=
  if x < -9223372036854775808 then -9223372036854775808
  else if x > 9223372036854775807 then 9223372036854775807
  else x

/-- The call `atoi(str)`, which the C library computes as
`(int)strtol(str, NULL, 10)`: the saturated `long` is cut to an `int`. -/
def atoi (s : String) : Int := toInt32 (strtolSaturate (atoiSkip s.data))

/-! ## Worker and manager state -/

/-- The operations on `float` used by the worker. -/
structure LumaArith (F : Type) where
  /-- The literal `0`. -/
  zero : F
  /-- Conversion of an `int` to `float`. -/
  ofInt : Int → F
  /-- Addition. -/
  add : F → F → F
  /-- Subtraction. -/
  sub : F → F → F
  /-- Division. -/
  div : F → F → F
  /-- Absolute value. -/
  abs : F → F
  /-- The comparison `a > b`. -/
  gt : F → F → Bool
  /-- Truth value of a `float` in a condition (non-zero). -/
  toBool : F → Bool

/-- Fields of `HistogramQueryWorker`. `signalCount` is a trace of the
`Signal()` notifications sent to the worker loop by `startQuery`. -/
structure HistogramQueryWorker (F : Type) where
  /-- Registration with the histogram service succeeded. -/
  mReady : Bool
  /-- The loop is accumulating samples. -/
  mQueryMode : Bool
  /-- Threshold on the luma delta. -/
  mHistogramLumaDeltaThreshold : F
  /-- Luma of the previous sample. -/
  mPrevHistogramLuma : F
  /-- Field `mConfig.roi.left` (`int`). -/
  roiLeft : Int
  /-- Field `mConfig.roi.top` (`int`). -/
  roiTop : Int
  /-- Field `mConfig.roi.right` (`int`). -/
  roiRight : Int
  /-- Field `mConfig.roi.bottom` (`int`). -/
  roiBottom : Int
  /-- Number of `Signal()` notifications issued so far. -/
  signalCount : Nat

/-- Fields of `OperationRateManager`. -/
structure OperationRateManager (F : Type) where
  /-- Supported high-speed rate. -/
  mDisplayHsOperationRate : Int
  /-- Supported normal-speed rate. -/
  mDisplayNsOperationRate : Int
  /-- Stored target rate. -/
  mDisplayTargetOperationRate : Int
  /-- Brightness floor of the NS rate. -/
  mDisplayNsMinDbv : Int
  /-- Peak refresh rate, 0 when unknown. -/
  mDisplayPeakRefreshRate : Int
  /-- Active refresh rate. -/
  mDisplayRefreshRate : Int
  /-- Last brightness folded into a decision. -/
  mDisplayLastDbv : Int
  /-- Brightness just reported. -/
  mDisplayDbv : Int
  /-- Brightness floor of the switch to HS. -/
  mDisplayHsSwitchMinDbv : Int
  /-- Power mode (`std::optional<hwc2_power_mode_t>`). -/
  mDisplayPowerMode : Option Int
  /-- Low-battery flag. -/
  mDisplayLowBatteryModeEnabled : Bool
  /-- The worker, when one was created. -/
  mHistogramQueryWorker : Option (HistogramQueryWorker F)

variable {F : Type}

/-- Constructor of `HistogramQueryWorker` (`mConfig` is left unset; its
region of interest is taken as all zero). -/
def HistogramQueryWorker.new (A : LumaArith F) (deltaThreshold : F) : HistogramQueryWorker F :=
  { mReady := false, mQueryMode := false,
    mHistogramLumaDeltaThreshold := deltaThreshold,
    mPrevHistogramLuma := A.zero,
    roiLeft := 0, roiTop := 0, roiRight := 0, roiBottom := 0, signalCount := 0 }

/-- Constructor of `OperationRateManager`. -/
def OperationRateManager.new (A : LumaArith F) (p : Properties) (hsHz nsHz : Int) :
    OperationRateManager F :=
  let histDeltaTh := A.ofInt (p.getInt32 "vendor.primarydisplay.op.hist_delta_th" 0)
  { mDisplayHsOperationRate := hsHz,
    mDisplayNsOperationRate := nsHz,
    mDisplayTargetOperationRate := hsHz,
    mDisplayNsMinDbv := p.getInt32 "vendor.primarydisplay.op.ns_min_dbv" 0,
    mDisplayPeakRefreshRate := 0,
    mDisplayRefreshRate := 0,
    mDisplayLastDbv := 0,
    mDisplayDbv := 0,
    mDisplayHsSwitchMinDbv :=
      if A.toBool histDeltaTh then p.getInt32 "vendor.primarydisplay.op.hs_switch_min_dbv" 0
      else 0,
    mDisplayPowerMode := some HWC2_POWER_MODE_ON,
    mDisplayLowBatteryModeEnabled := false,
    mHistogramQueryWorker :=
      if A.toBool histDeltaTh then some (HistogramQueryWorker.new A histDeltaTh) else none }

/-! ## Worker entry points used by the manager -/

/-- Method `HistogramQueryWorker::isRuntimeResolutionConfig`. -/
def HistogramQueryWorker.isRuntimeResolutionConfig (w : HistogramQueryWorker F) (d : Display) :
    Bool :=
  if !w.mReady then false
  else if toUInt32 w.roiRight == d.mXres || toUInt32 w.roiBottom == d.mYres then
    false
  else true

/-- Method `HistogramQueryWorker::updateConfig`. -/
def HistogramQueryWorker.updateConfig (w : HistogramQueryWorker F) (xres yres : Int) :
    HistogramQueryWorker F :=
  { w with roiRight := toInt32 xres, roiBottom := toInt32 yres }

/-- Method `HistogramQueryWorker::startQuery`. -/
def HistogramQueryWorker.startQuery (w : HistogramQueryWorker F) : HistogramQueryWorker F :=
  if !w.mReady then w else { w with signalCount := w.signalCount + 1 }

/-- Method `HistogramQueryWorker::stopQuery`. -/
def HistogramQueryWorker.stopQuery (w : HistogramQueryWorker F) : HistogramQueryWorker F :=
  { w with mQueryMode := false }

/-- The call `mHistogramQueryWorker->stopQuery()` on the manager state. -/
def OperationRateManager.workerStopQuery (s : OperationRateManager F) : OperationRateManager F :=
  { s with mHistogramQueryWorker := s.mHistogramQueryWorker.map HistogramQueryWorker.stopQuery }

/-- The call `mHistogramQueryWorker->startQuery()` on the manager state. -/
def OperationRateManager.workerStartQuery (s : OperationRateManager F) : OperationRateManager F :=
  { s with mHistogramQueryWorker := s.mHistogramQueryWorker.map HistogramQueryWorker.startQuery }

/-- The assignment `mPrevHistogramLuma = luma` on the worker of a manager. -/
def OperationRateManager.workerSetPrevLuma (s : OperationRateManager F) (luma : F) :
    OperationRateManager F :=
  { s with mHistogramQueryWorker :=
      s.mHistogramQueryWorker.map (fun w => { w with mPrevHistogramLuma := luma }) }

/-! ## Manager operations -/

/-- Whether the power mode is Doze or Doze-suspend. -/
def OperationRateManager.isLowPower (s : OperationRateManager F) : Bool :=
  s.mDisplayPowerMode == some HWC2_POWER_MODE_DOZE ||
    s.mDisplayPowerMode == some HWC2_POWER_MODE_DOZE_SUSPEND

/-- Method `OperationRateManager::getTargetOperationRate`. -/
def OperationRateManager.getTargetOperationRate (s : OperationRateManager F) : Int :=
  if s.isLowPower then toInt32 kLowPowerOperationRate else s.mDisplayTargetOperationRate

/-- Lines 296-317 of `updateOperationRateLocked`: the rate-switching gate,
publication of the effective rate and the arming of the worker. -/
def OperationRateManager.publish (d : Display) (s : OperationRateManager F)
    (desiredOpRate effectiveOpRate : Int) : Int × OperationRateManager F :=
  if !d.isConfigSettingEnabled && effectiveOpRate == s.mDisplayNsOperationRate then
    (HWC2_ERROR_NONE, s)
  else
    let s1 :=
      if toUInt32 effectiveOpRate > kLowPowerOperationRate &&
          effectiveOpRate != s.mDisplayTargetOperationRate then
        { s with mDisplayTargetOperationRate := effectiveOpRate }
      else s
    let s2 :=
      if s1.mHistogramQueryWorker.isSome && s1.mDisplayTargetOperationRate != desiredOpRate then
        s1.workerStartQuery
      else s1
    (HWC2_ERROR_NONE, s2)

/-- Lines 237-294 of `updateOperationRateLocked`: the branch on the
condition tag, entered with the locals `dbv`, `isDbvInBlockingZone`,
`desiredOpRate` and `effectiveOpRate`, followed by `publish`. -/
def OperationRateManager.evaluate (d : Display) (s : OperationRateManager F)
    (cond : DispOpCondition) (dbv : Int) (isDbvInBlockingZone : Bool)
    (desiredOpRate effectiveOpRate : Int) : Int × OperationRateManager F :=
  match cond with
  | .SET_CONFIG =>
    if s.mDisplayRefreshRate ≤ s.mDisplayHsOperationRate then
      if !s.mHistogramQueryWorker.isSome then
        if s.mDisplayRefreshRate > s.mDisplayNsOperationRate then
          s.publish d desiredOpRate s.mDisplayHsOperationRate
        else s.publish d desiredOpRate effectiveOpRate
      else
        let s1 :=
          if s.mDisplayRefreshRate == s.mDisplayTargetOperationRate && !isDbvInBlockingZone then
            s.workerStopQuery
          else s
        if !isDbvInBlockingZone then
          if s.mDisplayLowBatteryModeEnabled &&
              (s.mDisplayHsSwitchMinDbv == 0 || decide (dbv < s.mDisplayHsSwitchMinDbv)) then
            s1.publish d s.mDisplayRefreshRate effectiveOpRate
          else if s.mDisplayRefreshRate > s.mDisplayNsOperationRate then
            s1.publish d desiredOpRate s.mDisplayHsOperationRate
          else s1.publish d desiredOpRate effectiveOpRate
        else s1.publish d desiredOpRate effectiveOpRate
    else s.publish d desiredOpRate effectiveOpRate
  | .PANEL_SET_POWER =>
    let s1 :=
      if s.mDisplayPowerMode == some HWC2_POWER_MODE_ON then
        { s with mDisplayTargetOperationRate := s.getTargetOperationRate }
      else s
    s1.publish d desiredOpRate desiredOpRate
  | .SET_DBV =>
    let delta := abs32 (toInt32 (dbv - s.mDisplayLastDbv))
    let applied : Bool :=
      if !s.mHistogramQueryWorker.isSome then
        desiredOpRate == s.mDisplayHsOperationRate ||
          decide (toUInt32 delta > kBrightnessDeltaThreshold)
      else decide (toUInt32 delta > kBrightnessDeltaThreshold)
    let effectiveOpRate1 := if applied then desiredOpRate else effectiveOpRate
    let s1 :=
      if s.mHistogramQueryWorker.isSome && decide (toUInt32 delta > kBrightnessDeltaThreshold) then
        s.workerStopQuery
      else s
    let s2 := { s1 with mDisplayLastDbv := dbv }
    if toUInt32 effectiveOpRate1 > kLowPowerOperationRate &&
        effectiveOpRate1 != s2.mDisplayTargetOperationRate then
      s2.publish d desiredOpRate effectiveOpRate1
    else if !s2.mHistogramQueryWorker.isSome ||
        (desiredOpRate == s2.mDisplayNsOperationRate && isDbvInBlockingZone) then
      (HWC2_ERROR_NONE, s2)
    else s2.publish d desiredOpRate effectiveOpRate1
  | .HISTOGRAM_DELTA => s.publish d desiredOpRate desiredOpRate
  | .MAX => s.publish d desiredOpRate effectiveOpRate

/-- Method `OperationRateManager::updateOperationRateLocked`. -/
def OperationRateManager.updateOperationRateLocked (d : Display) (s : OperationRateManager F)
    (cond : DispOpCondition) : Int × OperationRateManager F :=
  let dbv := if cond = .SET_DBV then s.mDisplayDbv else s.mDisplayLastDbv
  let isSteadyLowRefreshRate : Bool :=
    (s.mDisplayPeakRefreshRate != 0 &&
        decide (s.mDisplayPeakRefreshRate ≤ s.mDisplayNsOperationRate)) ||
      s.mDisplayLowBatteryModeEnabled
  let isDbvInBlockingZone : Bool :=
    if s.mDisplayLowBatteryModeEnabled then decide (dbv < s.mDisplayNsMinDbv)
    else decide (dbv < s.mDisplayHsSwitchMinDbv)
  let desiredOpRate0 :=
    if isSteadyLowRefreshRate && decide (s.mDisplayRefreshRate ≤ s.mDisplayNsOperationRate) then
      s.mDisplayNsOperationRate
    else s.mDisplayHsOperationRate
  let desiredOpRate := if isDbvInBlockingZone then s.mDisplayHsOperationRate else desiredOpRate0
  if s.isLowPower then
    let s1 := { s with mDisplayTargetOperationRate := toInt32 kLowPowerOperationRate }
    s1.evaluate d cond dbv isDbvInBlockingZone s1.mDisplayTargetOperationRate
      s1.mDisplayTargetOperationRate
  else if s.mDisplayPowerMode != some HWC2_POWER_MODE_ON then
    (HWC2_ERROR_NONE, s.workerStopQuery)
  else s.evaluate d cond dbv isDbvInBlockingZone desiredOpRate 0

/-- Name of the persisted peak-refresh-rate property. -/
def kPersistPeakRefreshRate : String := "persist.vendor.primarydisplay.op.peak_refresh_rate"

/-- Name of the vendor peak-refresh-rate property. -/
def kVendorPeakRefreshRate : String := "vendor.primarydisplay.op.peak_refresh_rate"

/-- Method `OperationRateManager::onPeakRefreshRate` (`rate` is a `uint32_t`). -/
def OperationRateManager.onPeakRefreshRate (p : Properties) (s : OperationRateManager F)
    (rate : Int) : Int × OperationRateManager F × Properties :=
  let rateStr := sprintf_d (toInt32 rate)
  let r := property_set p kPersistPeakRefreshRate rateStr
  (0, { s with mDisplayPeakRefreshRate := toInt32 rate }, r.2)

/-- Method `OperationRateManager::onLowPowerMode`. -/
def OperationRateManager.onLowPowerMode (s : OperationRateManager F) (enabled : Bool) :
    Int × OperationRateManager F :=
  (0, { s with mDisplayLowBatteryModeEnabled := enabled })

/-- Method `OperationRateManager::onConfig` (`cfg` is a `hwc2_config_t`). -/
def OperationRateManager.onConfig (d : Display) (s : OperationRateManager F) (cfg : Nat) :
    Int × OperationRateManager F :=
  let targetRefreshRate := d.getRefreshRate cfg
  match s.mHistogramQueryWorker with
  | some w =>
    if w.isRuntimeResolutionConfig d && s.mDisplayRefreshRate == targetRefreshRate then
      (0, { s with mHistogramQueryWorker := some (w.updateConfig d.mXres d.mYres) })
    else
      let s1 := { s with mDisplayRefreshRate := targetRefreshRate }
      (0, (s1.updateOperationRateLocked d .SET_CONFIG).2)
  | none =>
    let s1 := { s with mDisplayRefreshRate := targetRefreshRate }
    (0, (s1.updateOperationRateLocked d .SET_CONFIG).2)

/-- Method `OperationRateManager::onBrightness` (`dbv` is a `uint32_t`). -/
def OperationRateManager.onBrightness (d : Display) (p : Properties) (s : OperationRateManager F)
    (dbv : Int) : Int × OperationRateManager F :=
  if dbv == 0 || toUInt32 s.mDisplayLastDbv == dbv then (0, s)
  else
    let s1 := { s with mDisplayDbv := toInt32 dbv }
    let s2 :=
      if s1.mDisplayPeakRefreshRate == 0 then
        let r := property_get p kPersistPeakRefreshRate "0"
        if decide (r.1 ≥ 0) && decide (atoi r.2 > 0) then
          { s1 with mDisplayPeakRefreshRate := atoi r.2 }
        else { s1 with mDisplayPeakRefreshRate := p.getInt32 kVendorPeakRefreshRate 0 }
      else s1
    s2.updateOperationRateLocked d .SET_DBV

/-- Method `OperationRateManager::onPowerMode` (`mode` is an `int32_t`). -/
def OperationRateManager.onPowerMode (d : Display) (s : OperationRateManager F) (mode : Int) :
    Int × OperationRateManager F :=
  let s1 := { s with mDisplayPowerMode := some mode }
  s1.updateOperationRateLocked d .PANEL_SET_POWER

/-- Method `OperationRateManager::onHistogram`. -/
def OperationRateManager.onHistogram (d : Display) (s : OperationRateManager F) :
    Int × OperationRateManager F :=
  s.updateOperationRateLocked d .HISTOGRAM_DELTA

/-! ## The worker loop -/

/-- What one pass of `Routine` receives from outside: the answers of the
binder library and histogram service, and the result of the wait. -/
structure RoutineInput where
  /-- Whether `AIBinder_new` gave a binder (`mSpAIBinder.get()` non-null). -/
  binderOk : Bool
  /-- Whether `registerHistogram` returned an ok status. -/
  registerStatusOk : Bool
  /-- Error code written by `registerHistogram`. -/
  registerErr : HistogramErrorCode
  /-- Result of `WaitForSignalOrExitLocked`. -/
  waitRet : Int
  /-- Whether `queryHistogram` returned an ok status. -/
  queryStatusOk : Bool
  /-- Error code written by `queryHistogram`. -/
  queryErr : HistogramErrorCode
  /-- Bucket counts written by `queryHistogram` (`char16_t` values, each in
  0..65535). -/
  data : List Int

/-- Method `HistogramQueryWorker::prepare`. -/
def HistogramQueryWorker.prepare (w : HistogramQueryWorker F) (d : Display) (inp : RoutineInput) :
    HistogramQueryWorker F :=
  if inp.binderOk then
    let w1 := { w with roiLeft := 0, roiTop := 0, roiRight := 0, roiBottom := 0 }
    if !inp.registerStatusOk then w1
    else if inp.registerErr != HistogramErrorCode.NONE then w1
    else { w1 with roiRight := toInt32 d.mXres, roiBottom := toInt32 d.mYres, mReady := true }
  else w

/-- The accumulation loop of `Routine` (lines 502-507): `i` is the bucket
index, `lumaSum` the `float` accumulator and `count` the `int` one; the
`int` operations wrap. -/
def lumaLoop (A : LumaArith F) : List Int → Int → F → Int → F × Int
  | [], _, lumaSum, count => (lumaSum, count)
  | x :: xs, i, lumaSum, count =>
    lumaLoop A xs (toInt32 (i + 1)) (A.add lumaSum (A.ofInt (toInt32 (i * x))))
      (toInt32 (count + x))

/-- The manager with its worker replaced by `w` (a write to a field of
the worker object). -/
def OperationRateManager.setWorker (s : OperationRateManager F) (w : HistogramQueryWorker F) :
    OperationRateManager F :=
  { s with mHistogramQueryWorker := some w }

/-- Lines 474-482 of `Routine`: what the wait does to the worker. A pass
that was not accumulating starts to, and resets the baseline. -/
def HistogramQueryWorker.afterWait (A : LumaArith F) (w : HistogramQueryWorker F) :
    HistogramQueryWorker F :=
  if !w.mQueryMode then { w with mQueryMode := true, mPrevHistogramLuma := A.zero } else w

/-- Lines 491-526 of `Routine`: the query and the threshold test, on the
worker `w` left by the wait. -/
def RoutineQuery (A : LumaArith F) (d : Display) (s : OperationRateManager F)
    (w : HistogramQueryWorker F) (inp : RoutineInput) : OperationRateManager F × Nat :=
  if inp.queryStatusOk && inp.queryErr != HistogramErrorCode.BAD_TOKEN then
    if inp.data.length == 0 then (s.setWorker w, 0)
    else
      let acc := lumaLoop A inp.data 0 A.zero 0
      if acc.2 == 0 then (s.setWorker w, 0)
      else
        let luma := A.div acc.1 (A.ofInt acc.2)
        let lumaDelta := A.abs (A.sub luma w.mPrevHistogramLuma)
        if A.toBool w.mPrevHistogramLuma && A.gt lumaDelta w.mHistogramLumaDeltaThreshold then
          let s1 := s.setWorker w.stopQuery
          let s2 := (s1.onHistogram d).2
          (s2.workerSetPrevLuma luma, 1)
        else ((s.setWorker w).workerSetPrevLuma luma, 0)
  else (s.setWorker w, 0)

/-- One pass of `HistogramQueryWorker::Routine`, run on the manager state
that owns the worker. The second component counts the `onHistogram()`
calls made by the pass. The assignment `mQueryMode = false` is written
with `stopQuery`, whose body it is. -/
def Routine (A : LumaArith F) (d : Display) (s : OperationRateManager F) (inp : RoutineInput) :
    OperationRateManager F × Nat :=
  match s.mHistogramQueryWorker with
  | none => (s, 0)
  | some w =>
    if !d.mHistogramController then (s, 0)
    else if !w.mReady then (s.setWorker (w.prepare d inp), 0)
    else if inp.waitRet == -EINTR then (s.setWorker (w.afterWait A).stopQuery, 0)
    else RoutineQuery A d s (w.afterWait A) inp

/-! ## Sequences of signals -/

/-- The signals that reach the manager, and a pass of the worker loop. -/
inductive Signal where
  | powerMode (mode : Int)
  | brightness (dbv : Int)
  | config (cfg : Nat)
  | peakRefreshRate (rate : Int)
  | lowPowerMode (enabled : Bool)
  | histogram
  | routine (inp : RoutineInput)

/-- The manager together with the property store it reads and writes. -/
structure System (F : Type) where
  /-- The manager. -/
  mgr : OperationRateManager F
  /-- The property store. -/
  props : Properties

/-- Effect of one signal, the display being in state `d` when it arrives. -/
def System.step (A : LumaArith F) (sys : System F) (d : Display) : Signal → System F
  | .powerMode mode => { sys with mgr := (sys.mgr.onPowerMode d mode).2 }
  | .brightness dbv => { sys with mgr := (sys.mgr.onBrightness d sys.props dbv).2 }
  | .config cfg => { sys with mgr := (sys.mgr.onConfig d cfg).2 }
  | .peakRefreshRate rate =>
    let r := sys.mgr.onPeakRefreshRate sys.props rate
    { mgr := r.2.1, props := r.2.2 }
  | .lowPowerMode enabled => { sys with mgr := (sys.mgr.onLowPowerMode enabled).2 }
  | .histogram => { sys with mgr := (sys.mgr.onHistogram d).2 }
  | .routine inp => { sys with mgr := (Routine A d sys.mgr inp).1 }

/-- Effect of a sequence of signals, each paired with the display state
at its arrival. -/
def System.run (A : LumaArith F) (sys : System F) : List (Display × Signal) → System F
  | [] => sys
  | (d, sig) :: rest => (sys.step A d sig).run A rest

/-- The power mode of the most recent power-mode signal of a sequence. -/
def lastPowerMode : List (Display × Signal) → Option Int
  | [] => none
  | (_, .powerMode mode) :: rest =>
    match lastPowerMode rest with
    | some m => some m
    | none => some mode
  | _ :: rest => lastPowerMode rest

/-! ## Predicates used in the statements -/

/-- Fields that no evaluation writes. -/
def OperationRateManager.SameSettings (s t : OperationRateManager F) : Prop :=
  t.mDisplayHsOperationRate = s.mDisplayHsOperationRate ∧
  t.mDisplayNsOperationRate = s.mDisplayNsOperationRate ∧
  t.mDisplayNsMinDbv = s.mDisplayNsMinDbv ∧
  t.mDisplayPeakRefreshRate = s.mDisplayPeakRefreshRate ∧
  t.mDisplayRefreshRate = s.mDisplayRefreshRate ∧
  t.mDisplayDbv = s.mDisplayDbv ∧
  t.mDisplayHsSwitchMinDbv = s.mDisplayHsSwitchMinDbv ∧
  t.mDisplayPowerMode = s.mDisplayPowerMode ∧
  t.mDisplayLowBatteryModeEnabled = s.mDisplayLowBatteryModeEnabled ∧
  t.mHistogramQueryWorker.isSome = s.mHistogramQueryWorker.isSome

/-- The stored target is one of the three supported rates. -/
def OperationRateManager.TargetOk (s : OperationRateManager F) : Prop :=
  s.mDisplayTargetOperationRate = s.mDisplayHsOperationRate ∨
  s.mDisplayTargetOperationRate = s.mDisplayNsOperationRate ∨
  s.mDisplayTargetOperationRate = kLowPowerOperationRate

/-- The two supported rates, the power mode and the presence of a worker
are the same in both states. -/
def OperationRateManager.SameRates (s t : OperationRateManager F) : Prop :=
  t.mDisplayHsOperationRate = s.mDisplayHsOperationRate ∧
  t.mDisplayNsOperationRate = s.mDisplayNsOperationRate ∧
  t.mHistogramQueryWorker.isSome = s.mHistogramQueryWorker.isSome

/-- The stored target is the low-power rate while the power mode is Doze
or Doze-suspend. -/
def OperationRateManager.LowPowerTarget (s : OperationRateManager F) : Prop :=
  s.isLowPower = true → s.mDisplayTargetOperationRate = kLowPowerOperationRate

/-- The stored target is the low-power rate or the HS rate while the power
mode is Doze or Doze-suspend. -/
def OperationRateManager.LowPowerOrHsTarget (s : OperationRateManager F) : Prop :=
  s.isLowPower = true →
    s.mDisplayTargetOperationRate = kLowPowerOperationRate ∨
      s.mDisplayTargetOperationRate = s.mDisplayHsOperationRate

/-- Whether a signal is an `onConfig` call. -/
def Signal.isConfig : Signal → Bool
  | .config _ => true
  | _ => false

/-- Whether a signal is a pass of the worker loop. -/
def Signal.isRoutine : Signal → Bool
  | .routine _ => true
  | _ => false

/-- Whether a signal leaves a fully-off power mode fully off: any signal
but a power-mode change to On, Doze or Doze-suspend. -/
def Signal.staysOff : Signal → Bool
  | .powerMode mode =>
    mode != HWC2_POWER_MODE_ON && mode != HWC2_POWER_MODE_DOZE &&
      mode != HWC2_POWER_MODE_DOZE_SUSPEND
  | _ => true

/-- The power mode is neither On nor a low-power variant. -/
def OperationRateManager.isOff (s : OperationRateManager F) : Bool :=
  !s.isLowPower && s.mDisplayPowerMode != some HWC2_POWER_MODE_ON

/-- Number of `Signal()` notifications the worker has received (0 without
a worker). -/
def OperationRateManager.signalCount (s : OperationRateManager F) : Nat :=
  match s.mHistogramQueryWorker with
  | some w => w.signalCount
  | none => 0

/-- Whether the worker is accumulating (false without a worker). -/
def OperationRateManager.queryMode (s : OperationRateManager F) : Bool :=
  match s.mHistogramQueryWorker with
  | some w => w.mQueryMode
  | none => false

/-- Exact rational arithmetic, an idealisation of `float` without
rounding. It is not the arithmetic of the program (that is `float32Arith`);
it serves as a second instance of the abstract record. -/
def exactArith : LumaArith ℚ :=
  { zero := 0,
    ofInt := fun n => (n : ℚ),
    add := fun a b => a + b,
    sub := fun a b => a - b,
    div := fun a b => a / b,
    abs := fun a => |a|,
    gt := fun a b => decide (a > b),
    toBool := fun a => decide (a ≠ 0) }

/-- A display with a 1080x2400 panel that resolves config 1 to 120 Hz and
every other config to 60 Hz, rate switching enabled. -/
def sampleDisplay : Display :=
  { getRefreshRate := fun cfg => if cfg = 1 then 120 else 60,
    mXres := 1080, mYres := 2400,
    isConfigSettingEnabled := true, mHistogramController := true }

/-- An empty, writable property store whose integer properties are unset. -/
def sampleProperties : Properties :=
  { entries := [], setFails := false, getInt32 := fun _ dflt => dflt }

/-- A registered worker that is accumulating, baseline 50, threshold 5. -/
def sampleWorker : HistogramQueryWorker ℚ :=
  { mReady := true, mQueryMode := true,
    mHistogramLumaDeltaThreshold := 5, mPrevHistogramLuma := 50,
    roiLeft := 0, roiTop := 0, roiRight := 1080, roiBottom := 2400, signalCount := 0 }

/-- A manager with HS 120 and NS 60, power mode On, target HS, brightness
80 and a worker. -/
def sampleManager : OperationRateManager ℚ :=
  { mDisplayHsOperationRate := 120, mDisplayNsOperationRate := 60,
    mDisplayTargetOperationRate := 120, mDisplayNsMinDbv := 20,
    mDisplayPeakRefreshRate := 60, mDisplayRefreshRate := 60,
    mDisplayLastDbv := 80, mDisplayDbv := 80, mDisplayHsSwitchMinDbv := 50,
    mDisplayPowerMode := some HWC2_POWER_MODE_ON,
    mDisplayLowBatteryModeEnabled := false,
    mHistogramQueryWorker := some sampleWorker }

/-- The sample manager with the sample property store. -/
def sampleSystem : System ℚ := { mgr := sampleManager, props := sampleProperties }

/-- A manager just constructed with HS 120 and NS 60 (no worker), with
the sample property store. -/
def freshSystem : System ℚ :=
  { mgr := OperationRateManager.new exactArith sampleProperties 120 60,
    props := sampleProperties }

/-- The signals `onPowerMode(Doze)` then `onConfig(1)` (120 Hz). -/
def dozeThenConfig : List (Display × Signal) :=
  [(sampleDisplay, Signal.powerMode HWC2_POWER_MODE_DOZE), (sampleDisplay, Signal.config 1)]

/-- Signals that arrive while the panel is off: a config change to
120 Hz, a brightness report, a luma-delta event and a second power-off. -/
def offSignals : List (Display × Signal) :=
  [(sampleDisplay, Signal.config 1), (sampleDisplay, Signal.brightness 200),
    (sampleDisplay, Signal.histogram), (sampleDisplay, Signal.powerMode HWC2_POWER_MODE_OFF)]

/-- The brightness floor that applies: `nsMinBrightness` under low
battery, else `hsSwitchMinBrightness` (step 4 of the decision). -/
def OperationRateManager.floorDbv (s : OperationRateManager F) : Int :=
  if s.mDisplayLowBatteryModeEnabled then s.mDisplayNsMinDbv else s.mDisplayHsSwitchMinDbv

/-- Whether a brightness is in the blocking zone (below the floor). -/
def OperationRateManager.inBlockingZone (s : OperationRateManager F) (brightness : Int) : Bool :=
  decide (brightness < s.floorDbv)

/-- The steady low-refresh-rate condition (step 2 of the decision):
the peak rate is known and at most NS, or low battery is enabled, and the
current refresh rate is at most NS. -/
def OperationRateManager.steadyLowRefresh (s : OperationRateManager F) : Bool :=
  ((s.mDisplayPeakRefreshRate != 0 &&
      decide (s.mDisplayPeakRefreshRate ≤ s.mDisplayNsOperationRate)) ||
    s.mDisplayLowBatteryModeEnabled) &&
  decide (s.mDisplayRefreshRate ≤ s.mDisplayNsOperationRate)

/-- The desired rate of steps 1-4 of the decision for a brightness: NS
when the steady low-refresh-rate condition holds outside the blocking
zone, HS otherwise. -/
def OperationRateManager.desiredRate (s : OperationRateManager F) (brightness : Int) : Int :=
  if s.steadyLowRefresh && !s.inBlockingZone brightness then s.mDisplayNsOperationRate
  else s.mDisplayHsOperationRate

/-- The sample manager in the steady low-refresh-rate state: target NS
(60), peak rate 60, refresh rate 60, brightness 80, switch floor 50. -/
def sampleManagerNs : OperationRateManager ℚ :=
  { sampleManager with mDisplayTargetOperationRate := 60 }

/-- The sample manager as Doze leaves it: power mode Doze, stored target
at the low-power rate. -/
def sampleManagerDoze : OperationRateManager ℚ :=
  { sampleManager with
    mDisplayTargetOperationRate := 30, mDisplayPowerMode := some HWC2_POWER_MODE_DOZE }

/-- The condition of lines 122-123 of `onConfig`: a worker exists, its
configuration is a runtime-resolution one and the refresh rate of the
config equals the current one, so that the call only updates the region
of interest. -/
def OperationRateManager.takesResolutionShortcut (d : Display) (s : OperationRateManager F)
    (cfg : Nat) : Bool :=
  match s.mHistogramQueryWorker with
  | some w => w.isRuntimeResolutionConfig d && s.mDisplayRefreshRate == d.getRefreshRate cfg
  | none => false

/-- The effective rate left by the `SET_CONFIG` branch (lines 237-260),
entered with effective rate `e0`. -/
def OperationRateManager.configEffectiveRate (s : OperationRateManager F) (dbv : Int)
    (isDbvInBlockingZone : Bool) (e0 : Int) : Int :=
  if s.mDisplayRefreshRate ≤ s.mDisplayHsOperationRate then
    if !s.mHistogramQueryWorker.isSome then
      if s.mDisplayRefreshRate > s.mDisplayNsOperationRate then s.mDisplayHsOperationRate else e0
    else if !isDbvInBlockingZone then
      if s.mDisplayLowBatteryModeEnabled &&
          (s.mDisplayHsSwitchMinDbv == 0 || decide (dbv < s.mDisplayHsSwitchMinDbv)) then e0
      else if s.mDisplayRefreshRate > s.mDisplayNsOperationRate then s.mDisplayHsOperationRate
      else e0
    else e0
  else e0

/-- The target left by the publication step (lines 296-303) for an
effective rate `eff`, the target before being `target`. -/
def publishedTarget (d : Display) (ns target eff : Int) : Int :=
  if !d.isConfigSettingEnabled && eff == ns then target
  else if toUInt32 eff > kLowPowerOperationRate then eff
  else target

/-- The target left by an evaluation tagged `SET_CONFIG`. -/
def OperationRateManager.configTarget (d : Display) (s : OperationRateManager F) : Int :=
  if s.isLowPower then
    publishedTarget d s.mDisplayNsOperationRate kLowPowerOperationRate
      (s.configEffectiveRate s.mDisplayLastDbv (s.inBlockingZone s.mDisplayLastDbv)
        kLowPowerOperationRate)
  else if s.mDisplayPowerMode != some HWC2_POWER_MODE_ON then s.mDisplayTargetOperationRate
  else
    publishedTarget d s.mDisplayNsOperationRate s.mDisplayTargetOperationRate
      (s.configEffectiveRate s.mDisplayLastDbv (s.inBlockingZone s.mDisplayLastDbv) 0)

/-- A manager whose worker was registered at 720x1600 while the panel is
now 1080x2400, refresh rate 120 Hz, target still NS (60). -/
def sampleManagerResolution : OperationRateManager ℚ :=
  { sampleManager with
    mDisplayTargetOperationRate := 60, mDisplayRefreshRate := 120,
    mHistogramQueryWorker := some { sampleWorker with roiRight := 720, roiBottom := 1600 } }

/-- The sum over the buckets of index times count. -/
def bucketWeightedSum (data : List Int) : Int :=
  (data.enum.map (fun ic => (ic.1 : Int) * ic.2)).sum

/-- The total count of a histogram. -/
def bucketTotal (data : List Int) : Int := data.sum

/-- The count-weighted mean bucket index of a histogram, as an exact
rational number. -/
def meanBucketIndex (data : List Int) : ℚ :=
  (bucketWeightedSum data : ℚ) / (bucketTotal data : ℚ)

/-- The luma baseline of the worker, when there is a worker. -/
def OperationRateManager.prevLuma (s : OperationRateManager F) : Option F :=
  s.mHistogramQueryWorker.map (fun w => w.mPrevHistogramLuma)

/-- A query answer of 256 buckets with 10 pixels in bucket `k` only. -/
def singleBucket (k : Nat) : List Int :=
  (List.range 256).map (fun i => if i = k then 10 else 0)

/-- A pass of the worker loop woken by its timeout whose query succeeds
with the histogram `data`. -/
def sampleInput (data : List Int) : RoutineInput :=
  { binderOk := true, registerStatusOk := true, registerErr := HistogramErrorCode.NONE,
    waitRet := -110, queryStatusOk := true, queryErr := HistogramErrorCode.NONE,
    data := data }

/-- Whether the worker is registered with the histogram service (false
without a worker). -/
def OperationRateManager.ready (s : OperationRateManager F) : Bool :=
  match s.mHistogramQueryWorker with
  | some w => w.mReady
  | none => false

/-- Whether a registration attempt of `prepare` succeeds: a binder was
obtained, the call returned an ok status and the sensor reported no error. -/
def RoutineInput.registrationOk (inp : RoutineInput) : Bool :=
  inp.binderOk && inp.registerStatusOk && inp.registerErr == HistogramErrorCode.NONE

/-- Whether the query of a pass is taken as failed by `Routine` (line 496):
the status is not ok or the error code is `BAD_TOKEN`. -/
def RoutineInput.queryFailed (inp : RoutineInput) : Bool :=
  !(inp.queryStatusOk && inp.queryErr != HistogramErrorCode.BAD_TOKEN)

/-- A property store that refuses every write. -/
def readOnlyProperties : Properties :=
  { entries := [], setFails := true, getInt32 := fun _ dflt => dflt }

/-- The sample display with rate switching disabled. -/
def lockedDisplay : Display :=
  { sampleDisplay with isConfigSettingEnabled := false }

/-- The sample manager with a worker that is not registered yet. -/
def unregisteredManager : OperationRateManager ℚ :=
  { sampleManager with
    mHistogramQueryWorker := some { sampleWorker with mReady := false, mQueryMode := false } }

/-- A pass of the worker loop whose registration call returns a transport
error. -/
def failingRegistration : RoutineInput :=
  { sampleInput [] with registerStatusOk := false }

/-- A registered worker whose region of interest matches the panel width
of the sample display (1080) but not its height (1600 against 2400). -/
def halfMatchWorker : HistogramQueryWorker ℚ :=
  { sampleWorker with roiRight := 1080, roiBottom := 1600 }

/-- The manager of `sampleManagerResolution` with low battery enabled and
brightness 30 (outside the blocking zone, under the switch floor). -/
def sampleManagerResolutionLowBattery : OperationRateManager ℚ :=
  { sampleManagerResolution with
    mDisplayLowBatteryModeEnabled := true, mDisplayLastDbv := 30, mDisplayDbv := 30 }

/-- The sample manager at NS (60) under low battery with brightness 30:
outside the blocking zone (floor 20) and under the switch floor (50). -/
def sampleManagerDeferred : OperationRateManager ℚ :=
  { sampleManager with
    mDisplayTargetOperationRate := 60, mDisplayLowBatteryModeEnabled := true,
    mDisplayLastDbv := 30, mDisplayDbv := 30 }

/-- The sample manager at NS (60) without a worker. -/
def sampleManagerNoWorker : OperationRateManager ℚ :=
  { sampleManager with mDisplayTargetOperationRate := 60, mHistogramQueryWorker := none }

/-- The luma of a histogram as lines 502-513 of `Routine` compute it: the
accumulated sum divided by the accumulated count. -/
def histogramLuma (A : LumaArith F) (data : List Int) : F :=
  A.div (lumaLoop A data 0 A.zero 0).1 (A.ofInt (lumaLoop A data 0 A.zero 0).2)

/-- Whether the worker holds no baseline: it is not accumulating, or its
stored luma is false as a condition (line 518), that is zero. True without
a worker. -/
def OperationRateManager.noBaseline (A : LumaArith F) (s : OperationRateManager F) : Bool :=
  match s.mHistogramQueryWorker with
  | some w => !w.mQueryMode || !A.toBool w.mPrevHistogramLuma
  | none => true

/-- Whether a pass of the loop ends without a sample: the wait is
interrupted, the query is taken as failed, or every bucket count is zero
(an empty answer included). -/
def RoutineInput.noSample (inp : RoutineInput) : Bool :=
  inp.waitRet == -EINTR || inp.queryFailed || inp.data.all (fun x => x == 0)

/-- Whether a signal is not a pass of the loop that obtains a sample. -/
def Signal.noSample : Signal → Bool
  | .routine inp => inp.noSample
  | _ => true

/-- The sample manager with a worker that waits for its first wake-up. -/
def sampleManagerIdle : OperationRateManager ℚ :=
  { sampleManager with mHistogramQueryWorker := some { sampleWorker with mQueryMode := false } }

/-- A pass of the loop that is woken by a signal and whose query fails,
then a brightness report of 85. -/
def failedPassThenBrightness : List (Display × Signal) :=
  [(sampleDisplay, Signal.routine { sampleInput [] with waitRet := 0, queryStatusOk := false }),
    (sampleDisplay, Signal.brightness 85)]

/-- Number of binary digits of `n`, for `n` below `2 ^ fuel`. -/
def bitLengthFuel : Nat → Nat → Nat
  | 0, _ => 0
  | fuel + 1, n => if n = 0 then 0 else bitLengthFuel fuel (n / 2) + 1

/-- Number of binary digits of a natural number. -/
def bitLength (n : Nat) : Nat := bitLengthFuel n n

/-- The integer nearest to `a / b`, ties to the even one. -/
def roundHalfEven (a b : Nat) : Nat :=
  if 2 * (a % b) < b then a / b
  else if b < 2 * (a % b) then a / b + 1
  else if (a / b) % 2 = 0 then a / b else a / b + 1

/-- The unit in which binary32 values are counted: every finite `float`
is a whole multiple of 2^-149, so a `float` is held as that multiple, and
`binary32Unit` is the number 1. -/
def binary32Unit : Nat := 2 ^ 149

/-- The `float` nearest to the non-negative quotient `a / b`, both counted
in units: a significand of 24 binary digits (the spacing is one unit below
2^24 units, which covers the subnormal range), ties to even. Overflow to
infinity is not represented. -/
def roundBinary32 (a b : Nat) : Nat :=
  let g := bitLength a - bitLength b
  let e := if b * 2 ^ g ≤ a then g else g - 1
  let k := e - 23
  roundHalfEven a (b * 2 ^ k) * 2 ^ k

/-- The `float` nearest to the quotient `a / b` of an integer by a positive
natural number. -/
def roundBinary32Signed (a : Int) (b : Nat) : Int :=
  if a < 0 then -((roundBinary32 a.natAbs b : Nat) : Int)
  else ((roundBinary32 a.natAbs b : Nat) : Int)

/-- The `float` arithmetic of the program (IEEE 754 binary32, every
operation rounded to nearest, ties to even), on values held as counts of
units. Infinities and NaN are not represented, and the two zeros are one. -/
def float32Arith : LumaArith Int :=
  { zero := 0,
    ofInt := fun n => roundBinary32Signed (n * binary32Unit) 1,
    add := fun a b => roundBinary32Signed (a + b) 1,
    sub := fun a b => roundBinary32Signed (a - b) 1,
    div := fun a b =>
      if b < 0 then roundBinary32Signed (-(a * binary32Unit)) b.natAbs
      else roundBinary32Signed (a * binary32Unit) b.natAbs,
    abs := fun a => (a.natAbs : Int),
    gt := fun a b => decide (a > b),
    toBool := fun a => a != 0 }

/-- A registered worker that is accumulating, in `float` arithmetic:
baseline 50, threshold 5. -/
def sampleWorkerBinary32 : HistogramQueryWorker Int :=
  { mReady := true, mQueryMode := true,
    mHistogramLumaDeltaThreshold := float32Arith.ofInt 5,
    mPrevHistogramLuma := float32Arith.ofInt 50,
    roiLeft := 0, roiTop := 0, roiRight := 1080, roiBottom := 2400, signalCount := 0 }

/-- The sample manager (HS 120, NS 60, power mode On, target HS,
brightness 80) with a worker in `float` arithmetic. -/
def sampleManagerBinary32 : OperationRateManager Int :=
  { mDisplayHsOperationRate := 120, mDisplayNsOperationRate := 60,
    mDisplayTargetOperationRate := 120, mDisplayNsMinDbv := 20,
    mDisplayPeakRefreshRate := 60, mDisplayRefreshRate := 60,
    mDisplayLastDbv := 80, mDisplayDbv := 80, mDisplayHsSwitchMinDbv := 50,
    mDisplayPowerMode := some HWC2_POWER_MODE_ON,
    mDisplayLowBatteryModeEnabled := false,
    mHistogramQueryWorker := some sampleWorkerBinary32 }

/-- A histogram of `k + 1` buckets with 10 pixels in bucket `k` only. -/
def bucketAt (k : Nat) : List Int := List.replicate k 0 ++ [10]

/-- A pass of the worker loop woken by its timeout whose query returns an
ok status, the histogram `data` and a sensor error other than `BAD_TOKEN`. -/
def sensorErrorInput (data : List Int) : RoutineInput :=
  { sampleInput data with queryErr := HistogramErrorCode.OTHER }

/-! ## Frame facts of the evaluation -/

theorem toInt32_kLowPowerOperationRate : toInt32 kLowPowerOperationRate = kLowPowerOperationRate := by
  decide

theorem publish_sameSettings (d : Display) (s : OperationRateManager F) (des eff : Int) :
    s.SameSettings (s.publish d des eff).2 := by
  simp only [OperationRateManager.publish]
  split_ifs <;> simp [OperationRateManager.workerStartQuery, OperationRateManager.SameSettings]

theorem sameSettings_trans {s t u : OperationRateManager F} (h1 : s.SameSettings t)
    (h2 : t.SameSettings u) : s.SameSettings u := by
  unfold OperationRateManager.SameSettings at *
  simp_all

theorem evaluate_sameSettings (d : Display) (s : OperationRateManager F) (c : DispOpCondition)
    (dbv : Int) (b : Bool) (des eff : Int) :
    s.SameSettings (s.evaluate d c dbv b des eff).2 := by
  cases c <;> simp only [OperationRateManager.evaluate] <;> (try split_ifs) <;>
    first
      | exact publish_sameSettings _ _ _ _
      | (refine sameSettings_trans ?_ (publish_sameSettings d _ _ _)
         simp [OperationRateManager.SameSettings, OperationRateManager.workerStopQuery, OperationRateManager.getTargetOperationRate])
      | simp [OperationRateManager.SameSettings, OperationRateManager.workerStopQuery, OperationRateManager.getTargetOperationRate]

theorem updateOperationRateLocked_sameSettings (d : Display) (s : OperationRateManager F)
    (c : DispOpCondition) : s.SameSettings (s.updateOperationRateLocked d c).2 := by
  simp only [OperationRateManager.updateOperationRateLocked]
  by_cases h1 : s.isLowPower = true
  · rw [if_pos h1]
    refine sameSettings_trans ?_ (evaluate_sameSettings d _ _ _ _ _ _)
    simp [OperationRateManager.SameSettings]
  · rw [if_neg h1]
    by_cases h2 : (s.mDisplayPowerMode != some HWC2_POWER_MODE_ON) = true
    · rw [if_pos h2]
      simp [OperationRateManager.SameSettings, OperationRateManager.workerStopQuery]
    · rw [if_neg h2]
      exact evaluate_sameSettings d _ _ _ _ _ _

/-- The target after `publish`. -/
theorem publish_target (d : Display) (s : OperationRateManager F) (des eff : Int) :
    (s.publish d des eff).2.mDisplayTargetOperationRate =
      if (!d.isConfigSettingEnabled && eff == s.mDisplayNsOperationRate) then
        s.mDisplayTargetOperationRate
      else if toUInt32 eff > kLowPowerOperationRate then eff
      else s.mDisplayTargetOperationRate := by
  simp only [OperationRateManager.publish]
  split_ifs <;> simp_all [OperationRateManager.workerStartQuery]

theorem publish_targetOk (d : Display) (s : OperationRateManager F) (des eff : Int)
    (hs : s.TargetOk)
    (he : eff = s.mDisplayHsOperationRate ∨ eff = s.mDisplayNsOperationRate ∨
      eff = kLowPowerOperationRate ∨ eff = 0) :
    (s.publish d des eff).2.TargetOk := by
  have h1 := publish_sameSettings d s des eff
  have h2 := publish_target d s des eff
  unfold OperationRateManager.TargetOk OperationRateManager.SameSettings at *
  rw [h2, h1.1, h1.2.1]
  split_ifs with ha hb
  · exact hs
  · rcases he with he | he | he | he
    · exact Or.inl he
    · exact Or.inr (Or.inl he)
    · exact Or.inr (Or.inr he)
    · subst he; simp [toUInt32, kLowPowerOperationRate] at hb
  · exact hs

theorem getTargetOperationRate_ok (s : OperationRateManager F) (hs : s.TargetOk) :
    s.getTargetOperationRate = s.mDisplayHsOperationRate ∨
      s.getTargetOperationRate = s.mDisplayNsOperationRate ∨
      s.getTargetOperationRate = kLowPowerOperationRate := by
  unfold OperationRateManager.getTargetOperationRate
  split_ifs
  · exact Or.inr (Or.inr toInt32_kLowPowerOperationRate)
  · exact hs

theorem evaluate_targetOk (d : Display) (s : OperationRateManager F) (c : DispOpCondition)
    (dbv : Int) (b : Bool) (des eff : Int) (hs : s.TargetOk)
    (hd : des = s.mDisplayHsOperationRate ∨ des = s.mDisplayNsOperationRate ∨
      des = kLowPowerOperationRate)
    (he : eff = s.mDisplayHsOperationRate ∨ eff = s.mDisplayNsOperationRate ∨
      eff = kLowPowerOperationRate ∨ eff = 0) :
    (s.evaluate d c dbv b des eff).2.TargetOk := by
  have hd2 : des = s.mDisplayHsOperationRate ∨ des = s.mDisplayNsOperationRate ∨
      des = kLowPowerOperationRate ∨ des = 0 := by tauto
  cases c <;> simp only [OperationRateManager.evaluate] <;> (try split_ifs) <;>
    first
      | exact publish_targetOk _ _ _ _ hs he
      | exact publish_targetOk _ _ _ _ hs hd2
      | exact publish_targetOk _ _ _ _ hs (Or.inl rfl)
      | exact publish_targetOk _ _ _ _ (by simpa [OperationRateManager.TargetOk, OperationRateManager.workerStopQuery] using hs) he
      | exact publish_targetOk _ _ _ _ (by simpa [OperationRateManager.TargetOk, OperationRateManager.workerStopQuery] using hs) hd2
      | exact publish_targetOk _ _ _ _ (by simpa [OperationRateManager.TargetOk, OperationRateManager.workerStopQuery] using hs) (Or.inl rfl)
      | (simpa [OperationRateManager.TargetOk, OperationRateManager.workerStopQuery] using hs)
      | exact publish_targetOk _ _ _ _ (getTargetOperationRate_ok s hs) hd2

theorem updateOperationRateLocked_targetOk (d : Display) (s : OperationRateManager F)
    (c : DispOpCondition) (hs : s.TargetOk) : (s.updateOperationRateLocked d c).2.TargetOk := by
  simp only [OperationRateManager.updateOperationRateLocked]
  by_cases h1 : s.isLowPower = true
  · rw [if_pos h1]
    apply evaluate_targetOk
    · exact Or.inr (Or.inr toInt32_kLowPowerOperationRate)
    · exact Or.inr (Or.inr toInt32_kLowPowerOperationRate)
    · exact Or.inr (Or.inr (Or.inl toInt32_kLowPowerOperationRate))
  · rw [if_neg h1]
    by_cases h2 : (s.mDisplayPowerMode != some HWC2_POWER_MODE_ON) = true
    · rw [if_pos h2]
      simpa [OperationRateManager.TargetOk, OperationRateManager.workerStopQuery] using hs
    · rw [if_neg h2]
      apply evaluate_targetOk _ _ _ _ _ _ _ hs
      · split_ifs <;> simp
      · exact Or.inr (Or.inr (Or.inr rfl))

theorem sameSettings_sameRates {s t : OperationRateManager F} (h : s.SameSettings t) :
    s.SameRates t := ⟨h.1, h.2.1, h.2.2.2.2.2.2.2.2.2⟩

theorem sameRates_trans {s t u : OperationRateManager F} (h1 : s.SameRates t)
    (h2 : t.SameRates u) : s.SameRates u := by
  unfold OperationRateManager.SameRates at *
  simp_all

theorem updateOperationRateLocked_powerMode (d : Display) (s : OperationRateManager F)
    (c : DispOpCondition) :
    (s.updateOperationRateLocked d c).2.mDisplayPowerMode = s.mDisplayPowerMode :=
  (updateOperationRateLocked_sameSettings d s c).2.2.2.2.2.2.2.1

theorem updateOperationRateLocked_sameRates (d : Display) (s : OperationRateManager F)
    (c : DispOpCondition) : s.SameRates (s.updateOperationRateLocked d c).2 :=
  sameSettings_sameRates (updateOperationRateLocked_sameSettings d s c)

/-! ## Facts about the entry points -/

theorem onPowerMode_powerMode (d : Display) (s : OperationRateManager F) (mode : Int) :
    (s.onPowerMode d mode).2.mDisplayPowerMode = some mode := by
  simp only [OperationRateManager.onPowerMode, updateOperationRateLocked_powerMode]

theorem onPowerMode_sameRates (d : Display) (s : OperationRateManager F) (mode : Int) :
    s.SameRates (s.onPowerMode d mode).2 := by
  simp only [OperationRateManager.onPowerMode]
  exact sameRates_trans ⟨rfl, rfl, rfl⟩ (updateOperationRateLocked_sameRates d _ _)

theorem onPowerMode_targetOk (d : Display) (s : OperationRateManager F) (mode : Int)
    (hs : s.TargetOk) : (s.onPowerMode d mode).2.TargetOk := by
  simp only [OperationRateManager.onPowerMode]
  exact updateOperationRateLocked_targetOk d _ _ hs

theorem onHistogram_facts (d : Display) (s : OperationRateManager F) :
    s.SameSettings (s.onHistogram d).2 ∧ (s.TargetOk → (s.onHistogram d).2.TargetOk) := by
  unfold OperationRateManager.onHistogram
  exact ⟨updateOperationRateLocked_sameSettings d _ _, updateOperationRateLocked_targetOk d _ _⟩

/-- Shape of `onBrightness`: either the early return, or an evaluation
tagged `SET_DBV` on the state with the new brightness and a peak rate. -/
theorem onBrightness_cases (d : Display) (p : Properties) (s : OperationRateManager F)
    (dbv : Int) :
    s.onBrightness d p dbv = (0, s) ∨
      ∃ pk : Int, s.onBrightness d p dbv =
        OperationRateManager.updateOperationRateLocked d
          { s with mDisplayDbv := toInt32 dbv, mDisplayPeakRefreshRate := pk } .SET_DBV := by
  simp only [OperationRateManager.onBrightness]
  split_ifs
  · exact Or.inl rfl
  · exact Or.inr ⟨_, rfl⟩
  · exact Or.inr ⟨_, rfl⟩
  · exact Or.inr ⟨_, rfl⟩

theorem onBrightness_facts (d : Display) (p : Properties) (s : OperationRateManager F)
    (dbv : Int) :
    s.SameRates (s.onBrightness d p dbv).2 ∧
      (s.onBrightness d p dbv).2.mDisplayPowerMode = s.mDisplayPowerMode ∧
      (s.TargetOk → (s.onBrightness d p dbv).2.TargetOk) := by
  rcases onBrightness_cases d p s dbv with h | ⟨pk, h⟩
  · rw [h]; exact ⟨⟨rfl, rfl, rfl⟩, rfl, id⟩
  · rw [h]
    refine ⟨sameRates_trans ⟨rfl, rfl, rfl⟩ (updateOperationRateLocked_sameRates d _ _),
      by rw [updateOperationRateLocked_powerMode], fun hs => ?_⟩
    exact updateOperationRateLocked_targetOk d _ _ hs

/-- Shape of `onConfig`: either the runtime-resolution shortcut, or an
evaluation tagged `SET_CONFIG` on the state with the new refresh rate. -/
theorem onConfig_cases (d : Display) (s : OperationRateManager F) (cfg : Nat) :
    (∃ w, s.mHistogramQueryWorker = some w ∧ w.isRuntimeResolutionConfig d = true ∧
        s.mDisplayRefreshRate = d.getRefreshRate cfg ∧
        s.onConfig d cfg =
          (0, { s with mHistogramQueryWorker := some (w.updateConfig d.mXres d.mYres) })) ∨
      s.onConfig d cfg =
        (0, (OperationRateManager.updateOperationRateLocked d
          { s with mDisplayRefreshRate := d.getRefreshRate cfg } .SET_CONFIG).2) := by
  simp only [OperationRateManager.onConfig]
  split
  · rename_i w hw
    split_ifs with h
    · simp only [Bool.and_eq_true, beq_iff_eq] at h
      exact Or.inl ⟨w, hw, h.1, h.2, rfl⟩
    · exact Or.inr rfl
  · exact Or.inr rfl

theorem onConfig_facts (d : Display) (s : OperationRateManager F) (cfg : Nat) :
    s.SameRates (s.onConfig d cfg).2 ∧
      (s.onConfig d cfg).2.mDisplayPowerMode = s.mDisplayPowerMode ∧
      (s.TargetOk → (s.onConfig d cfg).2.TargetOk) := by
  rcases onConfig_cases d s cfg with ⟨w, hw, -, -, h⟩ | h
  · rw [h]; exact ⟨⟨rfl, rfl, by simp [hw]⟩, rfl, id⟩
  · rw [h]
    refine ⟨sameRates_trans ⟨rfl, rfl, rfl⟩ (updateOperationRateLocked_sameRates d _ _),
      by rw [updateOperationRateLocked_powerMode], fun hs => ?_⟩
    exact updateOperationRateLocked_targetOk d _ _ hs

/-- Shape of a pass of `Routine`: it leaves the manager alone, or only
rewrites the worker, or reports one event through `onHistogram`. -/
theorem Routine_cases (A : LumaArith F) (d : Display) (s : OperationRateManager F)
    (inp : RoutineInput) :
    Routine A d s inp = (s, 0) ∨
      (∃ w, s.mHistogramQueryWorker.isSome = true ∧
        Routine A d s inp = ({ s with mHistogramQueryWorker := some w }, 0)) ∨
      (∃ w luma, s.mHistogramQueryWorker.isSome = true ∧
        Routine A d s inp =
          ((OperationRateManager.onHistogram d
            { s with mHistogramQueryWorker := some w }).2.workerSetPrevLuma luma, 1)) := by
  unfold Routine
  split
  · exact Or.inl rfl
  · rename_i w hw
    have hs : s.mHistogramQueryWorker.isSome = true := by simp [hw]
    split_ifs
    · exact Or.inl rfl
    · exact Or.inr (Or.inl ⟨_, hs, rfl⟩)
    · exact Or.inr (Or.inl ⟨_, hs, rfl⟩)
    · simp only [RoutineQuery]
      split_ifs
      · exact Or.inr (Or.inl ⟨_, hs, rfl⟩)
      · exact Or.inr (Or.inl ⟨_, hs, rfl⟩)
      · exact Or.inr (Or.inr ⟨_, _, hs, rfl⟩)
      · exact Or.inr (Or.inl ⟨_, hs, rfl⟩)
      · exact Or.inr (Or.inl ⟨_, hs, rfl⟩)

theorem Routine_facts (A : LumaArith F) (d : Display) (s : OperationRateManager F)
    (inp : RoutineInput) :
    s.SameRates (Routine A d s inp).1 ∧
      (Routine A d s inp).1.mDisplayPowerMode = s.mDisplayPowerMode ∧
      (s.TargetOk → (Routine A d s inp).1.TargetOk) := by
  rcases Routine_cases A d s inp with h | ⟨w, hw, h⟩ | ⟨w, luma, hw, h⟩
  · rw [h]; exact ⟨⟨rfl, rfl, rfl⟩, rfl, id⟩
  · rw [h]; exact ⟨⟨rfl, rfl, by simp [hw]⟩, rfl, id⟩
  · rw [h]
    refine ⟨?_, ?_, fun hs => ?_⟩
    · refine sameRates_trans (t := { s with mHistogramQueryWorker := some w })
        ⟨rfl, rfl, by simp [hw]⟩ ?_
      refine sameRates_trans (sameSettings_sameRates (onHistogram_facts d _).1) ?_
      simp [OperationRateManager.SameRates, OperationRateManager.workerSetPrevLuma]
    · simp only [OperationRateManager.workerSetPrevLuma]
      rw [(onHistogram_facts d _).1.2.2.2.2.2.2.2.1]
    · have := (onHistogram_facts d _).2
        (show OperationRateManager.TargetOk { s with mHistogramQueryWorker := some w } from hs)
      simpa [OperationRateManager.TargetOk, OperationRateManager.workerSetPrevLuma] using this

/-! ## Sequences of signals -/

theorem onPeakRefreshRate_mgr (p : Properties) (s : OperationRateManager F) (rate : Int) :
    (s.onPeakRefreshRate p rate).2.1 = { s with mDisplayPeakRefreshRate := toInt32 rate } := by
  unfold OperationRateManager.onPeakRefreshRate
  rfl

theorem step_peak (A : LumaArith F) (sys : System F) (d : Display) (rate : Int) :
    (sys.step A d (.peakRefreshRate rate)).mgr =
      { sys.mgr with mDisplayPeakRefreshRate := toInt32 rate } := by
  show (sys.mgr.onPeakRefreshRate sys.props rate).2.1 = _
  exact onPeakRefreshRate_mgr _ _ _

theorem targetOk_congr {s t : OperationRateManager F}
    (h1 : t.mDisplayTargetOperationRate = s.mDisplayTargetOperationRate)
    (h2 : t.mDisplayHsOperationRate = s.mDisplayHsOperationRate)
    (h3 : t.mDisplayNsOperationRate = s.mDisplayNsOperationRate) (h : s.TargetOk) :
    t.TargetOk := by
  unfold OperationRateManager.TargetOk at *
  rw [h1, h2, h3]; exact h

theorem step_facts (A : LumaArith F) (sys : System F) (d : Display) (sig : Signal) :
    sys.mgr.SameRates (sys.step A d sig).mgr ∧
      (sys.mgr.TargetOk → (sys.step A d sig).mgr.TargetOk) := by
  cases sig with
  | powerMode mode => exact ⟨onPowerMode_sameRates d _ _, onPowerMode_targetOk d _ _⟩
  | brightness dbv =>
    exact ⟨(onBrightness_facts d _ _ _).1, (onBrightness_facts d _ _ _).2.2⟩
  | config cfg => exact ⟨(onConfig_facts d _ _).1, (onConfig_facts d _ _).2.2⟩
  | peakRefreshRate rate =>
    rw [step_peak]
    exact ⟨⟨rfl, rfl, rfl⟩, targetOk_congr rfl rfl rfl⟩
  | lowPowerMode enabled => exact ⟨⟨rfl, rfl, rfl⟩, targetOk_congr rfl rfl rfl⟩
  | histogram =>
    exact ⟨sameSettings_sameRates (onHistogram_facts d _).1, (onHistogram_facts d _).2⟩
  | routine inp => exact ⟨(Routine_facts A d _ _).1, (Routine_facts A d _ _).2.2⟩

theorem step_powerMode (A : LumaArith F) (sys : System F) (d : Display) (sig : Signal) :
    (sys.step A d sig).mgr.mDisplayPowerMode =
      match sig with
      | .powerMode mode => some mode
      | _ => sys.mgr.mDisplayPowerMode := by
  cases sig with
  | powerMode mode => exact onPowerMode_powerMode d _ _
  | brightness dbv => exact (onBrightness_facts d _ _ _).2.1
  | config cfg => exact (onConfig_facts d _ _).2.1
  | peakRefreshRate rate => rw [step_peak]
  | lowPowerMode enabled => rfl
  | histogram => exact (onHistogram_facts d _).1.2.2.2.2.2.2.2.1
  | routine inp => exact (Routine_facts A d _ _).2.1

theorem run_powerMode (A : LumaArith F) (sigs : List (Display × Signal)) :
    ∀ sys : System F, (sys.run A sigs).mgr.mDisplayPowerMode =
      match lastPowerMode sigs with
      | some m => some m
      | none => sys.mgr.mDisplayPowerMode := by
  induction sigs with
  | nil => intro sys; rfl
  | cons x rest ih =>
    intro sys
    obtain ⟨d, sig⟩ := x
    simp only [System.run]
    rw [ih]
    cases sig <;> simp only [lastPowerMode] <;> cases lastPowerMode rest <;>
      simp [step_powerMode]

/-- C1. After any sequence of signals whose most recent power-mode signal
is Doze or Doze-suspend, `getTargetOperationRate()` returns the low-power
rate, whatever the starting state and whatever the other signals were. -/
theorem getTargetOperationRate_low_power_after_signals (A : LumaArith F) (sys : System F)
    (sigs : List (Display × Signal)) (m : Int) (hlast : lastPowerMode sigs = some m)
    (hm : m = HWC2_POWER_MODE_DOZE ∨ m = HWC2_POWER_MODE_DOZE_SUSPEND) :
    (sys.run A sigs).mgr.getTargetOperationRate = kLowPowerOperationRate := by
  have h := run_powerMode A sigs sys
  rw [hlast] at h
  simp only [] at h
  unfold OperationRateManager.getTargetOperationRate OperationRateManager.isLowPower
  rw [h]
  rcases hm with hm | hm <;> subst hm <;> simp [toInt32_kLowPowerOperationRate]

/-! ## Evaluations in a low-power mode -/

theorem toUInt32_kLowPowerOperationRate_not_gt :
    ¬ toUInt32 kLowPowerOperationRate > kLowPowerOperationRate := by decide

theorem publish_target_of_low (d : Display) (s : OperationRateManager F) (des : Int) :
    (s.publish d des kLowPowerOperationRate).2.mDisplayTargetOperationRate =
      s.mDisplayTargetOperationRate := by
  rw [publish_target]
  split_ifs with h1 h2
  · rfl
  · exact absurd h2 toUInt32_kLowPowerOperationRate_not_gt
  · rfl

theorem publish_target_cases (d : Display) (s : OperationRateManager F) (des eff : Int) :
    (s.publish d des eff).2.mDisplayTargetOperationRate = s.mDisplayTargetOperationRate ∨
      (s.publish d des eff).2.mDisplayTargetOperationRate = eff := by
  rw [publish_target]
  split_ifs <;> simp

/-- In Doze or Doze-suspend an evaluation entered with target, desired and
effective rate all equal to the low-power rate leaves the target at the
low-power rate, except that a `SET_CONFIG` evaluation may publish HS. -/
theorem evaluate_low_power_target (d : Display) (s : OperationRateManager F)
    (c : DispOpCondition) (dbv : Int) (b : Bool)
    (ht : s.mDisplayTargetOperationRate = kLowPowerOperationRate)
    (hlp : s.isLowPower = true) :
    let t := (s.evaluate d c dbv b kLowPowerOperationRate
      kLowPowerOperationRate).2.mDisplayTargetOperationRate
    (c ≠ .SET_CONFIG → t = kLowPowerOperationRate) ∧
      (t = kLowPowerOperationRate ∨ t = s.mDisplayHsOperationRate) := by
  have hon : (s.mDisplayPowerMode == some HWC2_POWER_MODE_ON) = false := by
    unfold OperationRateManager.isLowPower at hlp
    cases hp : s.mDisplayPowerMode with
    | none => rfl
    | some m =>
      rw [hp] at hlp
      simp only [Bool.or_eq_true, beq_iff_eq, Option.some.injEq] at hlp
      rcases hlp with h | h <;> subst h <;> decide
  cases c
  case SET_CONFIG =>
    simp only [OperationRateManager.evaluate, ne_eq, not_true_eq_false, false_implies, true_and]
    split_ifs
    all_goals first
      | (rw [publish_target_of_low]; exact Or.inl ht)
      | (rcases publish_target_cases d s kLowPowerOperationRate s.mDisplayHsOperationRate with h | h
         · rw [h]; exact Or.inl ht
         · rw [h]; exact Or.inr rfl)
      | (rcases publish_target_cases d s.workerStopQuery kLowPowerOperationRate
            s.mDisplayHsOperationRate with h | h
         · rw [h]; exact Or.inl ht
         · rw [h]; exact Or.inr rfl)
  case PANEL_SET_POWER =>
    simp only [OperationRateManager.evaluate, hon, Bool.false_eq_true, if_false,
      publish_target_of_low, ht]
    simp
  case SET_DBV =>
    simp only [OperationRateManager.evaluate, ite_self]
    split_ifs <;> simp only [publish_target_of_low] <;>
      simp [ht, OperationRateManager.workerStopQuery]
  case HISTOGRAM_DELTA =>
    simp only [OperationRateManager.evaluate, publish_target_of_low, ht]
    simp
  case MAX =>
    simp only [OperationRateManager.evaluate, publish_target_of_low, ht]
    simp

theorem isLowPower_congr {s t : OperationRateManager F}
    (h : t.mDisplayPowerMode = s.mDisplayPowerMode) : t.isLowPower = s.isLowPower := by
  unfold OperationRateManager.isLowPower; rw [h]

theorem updateOperationRateLocked_low_power (d : Display) (s : OperationRateManager F)
    (c : DispOpCondition) :
    (s.updateOperationRateLocked d c).2.LowPowerOrHsTarget ∧
      (c ≠ .SET_CONFIG → (s.updateOperationRateLocked d c).2.LowPowerTarget) := by
  have hpm := updateOperationRateLocked_powerMode d s c
  have hhs := (updateOperationRateLocked_sameSettings d s c).1
  unfold OperationRateManager.LowPowerOrHsTarget OperationRateManager.LowPowerTarget
  rw [isLowPower_congr hpm, hhs]
  suffices h : s.isLowPower = true →
      ((c ≠ .SET_CONFIG → (s.updateOperationRateLocked d c).2.mDisplayTargetOperationRate =
          kLowPowerOperationRate) ∧
        ((s.updateOperationRateLocked d c).2.mDisplayTargetOperationRate =
            kLowPowerOperationRate ∨
          (s.updateOperationRateLocked d c).2.mDisplayTargetOperationRate =
            s.mDisplayHsOperationRate)) from
    ⟨fun hlp => (h hlp).2, fun hc hlp => (h hlp).1 hc⟩
  intro hlp
  simp only [OperationRateManager.updateOperationRateLocked, if_pos hlp,
    toInt32_kLowPowerOperationRate]
  exact evaluate_low_power_target d
    { s with mDisplayTargetOperationRate := kLowPowerOperationRate } c _ _ rfl hlp

theorem lowPowerTarget_congr {s t : OperationRateManager F}
    (h1 : t.mDisplayTargetOperationRate = s.mDisplayTargetOperationRate)
    (h2 : t.mDisplayPowerMode = s.mDisplayPowerMode) (h : s.LowPowerTarget) :
    t.LowPowerTarget := by
  unfold OperationRateManager.LowPowerTarget at *
  rw [h1, isLowPower_congr h2]; exact h

theorem lowPowerOrHsTarget_congr {s t : OperationRateManager F}
    (h1 : t.mDisplayTargetOperationRate = s.mDisplayTargetOperationRate)
    (h2 : t.mDisplayPowerMode = s.mDisplayPowerMode)
    (h3 : t.mDisplayHsOperationRate = s.mDisplayHsOperationRate) (h : s.LowPowerOrHsTarget) :
    t.LowPowerOrHsTarget := by
  unfold OperationRateManager.LowPowerOrHsTarget at *
  rw [h1, isLowPower_congr h2, h3]; exact h

theorem step_low_power (A : LumaArith F) (sys : System F) (d : Display) (sig : Signal) :
    (sys.mgr.LowPowerOrHsTarget → (sys.step A d sig).mgr.LowPowerOrHsTarget) ∧
      (sig.isConfig = false → sys.mgr.LowPowerTarget →
        (sys.step A d sig).mgr.LowPowerTarget) := by
  cases sig with
  | powerMode mode =>
    exact ⟨fun _ => (updateOperationRateLocked_low_power d _ _).1,
      fun _ _ => (updateOperationRateLocked_low_power d _ _).2 (by decide)⟩
  | brightness dbv =>
    show (_ → OperationRateManager.LowPowerOrHsTarget (sys.mgr.onBrightness d sys.props dbv).2) ∧
      (_ → _ → OperationRateManager.LowPowerTarget (sys.mgr.onBrightness d sys.props dbv).2)
    rcases onBrightness_cases d sys.props sys.mgr dbv with h | ⟨pk, h⟩
    · rw [h]; exact ⟨fun h => h, fun _ h => h⟩
    · rw [h]
      exact ⟨fun _ => (updateOperationRateLocked_low_power d _ _).1,
        fun _ _ => (updateOperationRateLocked_low_power d _ _).2 (by decide)⟩
  | config cfg =>
    refine ⟨?_, fun h => by simp [Signal.isConfig] at h⟩
    show _ → OperationRateManager.LowPowerOrHsTarget (sys.mgr.onConfig d cfg).2
    rcases onConfig_cases d sys.mgr cfg with ⟨w, hw, -, -, h⟩ | h
    · rw [h]; exact lowPowerOrHsTarget_congr rfl rfl rfl
    · rw [h]; exact fun _ => (updateOperationRateLocked_low_power d _ _).1
  | peakRefreshRate rate =>
    rw [step_peak]
    exact ⟨lowPowerOrHsTarget_congr rfl rfl rfl, fun _ => lowPowerTarget_congr rfl rfl⟩
  | lowPowerMode enabled =>
    exact ⟨lowPowerOrHsTarget_congr rfl rfl rfl, fun _ => lowPowerTarget_congr rfl rfl⟩
  | histogram =>
    exact ⟨fun _ => (updateOperationRateLocked_low_power d _ _).1,
      fun _ _ => (updateOperationRateLocked_low_power d _ _).2 (by decide)⟩
  | routine inp =>
    show (_ → OperationRateManager.LowPowerOrHsTarget (Routine A d sys.mgr inp).1) ∧
      (_ → _ → OperationRateManager.LowPowerTarget (Routine A d sys.mgr inp).1)
    rcases Routine_cases A d sys.mgr inp with h | ⟨w, hw, h⟩ | ⟨w, luma, hw, h⟩
    · rw [h]; exact ⟨fun h => h, fun _ h => h⟩
    · rw [h]
      exact ⟨lowPowerOrHsTarget_congr rfl rfl rfl, fun _ => lowPowerTarget_congr rfl rfl⟩
    · rw [h]
      exact ⟨fun _ => lowPowerOrHsTarget_congr rfl rfl rfl
          (updateOperationRateLocked_low_power d _ .HISTOGRAM_DELTA).1,
        fun _ _ => lowPowerTarget_congr rfl rfl
          ((updateOperationRateLocked_low_power d _ .HISTOGRAM_DELTA).2 (by decide))⟩

theorem run_low_power (A : LumaArith F) (sigs : List (Display × Signal)) :
    ∀ sys : System F,
      (sys.mgr.LowPowerOrHsTarget → (sys.run A sigs).mgr.LowPowerOrHsTarget) ∧
      ((∀ x ∈ sigs, x.2.isConfig = false) → sys.mgr.LowPowerTarget →
        (sys.run A sigs).mgr.LowPowerTarget) := by
  induction sigs with
  | nil => intro sys; exact ⟨fun h => h, fun _ h => h⟩
  | cons x rest ih =>
    intro sys
    obtain ⟨d, sig⟩ := x
    simp only [System.run]
    refine ⟨fun h => (ih _).1 ((step_low_power A sys d sig).1 h), fun hc h => ?_⟩
    refine (ih _).2 (fun y hy => hc y (List.mem_cons_of_mem _ hy)) ?_
    exact (step_low_power A sys d sig).2 (hc (d, sig) (List.mem_cons_self _ _)) h

/-- C2, counterexample. A fresh manager (HS 120, NS 60) that receives
`onPowerMode(Doze)` and then an `onConfig` resolving to 120 Hz is in Doze
with the stored target at 120, not at the low-power rate. -/
theorem low_power_target_overridden_by_config :
    (freshSystem.run exactArith dozeThenConfig).mgr.isLowPower = true ∧
      (freshSystem.run exactArith dozeThenConfig).mgr.mDisplayTargetOperationRate = 120 ∧
      ¬ (freshSystem.run exactArith dozeThenConfig).mgr.LowPowerTarget := by
  refine ⟨by rfl, by rfl, ?_⟩
  intro h
  have := h (by rfl)
  revert this
  show ¬ ((120 : Int) = kLowPowerOperationRate)
  decide

/-- C2 (amended). Along any sequence of signals, while the power mode is
Doze or Doze-suspend the stored target is the low-power rate or the HS
rate; it is the low-power rate as long as no `onConfig` arrives, and an
`onConfig` is the only signal that can replace it by the HS rate. -/
theorem low_power_target_invariant (A : LumaArith F) (sys : System F)
    (sigs : List (Display × Signal)) (h0 : sys.mgr.LowPowerOrHsTarget) :
    (sys.run A sigs).mgr.LowPowerOrHsTarget ∧
      ((∀ x ∈ sigs, x.2.isConfig = false) → sys.mgr.LowPowerTarget →
        (sys.run A sigs).mgr.LowPowerTarget) :=
  ⟨(run_low_power A sigs sys).1 h0, (run_low_power A sigs sys).2⟩

theorem low_power_target_invariant_witness :
    freshSystem.mgr.LowPowerOrHsTarget ∧
      (freshSystem.run exactArith dozeThenConfig).mgr.LowPowerOrHsTarget ∧
      ((∀ x ∈ dozeThenConfig, x.2.isConfig = false) → freshSystem.mgr.LowPowerTarget →
        (freshSystem.run exactArith dozeThenConfig).mgr.LowPowerTarget) :=
  ⟨fun h => absurd h (by decide),
    low_power_target_invariant exactArith freshSystem dozeThenConfig
      (fun h => absurd h (by decide))⟩

theorem getTargetOperationRate_low_power_after_signals_witness :
    lastPowerMode [(sampleDisplay, Signal.powerMode HWC2_POWER_MODE_DOZE),
        (sampleDisplay, Signal.config 1), (sampleDisplay, Signal.brightness 200)] =
        some HWC2_POWER_MODE_DOZE ∧
      (sampleSystem.run exactArith [(sampleDisplay, Signal.powerMode HWC2_POWER_MODE_DOZE),
        (sampleDisplay, Signal.config 1),
        (sampleDisplay, Signal.brightness 200)]).mgr.getTargetOperationRate =
        kLowPowerOperationRate :=
  ⟨rfl, getTargetOperationRate_low_power_after_signals exactArith sampleSystem _
    HWC2_POWER_MODE_DOZE rfl (Or.inl rfl)⟩

/-! ## The stored target is a supported rate -/

theorem run_facts (A : LumaArith F) (sigs : List (Display × Signal)) :
    ∀ sys : System F, sys.mgr.SameRates (sys.run A sigs).mgr ∧
      (sys.mgr.TargetOk → (sys.run A sigs).mgr.TargetOk) := by
  induction sigs with
  | nil => intro sys; exact ⟨⟨rfl, rfl, rfl⟩, fun h => h⟩
  | cons x rest ih =>
    intro sys
    obtain ⟨d, sig⟩ := x
    simp only [System.run]
    exact ⟨sameRates_trans (step_facts A sys d sig).1 (ih _).1,
      fun h => (ih _).2 ((step_facts A sys d sig).2 h)⟩

/-- C3. Starting from a freshly constructed manager, after any sequence of
signals (entry points and worker passes) the stored target rate is the HS
rate, the NS rate or the low-power rate. -/
theorem target_rate_always_supported (A : LumaArith F) (p : Properties) (hsHz nsHz : Int)
    (sigs : List (Display × Signal)) :
    (System.run A { mgr := OperationRateManager.new A p hsHz nsHz, props := p }
        sigs).mgr.mDisplayTargetOperationRate = hsHz ∨
      (System.run A { mgr := OperationRateManager.new A p hsHz nsHz, props := p }
        sigs).mgr.mDisplayTargetOperationRate = nsHz ∨
      (System.run A { mgr := OperationRateManager.new A p hsHz nsHz, props := p }
        sigs).mgr.mDisplayTargetOperationRate = kLowPowerOperationRate := by
  have h := run_facts A sigs { mgr := OperationRateManager.new A p hsHz nsHz, props := p }
  have h0 : (OperationRateManager.new A p hsHz nsHz).TargetOk := Or.inl rfl
  have h1 := h.2 h0
  unfold OperationRateManager.TargetOk at h1
  rw [h.1.1, h.1.2.1] at h1
  exact h1

/-! ## A fully-off power mode -/

theorem isOff_congr {s t : OperationRateManager F}
    (h : t.mDisplayPowerMode = s.mDisplayPowerMode) : t.isOff = s.isOff := by
  unfold OperationRateManager.isOff; rw [isLowPower_congr h, h]

theorem isOff_of_powerMode {s t : OperationRateManager F}
    (h : t.mDisplayPowerMode = s.mDisplayPowerMode) (hs : s.isOff = true) : t.isOff = true := by
  rw [isOff_congr h]; exact hs

/-- In a fully-off power mode an evaluation only stops the worker. -/
theorem updateOperationRateLocked_off (d : Display) (s : OperationRateManager F)
    (c : DispOpCondition) (hoff : s.isOff = true) :
    s.updateOperationRateLocked d c = (HWC2_ERROR_NONE, s.workerStopQuery) := by
  unfold OperationRateManager.isOff at hoff
  simp only [Bool.and_eq_true, Bool.not_eq_true'] at hoff
  simp only [OperationRateManager.updateOperationRateLocked, hoff.1, hoff.2, if_true,
    Bool.false_eq_true, if_false]

theorem workerStopQuery_facts (s : OperationRateManager F) :
    s.workerStopQuery.mDisplayTargetOperationRate = s.mDisplayTargetOperationRate ∧
      s.workerStopQuery.mDisplayPowerMode = s.mDisplayPowerMode ∧
      s.workerStopQuery.signalCount = s.signalCount ∧
      s.workerStopQuery.queryMode = false := by
  refine ⟨rfl, rfl, ?_, ?_⟩ <;>
    cases h : s.mHistogramQueryWorker <;>
    simp [OperationRateManager.workerStopQuery, OperationRateManager.signalCount,
      OperationRateManager.queryMode, HistogramQueryWorker.stopQuery, h]

theorem prepare_signalCount (w : HistogramQueryWorker F) (d : Display) (inp : RoutineInput) :
    (w.prepare d inp).signalCount = w.signalCount := by
  unfold HistogramQueryWorker.prepare
  split_ifs <;> rfl

theorem afterWait_signalCount (A : LumaArith F) (w : HistogramQueryWorker F) :
    (w.afterWait A).signalCount = w.signalCount := by
  unfold HistogramQueryWorker.afterWait
  split_ifs <;> rfl

/-- A pass of the worker loop in a fully-off power mode sends no
notification to the worker and leaves target and power mode alone. -/
theorem Routine_off (A : LumaArith F) (d : Display) (s : OperationRateManager F)
    (inp : RoutineInput) (hoff : s.isOff = true) :
    (Routine A d s inp).1.mDisplayTargetOperationRate = s.mDisplayTargetOperationRate ∧
      (Routine A d s inp).1.mDisplayPowerMode = s.mDisplayPowerMode ∧
      (Routine A d s inp).1.signalCount = s.signalCount := by
  unfold Routine
  split
  · exact ⟨rfl, rfl, rfl⟩
  · rename_i w hw
    have hc : s.signalCount = w.signalCount := by
      simp [OperationRateManager.signalCount, hw]
    split_ifs
    · exact ⟨rfl, rfl, rfl⟩
    · refine ⟨rfl, rfl, ?_⟩
      rw [hc]; exact prepare_signalCount w d inp
    · refine ⟨rfl, rfl, ?_⟩
      rw [hc]; exact afterWait_signalCount A w
    · simp only [RoutineQuery]
      split_ifs
      · refine ⟨rfl, rfl, ?_⟩
        rw [hc]; exact afterWait_signalCount A w
      · refine ⟨rfl, rfl, ?_⟩
        rw [hc]; exact afterWait_signalCount A w
      · have hoff1 : (s.setWorker (w.afterWait A).stopQuery).isOff = true := by
          exact isOff_of_powerMode rfl hoff
        simp only [OperationRateManager.onHistogram, updateOperationRateLocked_off d _ _ hoff1]
        refine ⟨rfl, rfl, ?_⟩
        rw [hc]; exact afterWait_signalCount A w
      · refine ⟨rfl, rfl, ?_⟩
        rw [hc]; exact afterWait_signalCount A w
      · refine ⟨rfl, rfl, ?_⟩
        rw [hc]; exact afterWait_signalCount A w

theorem off_stop (s0 s1 : OperationRateManager F) (hoff : s1.isOff = true)
    (ht : s1.mDisplayTargetOperationRate = s0.mDisplayTargetOperationRate)
    (hc : s1.signalCount = s0.signalCount) :
    s1.workerStopQuery.isOff = true ∧
      s1.workerStopQuery.mDisplayTargetOperationRate = s0.mDisplayTargetOperationRate ∧
      s1.workerStopQuery.signalCount = s0.signalCount ∧
      s1.workerStopQuery.queryMode = false := by
  have h := workerStopQuery_facts s1
  exact ⟨isOff_of_powerMode h.2.1 hoff, h.1.trans ht, h.2.2.1.trans hc, h.2.2.2⟩

/-- A signal that keeps the power mode fully off changes neither the
stored target nor the count of worker notifications; unless it is a pass
of the worker loop, it also leaves the worker disarmed. -/
theorem step_off (A : LumaArith F) (sys : System F) (d : Display) (sig : Signal)
    (hsig : sig.staysOff = true) (hoff : sys.mgr.isOff = true) :
    (sys.step A d sig).mgr.isOff = true ∧
      (sys.step A d sig).mgr.mDisplayTargetOperationRate =
        sys.mgr.mDisplayTargetOperationRate ∧
      (sys.step A d sig).mgr.signalCount = sys.mgr.signalCount ∧
      (sig.isRoutine = false → sys.mgr.queryMode = false →
        (sys.step A d sig).mgr.queryMode = false) := by
  cases sig with
  | powerMode mode =>
    have hoff1 : OperationRateManager.isOff { sys.mgr with mDisplayPowerMode := some mode }
        = true := by
      simp only [Signal.staysOff, Bool.and_eq_true, bne_iff_ne, ne_eq] at hsig
      simp [OperationRateManager.isOff, OperationRateManager.isLowPower, hsig.1.1, hsig.1.2,
        hsig.2]
    have hE : (sys.step A d (.powerMode mode)).mgr =
        OperationRateManager.workerStopQuery { sys.mgr with mDisplayPowerMode := some mode } := by
      show (sys.mgr.onPowerMode d mode).2 = _
      simp only [OperationRateManager.onPowerMode, updateOperationRateLocked_off d _ _ hoff1]
    rw [hE]
    have h := off_stop sys.mgr _ hoff1 rfl rfl
    exact ⟨h.1, h.2.1, h.2.2.1, fun _ _ => h.2.2.2⟩
  | brightness dbv =>
    rcases onBrightness_cases d sys.props sys.mgr dbv with h | ⟨pk, h⟩
    · have hE : (sys.step A d (.brightness dbv)).mgr = sys.mgr := by
        show (sys.mgr.onBrightness d sys.props dbv).2 = _
        rw [h]
      rw [hE]
      exact ⟨hoff, rfl, rfl, fun _ h => h⟩
    · have hoff1 : OperationRateManager.isOff
          { sys.mgr with mDisplayDbv := toInt32 dbv, mDisplayPeakRefreshRate := pk } = true :=
        isOff_of_powerMode rfl hoff
      have hE : (sys.step A d (.brightness dbv)).mgr = OperationRateManager.workerStopQuery
          { sys.mgr with mDisplayDbv := toInt32 dbv, mDisplayPeakRefreshRate := pk } := by
        show (sys.mgr.onBrightness d sys.props dbv).2 = _
        rw [h, updateOperationRateLocked_off d _ _ hoff1]
      rw [hE]
      have h := off_stop sys.mgr _ hoff1 rfl rfl
      exact ⟨h.1, h.2.1, h.2.2.1, fun _ _ => h.2.2.2⟩
  | config cfg =>
    rcases onConfig_cases d sys.mgr cfg with ⟨w, hw, -, -, h⟩ | h
    · have hE : (sys.step A d (.config cfg)).mgr =
          { sys.mgr with mHistogramQueryWorker := some (w.updateConfig d.mXres d.mYres) } := by
        show (sys.mgr.onConfig d cfg).2 = _
        rw [h]
      rw [hE]
      refine ⟨isOff_of_powerMode rfl hoff, rfl, ?_, fun _ hq => ?_⟩
      · simp [OperationRateManager.signalCount, hw, HistogramQueryWorker.updateConfig]
      · simpa [OperationRateManager.queryMode, hw, HistogramQueryWorker.updateConfig] using hq
    · have hoff1 : OperationRateManager.isOff
          { sys.mgr with mDisplayRefreshRate := d.getRefreshRate cfg } = true :=
        isOff_of_powerMode rfl hoff
      have hE : (sys.step A d (.config cfg)).mgr = OperationRateManager.workerStopQuery
          { sys.mgr with mDisplayRefreshRate := d.getRefreshRate cfg } := by
        show (sys.mgr.onConfig d cfg).2 = _
        rw [h, updateOperationRateLocked_off d _ _ hoff1]
      rw [hE]
      have h := off_stop sys.mgr _ hoff1 rfl rfl
      exact ⟨h.1, h.2.1, h.2.2.1, fun _ _ => h.2.2.2⟩
  | peakRefreshRate rate =>
    rw [step_peak]
    exact ⟨isOff_of_powerMode rfl hoff, rfl, rfl, fun _ h => h⟩
  | lowPowerMode enabled =>
    exact ⟨isOff_of_powerMode rfl hoff, rfl, rfl, fun _ h => h⟩
  | histogram =>
    have hE : (sys.step A d .histogram).mgr = sys.mgr.workerStopQuery := by
      show (sys.mgr.onHistogram d).2 = _
      simp only [OperationRateManager.onHistogram, updateOperationRateLocked_off d _ _ hoff]
    rw [hE]
    have h := off_stop sys.mgr _ hoff rfl rfl
    exact ⟨h.1, h.2.1, h.2.2.1, fun _ _ => h.2.2.2⟩
  | routine inp =>
    have h := Routine_off A d sys.mgr inp hoff
    exact ⟨isOff_of_powerMode h.2.1 hoff, h.1, h.2.2,
      fun hr => by simp [Signal.isRoutine] at hr⟩

theorem run_off (A : LumaArith F) (sigs : List (Display × Signal)) :
    ∀ sys : System F, (∀ x ∈ sigs, x.2.staysOff = true) → sys.mgr.isOff = true →
      (sys.run A sigs).mgr.isOff = true ∧
        (sys.run A sigs).mgr.mDisplayTargetOperationRate =
          sys.mgr.mDisplayTargetOperationRate ∧
        (sys.run A sigs).mgr.signalCount = sys.mgr.signalCount ∧
        ((∀ x ∈ sigs, x.2.isRoutine = false) → sys.mgr.queryMode = false →
          (sys.run A sigs).mgr.queryMode = false) := by
  induction sigs with
  | nil => intro sys _ hoff; exact ⟨hoff, rfl, rfl, fun _ h => h⟩
  | cons x rest ih =>
    intro sys hall hoff
    obtain ⟨d, sig⟩ := x
    have h1 := step_off A sys d sig (hall (d, sig) (List.mem_cons_self _ _)) hoff
    have h2 := ih (sys.step A d sig) (fun y hy => hall y (List.mem_cons_of_mem _ hy)) h1.1
    simp only [System.run]
    refine ⟨h2.1, h2.2.1.trans h1.2.1, h2.2.2.1.trans h1.2.2.1, fun hr hq => ?_⟩
    exact h2.2.2.2 (fun y hy => hr y (List.mem_cons_of_mem _ hy))
      (h1.2.2.2 (hr (d, sig) (List.mem_cons_self _ _)) hq)

theorem onPowerMode_off (d : Display) (s : OperationRateManager F) (mode : Int)
    (hm : (Signal.powerMode mode).staysOff = true) :
    (s.onPowerMode d mode).2 =
      OperationRateManager.workerStopQuery { s with mDisplayPowerMode := some mode } ∧
    OperationRateManager.isOff { s with mDisplayPowerMode := some mode } = true := by
  have hoff1 : OperationRateManager.isOff { s with mDisplayPowerMode := some mode } = true := by
    simp only [Signal.staysOff, Bool.and_eq_true, bne_iff_ne, ne_eq] at hm
    simp [OperationRateManager.isOff, OperationRateManager.isLowPower, hm.1.1, hm.1.2, hm.2]
  refine ⟨?_, hoff1⟩
  simp only [OperationRateManager.onPowerMode, updateOperationRateLocked_off d _ _ hoff1]

/-- C4. `onPowerMode(m)` for a mode `m` that is neither On nor a low-power
variant leaves the worker disarmed and the stored target unchanged.
Whatever signals arrive afterwards, as long as no `onPowerMode` to On, Doze
or Doze-suspend is among them, the manager sends no notification to the
worker (`startQuery` never signals), the target stays unchanged, and the
worker stays disarmed unless its own loop runs. -/
theorem power_off_disarms_and_never_arms (A : LumaArith F) (sys : System F) (d : Display)
    (mode : Int) (sigs : List (Display × Signal))
    (hm : (Signal.powerMode mode).staysOff = true)
    (hsigs : sigs.all (fun x => x.2.staysOff) = true) :
    (sys.step A d (.powerMode mode)).mgr.queryMode = false ∧
      (sys.step A d (.powerMode mode)).mgr.mDisplayTargetOperationRate =
        sys.mgr.mDisplayTargetOperationRate ∧
      (sys.step A d (.powerMode mode)).mgr.signalCount = sys.mgr.signalCount ∧
      ((sys.step A d (.powerMode mode)).run A sigs).mgr.mDisplayTargetOperationRate =
        sys.mgr.mDisplayTargetOperationRate ∧
      ((sys.step A d (.powerMode mode)).run A sigs).mgr.signalCount = sys.mgr.signalCount ∧
      (sigs.any (fun x => x.2.isRoutine) = false →
        ((sys.step A d (.powerMode mode)).run A sigs).mgr.queryMode = false) := by
  have h0 := onPowerMode_off d sys.mgr mode hm
  have hE : (sys.step A d (.powerMode mode)).mgr =
      OperationRateManager.workerStopQuery { sys.mgr with mDisplayPowerMode := some mode } :=
    h0.1
  have h1 := off_stop sys.mgr _ h0.2 rfl rfl
  rw [← hE] at h1
  have h2 := run_off A sigs (sys.step A d (.powerMode mode)) (List.all_eq_true.mp hsigs) h1.1
  refine ⟨h1.2.2.2, h1.2.1, h1.2.2.1, h2.2.1.trans h1.2.1, h2.2.2.1.trans h1.2.2.1,
    fun hr => h2.2.2.2 (fun x hx => ?_) h1.2.2.2⟩
  have := List.any_eq_false.mp hr x hx
  simpa using this

theorem power_off_disarms_and_never_arms_witness :
    (Signal.powerMode HWC2_POWER_MODE_OFF).staysOff = true ∧
      offSignals.all (fun x => x.2.staysOff) = true ∧
      offSignals.any (fun x => x.2.isRoutine) = false ∧
      (sampleSystem.step exactArith sampleDisplay
        (.powerMode HWC2_POWER_MODE_OFF)).mgr.queryMode = false ∧
      ((sampleSystem.step exactArith sampleDisplay (.powerMode HWC2_POWER_MODE_OFF)).run
        exactArith offSignals).mgr.mDisplayTargetOperationRate = 120 ∧
      ((sampleSystem.step exactArith sampleDisplay (.powerMode HWC2_POWER_MODE_OFF)).run
        exactArith offSignals).mgr.signalCount = 0 ∧
      ((sampleSystem.step exactArith sampleDisplay (.powerMode HWC2_POWER_MODE_OFF)).run
        exactArith offSignals).mgr.queryMode = false :=
  have h := power_off_disarms_and_never_arms exactArith sampleSystem sampleDisplay
    HWC2_POWER_MODE_OFF offSignals rfl rfl
  ⟨rfl, rfl, rfl, h.1, h.2.2.2.1, h.2.2.2.2.1, h.2.2.2.2.2 rfl⟩

/-! ## Evaluations in power mode On -/

theorem isLowPower_of_on (s : OperationRateManager F)
    (hon : s.mDisplayPowerMode = some HWC2_POWER_MODE_ON) : s.isLowPower = false := by
  unfold OperationRateManager.isLowPower
  rw [hon]; decide

/-- In power mode On an evaluation runs the branch on the condition tag
with the blocking-zone flag and the desired rate of steps 1-4. -/
theorem updateOperationRateLocked_on (d : Display) (s : OperationRateManager F)
    (c : DispOpCondition) (hon : s.mDisplayPowerMode = some HWC2_POWER_MODE_ON) :
    s.updateOperationRateLocked d c =
      s.evaluate d c (if c = .SET_DBV then s.mDisplayDbv else s.mDisplayLastDbv)
        (s.inBlockingZone (if c = .SET_DBV then s.mDisplayDbv else s.mDisplayLastDbv))
        (s.desiredRate (if c = .SET_DBV then s.mDisplayDbv else s.mDisplayLastDbv)) 0 := by
  have h1 := isLowPower_of_on s hon
  have h2 : (s.mDisplayPowerMode != some HWC2_POWER_MODE_ON) = false := by rw [hon]; simp
  simp only [OperationRateManager.updateOperationRateLocked, h1, h2, Bool.false_eq_true,
    if_false]
  generalize (if c = DispOpCondition.SET_DBV then s.mDisplayDbv else s.mDisplayLastDbv) = dbv
  have hb : (if s.mDisplayLowBatteryModeEnabled = true then decide (dbv < s.mDisplayNsMinDbv)
      else decide (dbv < s.mDisplayHsSwitchMinDbv)) = s.inBlockingZone dbv := by
    unfold OperationRateManager.inBlockingZone OperationRateManager.floorDbv
    split_ifs <;> rfl
  rw [hb]
  have hd : (if s.inBlockingZone dbv = true then s.mDisplayHsOperationRate
      else if ((s.mDisplayPeakRefreshRate != 0 &&
            decide (s.mDisplayPeakRefreshRate ≤ s.mDisplayNsOperationRate) ||
          s.mDisplayLowBatteryModeEnabled) &&
          decide (s.mDisplayRefreshRate ≤ s.mDisplayNsOperationRate)) = true then
        s.mDisplayNsOperationRate
      else s.mDisplayHsOperationRate) = s.desiredRate dbv := by
    unfold OperationRateManager.desiredRate OperationRateManager.steadyLowRefresh
    cases s.inBlockingZone dbv <;> simp
  rw [hd]

theorem onBrightness_eval (d : Display) (p : Properties) (s : OperationRateManager F)
    (dbv : Int) (h0 : dbv ≠ 0) (h1 : toUInt32 s.mDisplayLastDbv ≠ dbv) :
    ∃ pk : Int, s.onBrightness d p dbv =
      OperationRateManager.updateOperationRateLocked d
        { s with mDisplayDbv := toInt32 dbv, mDisplayPeakRefreshRate := pk } .SET_DBV := by
  have hc : (dbv == 0 || toUInt32 s.mDisplayLastDbv == dbv) = false := by
    simp [h0, h1]
  simp only [OperationRateManager.onBrightness, hc, Bool.false_eq_true, if_false]
  split_ifs
  · exact ⟨_, rfl⟩
  · exact ⟨_, rfl⟩
  · exact ⟨_, rfl⟩

theorem toInt32_of_isInt32 (x : Int) (h : isInt32 x) : toInt32 x = x := by
  unfold isInt32 at h
  unfold toInt32; omega

theorem toUInt32_of_nonneg (x : Int) (h0 : 0 ≤ x) (h1 : x ≤ 4294967295) : toUInt32 x = x := by
  unfold toUInt32; omega

theorem toUInt32_toInt32 (x : Int) (h0 : 0 ≤ x) (h1 : x ≤ 4294967295) :
    toUInt32 (toInt32 x) = x := by
  unfold toUInt32 toInt32; omega

/-- C5. A brightness report of 0, or of the level last recorded, returns
success and leaves the whole manager state (worker included) as it was. -/
theorem onBrightness_zero_or_same_is_noop (d : Display) (p : Properties)
    (s : OperationRateManager F) (level : Int) (hl0 : 0 ≤ level) (hl1 : level ≤ 4294967295)
    (h : level = 0 ∨ s.mDisplayLastDbv = toInt32 level) :
    s.onBrightness d p level = (HWC2_ERROR_NONE, s) := by
  have hc : (level == 0 || toUInt32 s.mDisplayLastDbv == level) = true := by
    rcases h with h | h
    · simp [h]
    · rw [h, toUInt32_toInt32 level hl0 hl1]; simp
  simp only [OperationRateManager.onBrightness, hc, if_true]
  rfl

theorem onBrightness_zero_or_same_is_noop_witness :
    (0 : Int) ≤ 80 ∧ (80 : Int) ≤ 4294967295 ∧
      ((80 : Int) = 0 ∨ sampleManager.mDisplayLastDbv = toInt32 80) ∧
      sampleManager.onBrightness sampleDisplay sampleProperties 80 =
        (HWC2_ERROR_NONE, sampleManager) :=
  ⟨by decide, by decide, Or.inr (by decide),
    onBrightness_zero_or_same_is_noop sampleDisplay sampleProperties sampleManager 80
      (by decide) (by decide) (Or.inr (by decide))⟩

theorem publish_target_of_gt (d : Display) (s : OperationRateManager F) (des eff : Int)
    (hg : toUInt32 eff > kLowPowerOperationRate)
    (hgate : d.isConfigSettingEnabled = true ∨ eff ≠ s.mDisplayNsOperationRate) :
    (s.publish d des eff).2.mDisplayTargetOperationRate = eff := by
  rw [publish_target]
  have h1 : (!d.isConfigSettingEnabled && eff == s.mDisplayNsOperationRate) = false := by
    rcases hgate with h | h
    · simp [h]
    · simp [h]
  simp only [h1, Bool.false_eq_true, if_false, if_pos hg]

/-- A `SET_DBV` evaluation whose desired rate is HS and whose brightness
step exceeds the threshold leaves the target at HS. -/
theorem evaluate_set_dbv_hs (d : Display) (s : OperationRateManager F) (dbv : Int) (b : Bool)
    (hhs : toUInt32 s.mDisplayHsOperationRate > kLowPowerOperationRate)
    (hne : s.mDisplayHsOperationRate ≠ s.mDisplayNsOperationRate)
    (hdelta : toUInt32 (abs32 (toInt32 (dbv - s.mDisplayLastDbv))) > kBrightnessDeltaThreshold) :
    (s.evaluate d .SET_DBV dbv b s.mDisplayHsOperationRate
      0).2.mDisplayTargetOperationRate = s.mDisplayHsOperationRate := by
  simp only [OperationRateManager.evaluate, hdelta, decide_True, Bool.or_true, Bool.and_true,
    beq_self_eq_true, ite_self, if_true, hhs, Bool.true_and]
  have hne2 : (s.mDisplayHsOperationRate == s.mDisplayNsOperationRate) = false := by
    simpa using hne
  split_ifs
  all_goals simp only [publish_target]
  all_goals simp_all [OperationRateManager.workerStopQuery]

theorem delta_exceeds_threshold (level last : Int) (hl0 : 0 ≤ level) (hl1 : level ≤ 2147483647)
    (h0 : 0 ≤ last) (h1 : last ≤ 2147483647) (hdelta : kBrightnessDeltaThreshold < |level - last|) :
    toUInt32 (abs32 (toInt32 (level - last))) > kBrightnessDeltaThreshold := by
  unfold kBrightnessDeltaThreshold at *
  unfold toUInt32 abs32 toInt32
  rcases abs_cases (level - last) with ⟨h, _⟩ | ⟨h, _⟩ <;> rw [h] at hdelta <;>
    split_ifs <;> omega

/-- C6. In power mode On with lowPowerRate < nsRate < hsRate, a non-zero
brightness report below the applicable floor whose step from the previous
brightness exceeds the threshold leaves the target at the HS rate. -/
theorem blocking_zone_forces_hs (d : Display) (p : Properties) (s : OperationRateManager F)
    (level : Int) (hon : s.mDisplayPowerMode = some HWC2_POWER_MODE_ON)
    (hlow : kLowPowerOperationRate < s.mDisplayNsOperationRate)
    (hns : s.mDisplayNsOperationRate < s.mDisplayHsOperationRate)
    (hhs : s.mDisplayHsOperationRate ≤ 2147483647)
    (hl0 : 0 < level) (hl1 : level ≤ 2147483647)
    (hlast0 : 0 ≤ s.mDisplayLastDbv) (hlast1 : s.mDisplayLastDbv ≤ 2147483647)
    (hfloor : level < s.floorDbv)
    (hdelta : kBrightnessDeltaThreshold < |level - s.mDisplayLastDbv|) :
    (s.onBrightness d p level).2.mDisplayTargetOperationRate = s.mDisplayHsOperationRate := by
  have hne : toUInt32 s.mDisplayLastDbv ≠ level := by
    rw [toUInt32_of_nonneg _ hlast0 (by omega)]
    intro h
    rw [h] at hdelta
    simp [kBrightnessDeltaThreshold] at hdelta
  obtain ⟨pk, h⟩ := onBrightness_eval d p s level (by omega) hne
  have e1 : toInt32 level = level := toInt32_of_isInt32 level ⟨by omega, hl1⟩
  rw [h, e1]
  have hon2 : OperationRateManager.mDisplayPowerMode
      { s with mDisplayDbv := level, mDisplayPeakRefreshRate := pk } =
      some HWC2_POWER_MODE_ON := hon
  rw [updateOperationRateLocked_on d _ _ hon2]
  simp only [if_true]
  have hb : OperationRateManager.inBlockingZone
      { s with mDisplayDbv := level, mDisplayPeakRefreshRate := pk } level = true := by
    unfold OperationRateManager.inBlockingZone
    exact decide_eq_true hfloor
  have hd : OperationRateManager.desiredRate
      { s with mDisplayDbv := level, mDisplayPeakRefreshRate := pk } level =
      s.mDisplayHsOperationRate := by
    unfold OperationRateManager.desiredRate
    rw [hb]; simp
  rw [hb, hd]
  have hk : toUInt32 s.mDisplayHsOperationRate > kLowPowerOperationRate := by
    unfold kLowPowerOperationRate at *
    unfold toUInt32; omega
  exact evaluate_set_dbv_hs d { s with mDisplayDbv := level, mDisplayPeakRefreshRate := pk }
    level true hk (by show s.mDisplayHsOperationRate ≠ s.mDisplayNsOperationRate; omega)
    (delta_exceeds_threshold level s.mDisplayLastDbv (by omega) hl1 hlast0 hlast1 hdelta)

theorem blocking_zone_forces_hs_witness :
    (sampleManagerNs.onBrightness sampleDisplay sampleProperties 30).2.mDisplayTargetOperationRate
      = 120 :=
  blocking_zone_forces_hs sampleDisplay sampleProperties sampleManagerNs 30 rfl (by decide)
    (by decide) (by decide) (by decide) (by decide) (by decide) (by decide) (by decide)
    (by decide)

theorem desiredRate_cases (s : OperationRateManager F) (b : Int) :
    s.desiredRate b = s.mDisplayNsOperationRate ∨ s.desiredRate b = s.mDisplayHsOperationRate := by
  unfold OperationRateManager.desiredRate
  split_ifs <;> simp

/-- C10. With rate switching enabled and both supported rates above the
low-power rate, `onPowerMode(On)` leaves the target equal to the desired
rate of steps 1-4 computed with the last recorded brightness, whatever the
previous power mode and target were. -/
theorem power_on_republishes_desired (d : Display) (s : OperationRateManager F)
    (hen : d.isConfigSettingEnabled = true)
    (hns : kLowPowerOperationRate < s.mDisplayNsOperationRate)
    (hhs : kLowPowerOperationRate < s.mDisplayHsOperationRate)
    (hns1 : s.mDisplayNsOperationRate ≤ 2147483647)
    (hhs1 : s.mDisplayHsOperationRate ≤ 2147483647) :
    (s.onPowerMode d HWC2_POWER_MODE_ON).2.mDisplayTargetOperationRate =
      s.desiredRate s.mDisplayLastDbv := by
  have hon : OperationRateManager.mDisplayPowerMode
      { s with mDisplayPowerMode := some HWC2_POWER_MODE_ON } = some HWC2_POWER_MODE_ON := rfl
  simp only [OperationRateManager.onPowerMode]
  rw [updateOperationRateLocked_on d _ _ hon]
  have hc : (DispOpCondition.PANEL_SET_POWER = DispOpCondition.SET_DBV) = False := by simp
  simp only [hc, if_false]
  have hd : OperationRateManager.desiredRate
      { s with mDisplayPowerMode := some HWC2_POWER_MODE_ON } s.mDisplayLastDbv =
      s.desiredRate s.mDisplayLastDbv := rfl
  rw [hd]
  have hk : toUInt32 (s.desiredRate s.mDisplayLastDbv) > kLowPowerOperationRate := by
    unfold kLowPowerOperationRate at *
    rcases desiredRate_cases s s.mDisplayLastDbv with h | h <;> rw [h] <;>
      unfold toUInt32 <;> omega
  simp only [OperationRateManager.evaluate]
  rw [publish_target_of_gt _ _ _ _ hk (Or.inl hen)]

theorem power_on_republishes_desired_witness :
    (sampleManagerDoze.onPowerMode sampleDisplay HWC2_POWER_MODE_ON).2.mDisplayTargetOperationRate
        = sampleManagerDoze.desiredRate sampleManagerDoze.mDisplayLastDbv ∧
      sampleManagerDoze.desiredRate sampleManagerDoze.mDisplayLastDbv = 60 :=
  ⟨power_on_republishes_desired sampleDisplay sampleManagerDoze rfl (by decide) (by decide)
    (by decide) (by decide), by decide⟩

/-! ## Evaluations tagged `SET_CONFIG` -/

theorem publish_target_eq (d : Display) (s : OperationRateManager F) (des eff : Int) :
    (s.publish d des eff).2.mDisplayTargetOperationRate =
      publishedTarget d s.mDisplayNsOperationRate s.mDisplayTargetOperationRate eff := by
  rw [publish_target]; rfl

theorem publish_lastDbv (d : Display) (s : OperationRateManager F) (des eff : Int) :
    (s.publish d des eff).2.mDisplayLastDbv = s.mDisplayLastDbv := by
  simp only [OperationRateManager.publish]
  split_ifs <;> simp [OperationRateManager.workerStartQuery]

theorem publishedTarget_idem (d : Display) (ns t eff : Int) :
    publishedTarget d ns (publishedTarget d ns t eff) eff = publishedTarget d ns t eff := by
  unfold publishedTarget
  split_ifs <;> rfl

theorem evaluate_config (d : Display) (s : OperationRateManager F) (dbv : Int) (b : Bool)
    (des e0 : Int) :
    (s.evaluate d .SET_CONFIG dbv b des e0).2.mDisplayTargetOperationRate =
        publishedTarget d s.mDisplayNsOperationRate s.mDisplayTargetOperationRate
          (s.configEffectiveRate dbv b e0) ∧
      (s.evaluate d .SET_CONFIG dbv b des e0).2.mDisplayLastDbv = s.mDisplayLastDbv := by
  simp only [OperationRateManager.evaluate, OperationRateManager.configEffectiveRate]
  split_ifs <;> simp only [publish_target_eq, publish_lastDbv] <;>
    trivial

theorem inBlockingZone_eq (s : OperationRateManager F) (dbv : Int) :
    (if s.mDisplayLowBatteryModeEnabled = true then decide (dbv < s.mDisplayNsMinDbv)
      else decide (dbv < s.mDisplayHsSwitchMinDbv)) = s.inBlockingZone dbv := by
  unfold OperationRateManager.inBlockingZone OperationRateManager.floorDbv
  split_ifs <;> rfl

/-- The target and the recorded brightness after an evaluation tagged
`SET_CONFIG`. -/
theorem updateOperationRateLocked_config (d : Display) (s : OperationRateManager F) :
    (s.updateOperationRateLocked d .SET_CONFIG).2.mDisplayTargetOperationRate =
        s.configTarget d ∧
      (s.updateOperationRateLocked d .SET_CONFIG).2.mDisplayLastDbv = s.mDisplayLastDbv := by
  have hc : (DispOpCondition.SET_CONFIG = DispOpCondition.SET_DBV) = False := by simp
  unfold OperationRateManager.configTarget
  simp only [OperationRateManager.updateOperationRateLocked, hc, if_false, inBlockingZone_eq,
    toInt32_kLowPowerOperationRate]
  by_cases h1 : s.isLowPower = true
  · rw [if_pos h1, if_pos h1]
    have h := evaluate_config d { s with mDisplayTargetOperationRate := kLowPowerOperationRate }
      s.mDisplayLastDbv (s.inBlockingZone s.mDisplayLastDbv) kLowPowerOperationRate
      kLowPowerOperationRate
    exact ⟨h.1, h.2⟩
  · rw [if_neg h1, if_neg h1]
    by_cases h2 : (s.mDisplayPowerMode != some HWC2_POWER_MODE_ON) = true
    · rw [if_pos h2, if_pos h2]
      exact ⟨rfl, rfl⟩
    · rw [if_neg h2, if_neg h2]
      exact evaluate_config d s _ _ _ _

theorem configTarget_congr (d : Display) {s t : OperationRateManager F} (h : s.SameSettings t)
    (hl : t.mDisplayLastDbv = s.mDisplayLastDbv)
    (ht : t.mDisplayTargetOperationRate = s.configTarget d) :
    t.configTarget d = s.configTarget d := by
  obtain ⟨h1, h2, h3, h4, h5, h6, h7, h8, h9, h10⟩ := h
  have hlp : t.isLowPower = s.isLowPower := isLowPower_congr h8
  have hb : t.inBlockingZone t.mDisplayLastDbv = s.inBlockingZone s.mDisplayLastDbv := by
    unfold OperationRateManager.inBlockingZone OperationRateManager.floorDbv
    rw [hl, h3, h7, h9]
  have he : ∀ e0, t.configEffectiveRate t.mDisplayLastDbv (t.inBlockingZone t.mDisplayLastDbv)
      e0 = s.configEffectiveRate s.mDisplayLastDbv (s.inBlockingZone s.mDisplayLastDbv) e0 := by
    intro e0
    rw [hb]
    unfold OperationRateManager.configEffectiveRate
    rw [hl, h1, h2, h5, h7, h9, h10]
  have key : t.configTarget d =
      if s.isLowPower then
        publishedTarget d s.mDisplayNsOperationRate kLowPowerOperationRate
          (s.configEffectiveRate s.mDisplayLastDbv (s.inBlockingZone s.mDisplayLastDbv)
            kLowPowerOperationRate)
      else if s.mDisplayPowerMode != some HWC2_POWER_MODE_ON then s.configTarget d
      else
        publishedTarget d s.mDisplayNsOperationRate (s.configTarget d)
          (s.configEffectiveRate s.mDisplayLastDbv (s.inBlockingZone s.mDisplayLastDbv) 0) := by
    unfold OperationRateManager.configTarget
    rw [hlp, he, he, h2, h8, ht]
    rfl
  rw [key]
  unfold OperationRateManager.configTarget
  by_cases c1 : s.isLowPower = true
  · simp [c1]
  · by_cases c2 : (s.mDisplayPowerMode != some HWC2_POWER_MODE_ON) = true
    · simp [c1, c2]
    · simp [c1, c2, publishedTarget_idem]

theorem takesResolutionShortcut_true (d : Display) (s : OperationRateManager F) (cfg : Nat)
    (h : s.takesResolutionShortcut d cfg = true) :
    ∃ w, s.mHistogramQueryWorker = some w ∧
      s.onConfig d cfg =
        (0, { s with mHistogramQueryWorker := some (w.updateConfig d.mXres d.mYres) }) := by
  unfold OperationRateManager.takesResolutionShortcut at h
  cases hw : s.mHistogramQueryWorker with
  | none => rw [hw] at h; simp at h
  | some w =>
    rw [hw] at h
    dsimp only at h
    refine ⟨w, rfl, ?_⟩
    simp only [OperationRateManager.onConfig, hw, h, if_true]

theorem takesResolutionShortcut_false (d : Display) (s : OperationRateManager F) (cfg : Nat)
    (h : s.takesResolutionShortcut d cfg = false) :
    s.onConfig d cfg =
      (0, (OperationRateManager.updateOperationRateLocked d
        { s with mDisplayRefreshRate := d.getRefreshRate cfg } .SET_CONFIG).2) := by
  unfold OperationRateManager.takesResolutionShortcut at h
  cases hw : s.mHistogramQueryWorker with
  | none => simp only [OperationRateManager.onConfig, hw]
  | some w =>
    rw [hw] at h
    dsimp only at h
    simp only [OperationRateManager.onConfig, hw, h, Bool.false_eq_true, if_false]

/-- When the first of two `onConfig(cfg)` calls evaluates, the second one
leaves the target and the other decision fields as the first left them. -/
theorem onConfig_evaluated_twice (d : Display) (s : OperationRateManager F) (cfg : Nat)
    (h : s.takesResolutionShortcut d cfg = false) :
    ((s.onConfig d cfg).2.onConfig d cfg).2.mDisplayTargetOperationRate =
        (s.onConfig d cfg).2.mDisplayTargetOperationRate ∧
      (s.onConfig d cfg).2.SameSettings ((s.onConfig d cfg).2.onConfig d cfg).2 ∧
      ((s.onConfig d cfg).2.onConfig d cfg).2.mDisplayLastDbv =
        (s.onConfig d cfg).2.mDisplayLastDbv := by
  have e1 := takesResolutionShortcut_false d s cfg h
  have hS := updateOperationRateLocked_sameSettings d
    { s with mDisplayRefreshRate := d.getRefreshRate cfg } .SET_CONFIG
  have hC := updateOperationRateLocked_config d
    { s with mDisplayRefreshRate := d.getRefreshRate cfg }
  rw [e1]
  generalize hs1 : (OperationRateManager.updateOperationRateLocked d
    { s with mDisplayRefreshRate := d.getRefreshRate cfg } .SET_CONFIG).2 = s1 at *
  have hr : s1.mDisplayRefreshRate = d.getRefreshRate cfg := hS.2.2.2.2.1
  cases h2 : s1.takesResolutionShortcut d cfg with
  | true =>
    obtain ⟨w, hw, e2⟩ := takesResolutionShortcut_true d s1 cfg h2
    show (s1.onConfig d cfg).2.mDisplayTargetOperationRate = _ ∧
      s1.SameSettings (s1.onConfig d cfg).2 ∧ (s1.onConfig d cfg).2.mDisplayLastDbv = _
    rw [e2]
    refine ⟨rfl, ?_, rfl⟩
    simp [OperationRateManager.SameSettings, hw]
  | false =>
    have e2 := takesResolutionShortcut_false d s1 cfg h2
    show (s1.onConfig d cfg).2.mDisplayTargetOperationRate = _ ∧
      s1.SameSettings (s1.onConfig d cfg).2 ∧ (s1.onConfig d cfg).2.mDisplayLastDbv = _
    rw [e2]
    have hS2 := updateOperationRateLocked_sameSettings d
      { s1 with mDisplayRefreshRate := d.getRefreshRate cfg } .SET_CONFIG
    have hC2 := updateOperationRateLocked_config d
      { s1 with mDisplayRefreshRate := d.getRefreshRate cfg }
    have hmid : OperationRateManager.SameSettings
        { s with mDisplayRefreshRate := d.getRefreshRate cfg }
        { s1 with mDisplayRefreshRate := d.getRefreshRate cfg } := by
      obtain ⟨a1, a2, a3, a4, a5, a6, a7, a8, a9, a10⟩ := hS
      exact ⟨a1, a2, a3, a4, rfl, a6, a7, a8, a9, a10⟩
    refine ⟨?_, ?_, hC2.2⟩
    · show (OperationRateManager.updateOperationRateLocked d
        { s1 with mDisplayRefreshRate := d.getRefreshRate cfg }
        .SET_CONFIG).2.mDisplayTargetOperationRate = s1.mDisplayTargetOperationRate
      rw [hC2.1, configTarget_congr d hmid hC.2 hC.1]
      exact hC.1.symm
    · refine sameSettings_trans (t := { s1 with mDisplayRefreshRate := d.getRefreshRate cfg })
        ?_ hS2
      exact ⟨rfl, rfl, rfl, rfl, hr.symm, rfl, rfl, rfl, rfl, rfl⟩
/-- C8, counterexample. The worker was registered at another resolution
and the refresh rate is already 120 Hz with the target still at NS: the
first `onConfig(1)` only updates the region of interest and leaves the
target at 60, the second one evaluates and publishes 120. The second call
is not a no-op. -/
theorem onConfig_second_call_changes_target :
    sampleManagerResolution.mDisplayTargetOperationRate = 60 ∧
      (sampleManagerResolution.onConfig sampleDisplay 1).2.mDisplayTargetOperationRate = 60 ∧
      ((sampleManagerResolution.onConfig sampleDisplay 1).2.onConfig sampleDisplay
        1).2.mDisplayTargetOperationRate = 120 ∧
      ((sampleManagerResolution.onConfig sampleDisplay 1).2.onConfig sampleDisplay
        1).2.mDisplayTargetOperationRate ≠
        (sampleManagerResolution.onConfig sampleDisplay 1).2.mDisplayTargetOperationRate := by
  refine ⟨by rfl, by rfl, by rfl, ?_⟩
  show ¬ ((120 : Int) = 60)
  decide

/-- C8 (amended). Two `onConfig(cfg)` calls in a row change the stored
target at most once. When the first call evaluates (it does not take the
same-rate runtime-resolution shortcut), the second call leaves the target
and every other decision field as the first call left them. When the
first call takes the shortcut, it changes no decision field itself. -/
theorem onConfig_twice (d : Display) (s : OperationRateManager F) (cfg : Nat) :
    ((s.onConfig d cfg).2.mDisplayTargetOperationRate = s.mDisplayTargetOperationRate ∨
        ((s.onConfig d cfg).2.onConfig d cfg).2.mDisplayTargetOperationRate =
          (s.onConfig d cfg).2.mDisplayTargetOperationRate) ∧
      (s.takesResolutionShortcut d cfg = false →
        ((s.onConfig d cfg).2.onConfig d cfg).2.mDisplayTargetOperationRate =
            (s.onConfig d cfg).2.mDisplayTargetOperationRate ∧
          (s.onConfig d cfg).2.SameSettings ((s.onConfig d cfg).2.onConfig d cfg).2 ∧
          ((s.onConfig d cfg).2.onConfig d cfg).2.mDisplayLastDbv =
            (s.onConfig d cfg).2.mDisplayLastDbv) ∧
      (s.takesResolutionShortcut d cfg = true →
        (s.onConfig d cfg).2.mDisplayTargetOperationRate = s.mDisplayTargetOperationRate ∧
          s.SameSettings (s.onConfig d cfg).2 ∧
          (s.onConfig d cfg).2.mDisplayLastDbv = s.mDisplayLastDbv) := by
  have hshort : s.takesResolutionShortcut d cfg = true →
      (s.onConfig d cfg).2.mDisplayTargetOperationRate = s.mDisplayTargetOperationRate ∧
        s.SameSettings (s.onConfig d cfg).2 ∧
        (s.onConfig d cfg).2.mDisplayLastDbv = s.mDisplayLastDbv := by
    intro h
    obtain ⟨w, hw, e⟩ := takesResolutionShortcut_true d s cfg h
    rw [e]
    refine ⟨rfl, ?_, rfl⟩
    simp [OperationRateManager.SameSettings, hw]
  refine ⟨?_, onConfig_evaluated_twice d s cfg, hshort⟩
  cases h : s.takesResolutionShortcut d cfg with
  | true => exact Or.inl (hshort h).1
  | false => exact Or.inr (onConfig_evaluated_twice d s cfg h).1

theorem onConfig_twice_witness :
    sampleManagerNs.takesResolutionShortcut sampleDisplay 1 = false ∧
      (sampleManagerNs.onConfig sampleDisplay 1).2.mDisplayTargetOperationRate = 120 ∧
      ((sampleManagerNs.onConfig sampleDisplay 1).2.onConfig sampleDisplay
        1).2.mDisplayTargetOperationRate =
        (sampleManagerNs.onConfig sampleDisplay 1).2.mDisplayTargetOperationRate :=
  ⟨by rfl, by rfl, ((onConfig_twice sampleDisplay sampleManagerNs 1).2.1 (by rfl)).1⟩

/-! ## Decimal text round trip -/

theorem digitChar_toNat (n : Nat) : (digitChar n).toNat = 48 + n % 10 := by
  unfold digitChar
  have h : n % 10 < 10 := Nat.mod_lt _ (by decide)
  generalize n % 10 = k at h
  interval_cases k <;> rfl

theorem isDigitChar_digitChar (n : Nat) : isDigitChar (digitChar n) = true := by
  unfold isDigitChar
  rw [digitChar_toNat]
  have h : n % 10 < 10 := Nat.mod_lt _ (by decide)
  simp only [Bool.and_eq_true, decide_eq_true_eq]
  omega

theorem atoiDigits_digitChar (acc n : Nat) (rest : List Char) :
    atoiDigits acc (digitChar n :: rest) = atoiDigits (acc * 10 + n % 10) rest := by
  simp only [atoiDigits, isDigitChar_digitChar, if_true, digitChar_toNat]
  congr 1
  omega

theorem atoiDigits_decDigits (n : Nat) :
    ∀ (acc : Nat) (rest : List Char),
      atoiDigits acc (decDigits n ++ rest) =
        atoiDigits (acc * 10 ^ (decDigits n).length + n) rest := by
  induction n using Nat.strong_induction_on with
  | _ n ih =>
    intro acc rest
    unfold decDigits
    split_ifs with h
    · simp only [List.singleton_append, List.length_singleton, pow_one]
      rw [atoiDigits_digitChar, Nat.mod_eq_of_lt h]
    · have hlt : n / 10 < n := by omega
      rw [List.append_assoc, List.singleton_append, ih (n / 10) hlt, atoiDigits_digitChar,
        List.length_append, List.length_singleton, pow_succ]
      congr 1
      have := Nat.div_add_mod n 10
      nlinarith [this]

theorem decDigits_head (n : Nat) :
    ∃ c cs, decDigits n = c :: cs ∧ isDigitChar c = true := by
  induction n using Nat.strong_induction_on with
  | _ n ih =>
    unfold decDigits
    split_ifs with h
    · exact ⟨_, [], rfl, isDigitChar_digitChar n⟩
    · obtain ⟨c, cs, hc, hd⟩ := ih (n / 10) (by omega)
      exact ⟨c, cs ++ [digitChar n], by rw [hc]; rfl, hd⟩

theorem atoiSkip_of_digit (c : Char) (cs : List Char) (h : isDigitChar c = true) :
    atoiSkip (c :: cs) = ((atoiDigits 0 (c :: cs) : Nat) : Int) := by
  unfold isDigitChar at h
  simp only [Bool.and_eq_true, decide_eq_true_eq] at h
  have hsp : isSpaceChar c = false := by
    unfold isSpaceChar
    simp only [Bool.or_eq_false_iff, beq_eq_false_iff_ne, ne_eq, Bool.and_eq_false_iff,
      decide_eq_false_iff_not]
    omega
  have hm : c ≠ '-' := by
    intro hc; rw [hc] at h; revert h; decide
  have hp : c ≠ '+' := by
    intro hc; rw [hc] at h; revert h; decide
  simp only [atoiSkip, hsp, Bool.false_eq_true, if_false, atoiSigned, hm, hp]

theorem atoiSkip_decDigits (n : Nat) : atoiSkip (decDigits n) = (n : Int) := by
  obtain ⟨c, cs, hc, hd⟩ := decDigits_head n
  have h := atoiDigits_decDigits n 0 []
  rw [List.append_nil] at h
  rw [hc] at h ⊢
  rw [atoiSkip_of_digit c cs hd, h]
  simp [atoiDigits]

/-- Reading back with `atoi` what `sprintf("%d")` wrote gives the value,
for every non-negative `int`. -/
theorem atoi_sprintf_d (r : Int) (h0 : 0 ≤ r) (h1 : r ≤ 2147483647) :
    atoi (sprintf_d r) = r := by
  unfold atoi sprintf_d
  rw [if_neg (by omega)]
  show toInt32 (strtolSaturate (atoiSkip (decDigits r.natAbs))) = r
  rw [atoiSkip_decDigits, Int.natAbs_of_nonneg h0]
  have hs : strtolSaturate r = r := by
    unfold strtolSaturate
    rw [if_neg (by omega), if_neg (by omega)]
  rw [hs]
  exact toInt32_of_isInt32 r ⟨by omega, h1⟩

/-! ## The persisted peak refresh rate -/

theorem property_get_after_set (p : Properties) (key value dflt : String)
    (h : p.setFails = false) :
    property_get (property_set p key value).2 key dflt = ((value.length : Int), value) := by
  simp [property_get, property_set, h, Properties.lookup]

theorem onPeakRefreshRate_props (p : Properties) (s : OperationRateManager F) (rate : Int) :
    (s.onPeakRefreshRate p rate).2.2 =
      (property_set p kPersistPeakRefreshRate (sprintf_d (toInt32 rate))).2 := by
  unfold OperationRateManager.onPeakRefreshRate
  rfl

/-- The first evaluated brightness report of a manager whose peak rate is
unknown takes the peak rate from the persisted property when it parses to
a positive number. -/
theorem onBrightness_reads_persisted_peak (d : Display) (p : Properties)
    (s : OperationRateManager F) (dbv : Int) (h0 : dbv ≠ 0)
    (h1 : toUInt32 s.mDisplayLastDbv ≠ dbv) (hpeak : s.mDisplayPeakRefreshRate = 0)
    (hread : atoi (property_get p kPersistPeakRefreshRate "0").2 > 0) :
    (s.onBrightness d p dbv).2.mDisplayPeakRefreshRate =
      atoi (property_get p kPersistPeakRefreshRate "0").2 := by
  have hc : (dbv == 0 || toUInt32 s.mDisplayLastDbv == dbv) = false := by
    simp [h0, h1]
  have hlen : (property_get p kPersistPeakRefreshRate "0").1 ≥ 0 := by
    unfold property_get
    split <;> exact Int.natCast_nonneg _
  simp only [OperationRateManager.onBrightness, hc, Bool.false_eq_true, if_false, hpeak,
    beq_self_eq_true, if_true, hlen, hread, decide_True, Bool.and_self]
  exact (updateOperationRateLocked_sameSettings d _ .SET_DBV).2.2.2.1

/-- C9. With a property store whose write succeeds, `onPeakRefreshRate(r)`
for 0 < r <= 2^31-1, followed by a restart (a freshly constructed manager
reading the same store) and its first non-zero brightness report, leaves
`mDisplayPeakRefreshRate` equal to `r`. -/
theorem peak_refresh_rate_round_trip (A : LumaArith F) (d : Display) (p : Properties)
    (s : OperationRateManager F) (r hsHz nsHz level : Int)
    (hp : p.setFails = false) (hr0 : 0 < r) (hr1 : r ≤ 2147483647)
    (hl0 : 0 < level) (hl1 : level ≤ 4294967295) :
    ((OperationRateManager.new A (s.onPeakRefreshRate p r).2.2 hsHz nsHz).onBrightness d
      (s.onPeakRefreshRate p r).2.2 level).2.mDisplayPeakRefreshRate = r := by
  have hget : property_get (s.onPeakRefreshRate p r).2.2 kPersistPeakRefreshRate "0" =
      (((sprintf_d r).length : Int), sprintf_d r) := by
    rw [onPeakRefreshRate_props, toInt32_of_isInt32 r ⟨by omega, hr1⟩]
    exact property_get_after_set p _ _ _ hp
  have hat : atoi (sprintf_d r) = r := atoi_sprintf_d r (by omega) hr1
  have hne : toUInt32 (OperationRateManager.new A (s.onPeakRefreshRate p r).2.2 hsHz
      nsHz).mDisplayLastDbv ≠ level := by
    show toUInt32 0 ≠ level
    have : toUInt32 0 = 0 := by decide
    omega
  rw [onBrightness_reads_persisted_peak d _ _ level (by omega) hne rfl
    (by rw [hget]; show atoi (sprintf_d r) > 0; omega), hget]
  exact hat

theorem peak_refresh_rate_round_trip_witness :
    ((OperationRateManager.new exactArith
        (sampleManager.onPeakRefreshRate sampleProperties 90).2.2 120 60).onBrightness
      sampleDisplay (sampleManager.onPeakRefreshRate sampleProperties 90).2.2
      100).2.mDisplayPeakRefreshRate = 90 :=
  peak_refresh_rate_round_trip exactArith sampleDisplay sampleProperties sampleManager 90 120 60
    100 rfl (by decide) (by decide) (by decide) (by decide)

/-! ## The worker loop -/

theorem lumaLoop_exact (data : List Int) :
    ∀ (n : Nat) (acc : ℚ) (cnt : Int), (∀ x ∈ data, 0 ≤ x ∧ x ≤ 65535) →
      n + data.length ≤ 32768 → 0 ≤ cnt → cnt ≤ n * 65535 →
      lumaLoop exactArith data n acc cnt =
        (acc + (((data.enumFrom n).map (fun ic => (ic.1 : Int) * ic.2)).sum : Int),
          cnt + data.sum) := by
  induction data with
  | nil => intro n acc cnt _ _ _ _; simp [lumaLoop]
  | cons x xs ih =>
    intro n acc cnt hx hlen h0 h1
    have hx0 := hx x (List.mem_cons_self _ _)
    simp only [List.length_cons] at hlen
    have hn : (n : Int) ≤ 32767 := by omega
    have hprod0 : 0 ≤ (n : Int) * x := mul_nonneg (by omega) hx0.1
    have hprod1 : (n : Int) * x ≤ 32767 * 65535 :=
      mul_le_mul hn hx0.2 hx0.1 (by norm_num)
    have e1 : toInt32 ((n : Int) + 1) = ((n + 1 : Nat) : Int) := by
      rw [toInt32_of_isInt32 _ ⟨by omega, by omega⟩]; simp
    have e2 : toInt32 ((n : Int) * x) = (n : Int) * x :=
      toInt32_of_isInt32 _ ⟨by omega, by omega⟩
    have e3 : toInt32 (cnt + x) = cnt + x :=
      toInt32_of_isInt32 _ ⟨by omega, by omega⟩
    simp only [lumaLoop, e1, e2, e3]
    rw [ih (n + 1) _ _ (fun y hy => hx y (List.mem_cons_of_mem _ hy)) (by omega) (by omega)
      (by push_cast; omega)]
    simp only [List.enumFrom_cons, List.map_cons, List.sum_cons, exactArith]
    refine Prod.ext ?_ ?_
    · simp only []; push_cast; ring
    · simp only []; ring

theorem lumaLoop_exact_zero (data : List Int) (hx : ∀ x ∈ data, 0 ≤ x ∧ x ≤ 65535)
    (hlen : data.length ≤ 32768) :
    lumaLoop exactArith data 0 exactArith.zero 0 =
      ((bucketWeightedSum data : ℚ), bucketTotal data) := by
  have h := lumaLoop_exact data 0 0 0 hx (by omega) (le_refl _) (by simp)
  simp only [Nat.cast_zero, zero_add] at h
  exact h

theorem singleBucket_range (k : Nat) : ∀ x ∈ singleBucket k, 0 ≤ x ∧ x ≤ 65535 := by
  intro x hx
  unfold singleBucket at hx
  rw [List.mem_map] at hx
  obtain ⟨i, -, rfl⟩ := hx
  split_ifs <;> decide

theorem singleBucket_length (k : Nat) : (singleBucket k).length = 256 := by
  simp [singleBucket]

set_option maxRecDepth 20000

theorem meanBucketIndex_singleBucket_57 : meanBucketIndex (singleBucket 57) = 57 := by
  have h1 : bucketWeightedSum (singleBucket 57) = 570 := by rfl
  have h2 : bucketTotal (singleBucket 57) = 10 := by rfl
  unfold meanBucketIndex
  rw [h1, h2]; norm_num

/-! ## The two setters -/

theorem onPeakRefreshRate_ret (p : Properties) (s : OperationRateManager F) (rate : Int) :
    (s.onPeakRefreshRate p rate).1 = 0 := by
  unfold OperationRateManager.onPeakRefreshRate
  rfl

/-- C11. `onLowPowerMode(enabled)` returns success and changes only the
low-battery flag; `onPeakRefreshRate(rate)` returns success and changes
only the peak refresh rate, which becomes `rate`, whether or not the
property write succeeds. Neither runs an evaluation: target, refresh
rate, brightness, power mode and worker are as before. -/
theorem setters_change_one_field (p : Properties) (s : OperationRateManager F)
    (enabled : Bool) (rate : Int) (h0 : 0 ≤ rate) (h1 : rate ≤ 2147483647) :
    s.onLowPowerMode enabled = (0, { s with mDisplayLowBatteryModeEnabled := enabled }) ∧
      (s.onPeakRefreshRate p rate).1 = 0 ∧
      (s.onPeakRefreshRate p rate).2.1 = { s with mDisplayPeakRefreshRate := rate } := by
  refine ⟨rfl, onPeakRefreshRate_ret p s rate, ?_⟩
  rw [onPeakRefreshRate_mgr, toInt32_of_isInt32 rate ⟨by omega, h1⟩]

theorem setters_change_one_field_witness :
    sampleManager.onLowPowerMode true =
        (0, { sampleManager with mDisplayLowBatteryModeEnabled := true }) ∧
      (sampleManager.onPeakRefreshRate readOnlyProperties 90).1 = 0 ∧
      (sampleManager.onPeakRefreshRate readOnlyProperties 90).2.1 =
        { sampleManager with mDisplayPeakRefreshRate := 90 } :=
  setters_change_one_field readOnlyProperties sampleManager true 90 (by decide) (by decide)

/-! ## Rate switching disabled -/

theorem publish_locked_ns (d : Display) (s : OperationRateManager F) (des : Int)
    (hd : d.isConfigSettingEnabled = false) :
    s.publish d des s.mDisplayNsOperationRate = (HWC2_ERROR_NONE, s) := by
  simp [OperationRateManager.publish, hd]

theorem publish_locked (d : Display) (s : OperationRateManager F) (des eff : Int)
    (hd : d.isConfigSettingEnabled = false)
    (ht : s.mDisplayTargetOperationRate ≠ s.mDisplayNsOperationRate) :
    (s.publish d des eff).2.mDisplayTargetOperationRate ≠ s.mDisplayNsOperationRate := by
  rw [publish_target]
  simp only [hd, Bool.not_false, Bool.true_and, beq_iff_eq]
  split_ifs with h1 h2
  · exact ht
  · exact h1
  · exact ht

theorem getTargetOperationRate_of_on (s : OperationRateManager F)
    (hon : (s.mDisplayPowerMode == some HWC2_POWER_MODE_ON) = true) :
    s.getTargetOperationRate = s.mDisplayTargetOperationRate := by
  have h : s.mDisplayPowerMode = some HWC2_POWER_MODE_ON := by simpa using hon
  unfold OperationRateManager.getTargetOperationRate
  rw [isLowPower_of_on s h]; rfl

theorem publish_locked_of (d : Display) (t : OperationRateManager F) (ns des eff : Int)
    (hd : d.isConfigSettingEnabled = false) (hns : t.mDisplayNsOperationRate = ns)
    (ht : t.mDisplayTargetOperationRate ≠ ns) :
    (t.publish d des eff).2.mDisplayTargetOperationRate ≠ ns := by
  subst hns
  exact publish_locked d t des eff hd ht

theorem evaluate_locked (d : Display) (s : OperationRateManager F) (c : DispOpCondition)
    (dbv : Int) (b : Bool) (des eff : Int) (hd : d.isConfigSettingEnabled = false)
    (ht : s.mDisplayTargetOperationRate ≠ s.mDisplayNsOperationRate) :
    (s.evaluate d c dbv b des eff).2.mDisplayTargetOperationRate ≠
      s.mDisplayNsOperationRate := by
  cases c <;> simp only [OperationRateManager.evaluate] <;> (try split_ifs) <;>
    (try (refine publish_locked_of d _ _ _ _ hd rfl ?_)) <;>
    first
      | exact ht
      | (rename_i hon; rw [getTargetOperationRate_of_on s hon]; exact ht)

theorem updateOperationRateLocked_locked (d : Display) (s : OperationRateManager F)
    (c : DispOpCondition) (hd : d.isConfigSettingEnabled = false)
    (hns : s.mDisplayNsOperationRate ≠ kLowPowerOperationRate)
    (ht : s.mDisplayTargetOperationRate ≠ s.mDisplayNsOperationRate) :
    (s.updateOperationRateLocked d c).2.mDisplayTargetOperationRate ≠
      s.mDisplayNsOperationRate := by
  simp only [OperationRateManager.updateOperationRateLocked, toInt32_kLowPowerOperationRate]
  by_cases h1 : s.isLowPower = true
  · rw [if_pos h1]
    exact evaluate_locked d { s with mDisplayTargetOperationRate := kLowPowerOperationRate }
      c _ _ _ _ hd (fun h => hns h.symm)
  · rw [if_neg h1]
    by_cases h2 : (s.mDisplayPowerMode != some HWC2_POWER_MODE_ON) = true
    · rw [if_pos h2]; exact ht
    · rw [if_neg h2]
      exact evaluate_locked d s c _ _ _ _ hd ht

theorem step_locked (A : LumaArith F) (sys : System F) (d : Display) (sig : Signal)
    (hd : d.isConfigSettingEnabled = false)
    (hns : sys.mgr.mDisplayNsOperationRate ≠ kLowPowerOperationRate)
    (ht : sys.mgr.mDisplayTargetOperationRate ≠ sys.mgr.mDisplayNsOperationRate) :
    (sys.step A d sig).mgr.mDisplayTargetOperationRate ≠ sys.mgr.mDisplayNsOperationRate := by
  cases sig with
  | powerMode mode =>
    exact updateOperationRateLocked_locked d { sys.mgr with mDisplayPowerMode := some mode }
      _ hd hns ht
  | brightness dbv =>
    show (sys.mgr.onBrightness d sys.props dbv).2.mDisplayTargetOperationRate ≠ _
    rcases onBrightness_cases d sys.props sys.mgr dbv with h | ⟨pk, h⟩
    · rw [h]; exact ht
    · rw [h]
      exact updateOperationRateLocked_locked d
        { sys.mgr with mDisplayDbv := toInt32 dbv, mDisplayPeakRefreshRate := pk } _ hd hns ht
  | config cfg =>
    show (sys.mgr.onConfig d cfg).2.mDisplayTargetOperationRate ≠ _
    rcases onConfig_cases d sys.mgr cfg with ⟨w, hw, -, -, h⟩ | h
    · rw [h]; exact ht
    · rw [h]
      exact updateOperationRateLocked_locked d
        { sys.mgr with mDisplayRefreshRate := d.getRefreshRate cfg } _ hd hns ht
  | peakRefreshRate rate => rw [step_peak]; exact ht
  | lowPowerMode enabled => exact ht
  | histogram => exact updateOperationRateLocked_locked d sys.mgr _ hd hns ht
  | routine inp =>
    show (Routine A d sys.mgr inp).1.mDisplayTargetOperationRate ≠ _
    rcases Routine_cases A d sys.mgr inp with h | ⟨w, hw, h⟩ | ⟨w, luma, hw, h⟩
    · rw [h]; exact ht
    · rw [h]; exact ht
    · rw [h]
      exact updateOperationRateLocked_locked d
        { sys.mgr with mHistogramQueryWorker := some w } .HISTOGRAM_DELTA hd hns ht

/-- C12. While rate switching is disabled at the display, the publication
step given the NS rate as effective rate returns without touching the
state, and no signal at all (entry point or worker pass) turns a target
that was not the NS rate into the NS rate. -/
theorem switching_disabled_never_drops_to_ns (A : LumaArith F) (sys : System F)
    (d : Display) (sig : Signal) (des : Int)
    (hd : d.isConfigSettingEnabled = false)
    (hns : sys.mgr.mDisplayNsOperationRate ≠ kLowPowerOperationRate)
    (ht : sys.mgr.mDisplayTargetOperationRate ≠ sys.mgr.mDisplayNsOperationRate) :
    sys.mgr.publish d des sys.mgr.mDisplayNsOperationRate = (HWC2_ERROR_NONE, sys.mgr) ∧
      (sys.step A d sig).mgr.mDisplayTargetOperationRate ≠
        (sys.step A d sig).mgr.mDisplayNsOperationRate := by
  refine ⟨publish_locked_ns d sys.mgr des hd, ?_⟩
  rw [(step_facts A sys d sig).1.2.1]
  exact step_locked A sys d sig hd hns ht

theorem switching_disabled_never_drops_to_ns_witness :
    sampleManager.desiredRate sampleManager.mDisplayLastDbv = 60 ∧
      (sampleSystem.step exactArith lockedDisplay Signal.histogram).mgr.mDisplayTargetOperationRate
        ≠ (sampleSystem.step exactArith lockedDisplay Signal.histogram).mgr.mDisplayNsOperationRate
      :=
  ⟨by decide, (switching_disabled_never_drops_to_ns exactArith sampleSystem lockedDisplay
    Signal.histogram 60 rfl (by decide) (by decide)).2⟩

/-! ## Registration of the worker -/

theorem prepare_mReady (w : HistogramQueryWorker F) (d : Display) (inp : RoutineInput)
    (hw : w.mReady = false) : (w.prepare d inp).mReady = inp.registrationOk := by
  unfold HistogramQueryWorker.prepare RoutineInput.registrationOk
  cases hb : inp.binderOk <;> cases hs : inp.registerStatusOk <;>
    cases he : inp.registerErr <;> simp [hw]

theorem Routine_unregistered (A : LumaArith F) (d : Display) (s : OperationRateManager F)
    (w : HistogramQueryWorker F) (inp : RoutineInput) (hw : s.mHistogramQueryWorker = some w)
    (hctl : d.mHistogramController = true) (hready : w.mReady = false) :
    Routine A d s inp = (s.setWorker (w.prepare d inp), 0) := by
  unfold Routine
  rw [hw]
  simp [hctl, hready]

theorem workerStartQuery_ready (s : OperationRateManager F) :
    s.workerStartQuery.ready = s.ready := by
  unfold OperationRateManager.workerStartQuery OperationRateManager.ready
  cases s.mHistogramQueryWorker with
  | none => rfl
  | some w =>
    simp only [Option.map_some', HistogramQueryWorker.startQuery]
    split_ifs <;> rfl

theorem workerStopQuery_ready (s : OperationRateManager F) :
    s.workerStopQuery.ready = s.ready := by
  unfold OperationRateManager.workerStopQuery OperationRateManager.ready
  cases s.mHistogramQueryWorker <;> rfl

theorem ready_congr {s t : OperationRateManager F}
    (h : t.mHistogramQueryWorker = s.mHistogramQueryWorker) : t.ready = s.ready := by
  unfold OperationRateManager.ready; rw [h]

theorem publish_ready (d : Display) (s : OperationRateManager F) (des eff : Int) :
    (s.publish d des eff).2.ready = s.ready := by
  simp only [OperationRateManager.publish]
  split_ifs <;> first
    | rfl
    | exact workerStartQuery_ready _

theorem evaluate_ready (d : Display) (s : OperationRateManager F) (c : DispOpCondition)
    (dbv : Int) (b : Bool) (des eff : Int) :
    (s.evaluate d c dbv b des eff).2.ready = s.ready := by
  cases c <;> simp only [OperationRateManager.evaluate] <;> (try split_ifs) <;>
    (try rw [publish_ready]) <;>
    first
      | rfl
      | exact workerStopQuery_ready s

theorem updateOperationRateLocked_ready (d : Display) (s : OperationRateManager F)
    (c : DispOpCondition) : (s.updateOperationRateLocked d c).2.ready = s.ready := by
  simp only [OperationRateManager.updateOperationRateLocked]
  by_cases h1 : s.isLowPower = true
  · rw [if_pos h1, evaluate_ready]; rfl
  · rw [if_neg h1]
    by_cases h2 : (s.mDisplayPowerMode != some HWC2_POWER_MODE_ON) = true
    · rw [if_pos h2]; exact workerStopQuery_ready s
    · rw [if_neg h2, evaluate_ready]

/-- No entry point of the manager registers or unregisters the worker. -/
theorem step_ready (A : LumaArith F) (sys : System F) (d : Display) (sig : Signal)
    (hsig : sig.isRoutine = false) : (sys.step A d sig).mgr.ready = sys.mgr.ready := by
  cases sig with
  | powerMode mode =>
    show (OperationRateManager.updateOperationRateLocked d
      { sys.mgr with mDisplayPowerMode := some mode } .PANEL_SET_POWER).2.ready = _
    rw [updateOperationRateLocked_ready]; rfl
  | brightness dbv =>
    show (sys.mgr.onBrightness d sys.props dbv).2.ready = _
    rcases onBrightness_cases d sys.props sys.mgr dbv with h | ⟨pk, h⟩
    · rw [h]
    · rw [h, updateOperationRateLocked_ready]; rfl
  | config cfg =>
    show (sys.mgr.onConfig d cfg).2.ready = _
    rcases onConfig_cases d sys.mgr cfg with ⟨w, hw, -, -, h⟩ | h
    · rw [h]
      simp [OperationRateManager.ready, hw, HistogramQueryWorker.updateConfig]
    · rw [h, updateOperationRateLocked_ready]; rfl
  | peakRefreshRate rate => rw [step_peak]; rfl
  | lowPowerMode enabled => rfl
  | histogram => exact updateOperationRateLocked_ready d sys.mgr _
  | routine inp => simp [Signal.isRoutine] at hsig

/-- C13, counterexample. A worker whose first registration attempt fails
with a transport error is registered by the next pass of the loop when the
sensor then answers without error, and `startQuery` signals it afterwards. -/
theorem registration_failure_is_retried :
    (Routine exactArith sampleDisplay unregisteredManager failingRegistration).1.ready = false ∧
      (Routine exactArith sampleDisplay
        (Routine exactArith sampleDisplay unregisteredManager failingRegistration).1
        (sampleInput [])).1.ready = true ∧
      (Routine exactArith sampleDisplay
        (Routine exactArith sampleDisplay unregisteredManager failingRegistration).1
        (sampleInput [])).1.workerStartQuery.signalCount = 1 := by
  refine ⟨by rfl, by rfl, by rfl⟩

/-- C13 (amended). A pass of the loop on an unregistered worker makes one
registration attempt and does nothing else; the worker is registered after
the pass exactly when that attempt succeeds, whatever happened in earlier
passes. While the worker is unregistered `startQuery` is a no-op, and no
entry point of the manager changes the registration. -/
theorem registration_depends_on_current_attempt (A : LumaArith F) (sys : System F)
    (d : Display) (w : HistogramQueryWorker F) (inp : RoutineInput) (sig : Signal)
    (hw : sys.mgr.mHistogramQueryWorker = some w) (hctl : d.mHistogramController = true)
    (hready : w.mReady = false) (hsig : sig.isRoutine = false) :
    Routine A d sys.mgr inp = (sys.mgr.setWorker (w.prepare d inp), 0) ∧
      (Routine A d sys.mgr inp).1.ready = inp.registrationOk ∧
      w.startQuery = w ∧
      sys.mgr.workerStartQuery = sys.mgr ∧
      (sys.step A d sig).mgr.ready = false := by
  have h1 := Routine_unregistered A d sys.mgr w inp hw hctl hready
  have hr : sys.mgr.ready = false := by
    simp [OperationRateManager.ready, hw, hready]
  refine ⟨h1, ?_, ?_, ?_, ?_⟩
  · rw [h1]
    show (w.prepare d inp).mReady = _
    exact prepare_mReady w d inp hready
  · simp [HistogramQueryWorker.startQuery, hready]
  · cases hs : sys.mgr with
    | mk a1 a2 a3 a4 a5 a6 a7 a8 a9 a10 a11 a12 =>
      rw [hs] at hw
      simp only at hw
      subst hw
      simp [OperationRateManager.workerStartQuery, HistogramQueryWorker.startQuery, hready]
  · rw [step_ready A sys d sig hsig]; exact hr

theorem registration_depends_on_current_attempt_witness :
    (Routine exactArith sampleDisplay unregisteredManager (sampleInput [])).1.ready = true ∧
      (Routine exactArith sampleDisplay unregisteredManager failingRegistration).1.ready = false
      ∧ (System.step exactArith (System.mk unregisteredManager sampleProperties) sampleDisplay
        (Signal.config 1)).mgr.ready = false := by
  have a := registration_depends_on_current_attempt exactArith
    (System.mk unregisteredManager sampleProperties) sampleDisplay
    { sampleWorker with mReady := false, mQueryMode := false } (sampleInput [])
    (Signal.config 1) rfl rfl rfl rfl
  have b := registration_depends_on_current_attempt exactArith
    (System.mk unregisteredManager sampleProperties) sampleDisplay
    { sampleWorker with mReady := false, mQueryMode := false } failingRegistration
    (Signal.config 1) rfl rfl rfl rfl
  exact ⟨a.2.1, b.2.1, a.2.2.2.2⟩

/-! ## Runtime-resolution configurations -/

/-- C14, counterexample. A registered worker whose region of interest is
1080x1600 on a 1080x2400 panel: the pair of bounds differs from the panel
resolution (the heights differ), yet `isRuntimeResolutionConfig()` is
false because the widths match. -/
theorem isRuntimeResolutionConfig_false_on_half_match :
    halfMatchWorker.mReady = true ∧
      (halfMatchWorker.roiRight, halfMatchWorker.roiBottom) ≠
        (sampleDisplay.mXres, sampleDisplay.mYres) ∧
      halfMatchWorker.isRuntimeResolutionConfig sampleDisplay = false := by
  refine ⟨rfl, by decide, by rfl⟩

/-- C14 (amended). For a region of interest with non-negative bounds,
`isRuntimeResolutionConfig()` is true exactly when the worker is registered
and both bounds differ from the panel resolution: the right bound from the
width and the bottom bound from the height. It is false when the worker is
unregistered or when either bound matches. -/
theorem isRuntimeResolutionConfig_iff (w : HistogramQueryWorker F) (d : Display)
    (hr0 : 0 ≤ w.roiRight) (hr1 : w.roiRight ≤ 2147483647)
    (hb0 : 0 ≤ w.roiBottom) (hb1 : w.roiBottom ≤ 2147483647) :
    w.isRuntimeResolutionConfig d = true ↔
      w.mReady = true ∧ w.roiRight ≠ d.mXres ∧ w.roiBottom ≠ d.mYres := by
  unfold HistogramQueryWorker.isRuntimeResolutionConfig
  rw [toUInt32_of_nonneg _ hr0 (by omega), toUInt32_of_nonneg _ hb0 (by omega)]
  cases w.mReady <;> simp

theorem isRuntimeResolutionConfig_iff_witness :
    (sampleWorker.isRuntimeResolutionConfig { sampleDisplay with mXres := 720, mYres := 1600 }
        = true ↔
      sampleWorker.mReady = true ∧ sampleWorker.roiRight ≠ 720 ∧
        sampleWorker.roiBottom ≠ 1600) ∧
    sampleWorker.isRuntimeResolutionConfig { sampleDisplay with mXres := 720, mYres := 1600 }
      = true :=
  ⟨isRuntimeResolutionConfig_iff sampleWorker { sampleDisplay with mXres := 720, mYres := 1600 }
    (by decide) (by decide) (by decide) (by decide), by rfl⟩

/-! ## Passes without a sample -/

theorem lumaLoop_count_zero (A : LumaArith F) (data : List Int) :
    ∀ (i : Int) (acc : F), (∀ x ∈ data, x = 0) → (lumaLoop A data i acc 0).2 = 0 := by
  induction data with
  | nil => intro i acc _; rfl
  | cons x xs ih =>
    intro i acc hx
    have hx0 : x = 0 := hx x (List.mem_cons_self _ _)
    subst hx0
    have e : toInt32 ((0 : Int) + 0) = 0 := by decide
    simp only [lumaLoop, e]
    exact ih _ _ (fun y hy => hx y (List.mem_cons_of_mem _ hy))

theorem setWorker_self (s : OperationRateManager F) (w : HistogramQueryWorker F)
    (hw : s.mHistogramQueryWorker = some w) : s.setWorker w = s := by
  cases s with
  | mk a1 a2 a3 a4 a5 a6 a7 a8 a9 a10 a11 a12 =>
    simp only at hw
    subst hw
    rfl

/-- C15 (amended). For a registered, armed worker, a pass of the loop
whose query returns a status that is not ok, or the error `BAD_TOKEN`, or
an empty histogram, or a histogram whose counts are all zero, reports no
event and leaves the whole state as it was: baseline and armed flag
included. This holds for every arithmetic, so the division of line 513 is
never reached. Every other error code is treated as no error: with an ok
status the pass does what it does for the error code `NONE`. -/
theorem no_sample_keeps_baseline (A : LumaArith F) (d : Display) (s : OperationRateManager F)
    (w : HistogramQueryWorker F) (inp : RoutineInput)
    (hw : s.mHistogramQueryWorker = some w) (hctl : d.mHistogramController = true)
    (hready : w.mReady = true) (harmed : w.mQueryMode = true)
    (hwait : inp.waitRet ≠ -EINTR) :
    ((inp.queryStatusOk = false ∨ inp.queryErr = HistogramErrorCode.BAD_TOKEN ∨
        inp.data = [] ∨ ∀ x ∈ inp.data, x = 0) → Routine A d s inp = (s, 0)) ∧
      ∀ e : HistogramErrorCode, e ≠ HistogramErrorCode.BAD_TOKEN →
        Routine A d s { inp with queryErr := e } =
          Routine A d s { inp with queryErr := HistogramErrorCode.NONE } := by
  refine ⟨fun hcase => ?_, ?_⟩
  · have haw : w.afterWait A = w := by
      unfold HistogramQueryWorker.afterWait
      simp [harmed]
    have hwait2 : (inp.waitRet == -EINTR) = false := by simpa using hwait
    unfold Routine
    rw [hw]
    simp only [hctl, hready, hwait2, haw, Bool.not_true, Bool.false_eq_true, if_false]
    unfold RoutineQuery
    rw [setWorker_self s w hw]
    by_cases hq : (inp.queryStatusOk && inp.queryErr != HistogramErrorCode.BAD_TOKEN) = true
    · rw [if_pos hq]
      have hcase2 : inp.data = [] ∨ ∀ x ∈ inp.data, x = 0 := by
        rcases hcase with h | h | h
        · rw [h] at hq; simp at hq
        · rw [h] at hq; simp at hq
        · exact h
      by_cases hl : (inp.data.length == 0) = true
      · rw [if_pos hl]
      · rw [if_neg hl]
        have hz : ∀ x ∈ inp.data, x = 0 := by
          rcases hcase2 with h | h
          · rw [h] at hl; simp at hl
          · exact h
        have hc := lumaLoop_count_zero A inp.data 0 A.zero hz
        simp only [hc, beq_self_eq_true, if_true]
    · rw [if_neg hq]
  · intro e he
    have h1 : (e != HistogramErrorCode.BAD_TOKEN) = true := by simpa using he
    have h2 : (HistogramErrorCode.NONE != HistogramErrorCode.BAD_TOKEN) = true := by decide
    unfold Routine RoutineQuery
    rw [hw]
    simp only [h1, h2, hctl, hready, Bool.not_true, Bool.false_eq_true, if_false]

theorem no_sample_keeps_baseline_witness :
    Routine exactArith sampleDisplay sampleManager (sampleInput []) = (sampleManager, 0) ∧
      Routine exactArith sampleDisplay sampleManager (sampleInput [0, 0, 0]) =
        (sampleManager, 0) ∧
      Routine exactArith sampleDisplay sampleManager
        { sampleInput [0, 7] with queryStatusOk := false } = (sampleManager, 0) ∧
      Routine float32Arith sampleDisplay sampleManagerBinary32
        { sampleInput (bucketAt 57) with queryErr := HistogramErrorCode.BAD_TOKEN } =
          (sampleManagerBinary32, 0) ∧
      Routine float32Arith sampleDisplay sampleManagerBinary32
        { sampleInput (bucketAt 57) with queryErr := HistogramErrorCode.OTHER } =
          Routine float32Arith sampleDisplay sampleManagerBinary32
            { sampleInput (bucketAt 57) with queryErr := HistogramErrorCode.NONE } :=
  ⟨(no_sample_keeps_baseline exactArith sampleDisplay sampleManager sampleWorker (sampleInput [])
      rfl rfl rfl rfl (by decide)).1 (Or.inr (Or.inr (Or.inl rfl))),
    (no_sample_keeps_baseline exactArith sampleDisplay sampleManager sampleWorker
      (sampleInput [0, 0, 0]) rfl rfl rfl rfl (by decide)).1
      (Or.inr (Or.inr (Or.inr (by decide)))),
    (no_sample_keeps_baseline exactArith sampleDisplay sampleManager sampleWorker
      { sampleInput [0, 7] with queryStatusOk := false } rfl rfl rfl rfl (by decide)).1
      (Or.inl rfl),
    (no_sample_keeps_baseline float32Arith sampleDisplay sampleManagerBinary32
      sampleWorkerBinary32
      { sampleInput (bucketAt 57) with queryErr := HistogramErrorCode.BAD_TOKEN }
      rfl rfl rfl rfl (by decide)).1 (Or.inr (Or.inl rfl)),
    (no_sample_keeps_baseline float32Arith sampleDisplay sampleManagerBinary32
      sampleWorkerBinary32 (sampleInput (bucketAt 57)) rfl rfl rfl rfl (by decide)).2
      HistogramErrorCode.OTHER (by decide)⟩

/-! ## The worker while in a low-power mode -/

theorem publish_inert (d : Display) (s : OperationRateManager F)
    (ht : s.mDisplayTargetOperationRate = kLowPowerOperationRate) :
    s.publish d kLowPowerOperationRate kLowPowerOperationRate = (HWC2_ERROR_NONE, s) := by
  have h1 : ¬ toUInt32 kLowPowerOperationRate > kLowPowerOperationRate :=
    toUInt32_kLowPowerOperationRate_not_gt
  simp only [OperationRateManager.publish, ht, h1, decide_False, Bool.false_and,
    Bool.false_eq_true, if_false, bne_self_eq_false, Bool.and_false, ite_self]

theorem isLowPower_not_on (s : OperationRateManager F) (hlp : s.isLowPower = true) :
    (s.mDisplayPowerMode == some HWC2_POWER_MODE_ON) = false := by
  unfold OperationRateManager.isLowPower at hlp
  cases hp : s.mDisplayPowerMode with
  | none => rfl
  | some m =>
    rw [hp] at hlp
    simp only [Bool.or_eq_true, beq_iff_eq, Option.some.injEq] at hlp
    rcases hlp with h | h <;> subst h <;> decide

/-- In Doze or Doze-suspend an evaluation with any tag but `SET_CONFIG`
sends no notification to the worker and does not set its accumulation
flag; unless the tag is `SET_DBV` it only writes the target. -/
theorem updateOperationRateLocked_low_power_inert (d : Display) (s : OperationRateManager F)
    (c : DispOpCondition) (hlp : s.isLowPower = true) (hc : c ≠ .SET_CONFIG) :
    (s.updateOperationRateLocked d c).2.signalCount = s.signalCount ∧
      ((s.updateOperationRateLocked d c).2.queryMode = true → s.queryMode = true) ∧
      (c ≠ .SET_DBV → (s.updateOperationRateLocked d c).2 =
        { s with mDisplayTargetOperationRate := kLowPowerOperationRate }) := by
  have hon := isLowPower_not_on s hlp
  have hin := publish_inert d { s with mDisplayTargetOperationRate := kLowPowerOperationRate }
    rfl
  simp only [OperationRateManager.updateOperationRateLocked, if_pos hlp,
    toInt32_kLowPowerOperationRate]
  cases c
  case SET_CONFIG => exact absurd rfl hc
  case PANEL_SET_POWER =>
    simp only [OperationRateManager.evaluate, hon, Bool.false_eq_true, if_false, hin]
    exact ⟨rfl, fun h => h, fun _ => trivial⟩
  case HISTOGRAM_DELTA =>
    simp only [OperationRateManager.evaluate, hin]
    exact ⟨rfl, fun h => h, fun _ => trivial⟩
  case MAX =>
    simp only [OperationRateManager.evaluate, hin]
    exact ⟨rfl, fun h => h, fun _ => trivial⟩
  case SET_DBV =>
    have h1 : ¬ toUInt32 kLowPowerOperationRate > kLowPowerOperationRate :=
      toUInt32_kLowPowerOperationRate_not_gt
    simp only [OperationRateManager.evaluate, ite_self, h1, decide_False, Bool.false_and,
      Bool.false_eq_true, if_false]
    refine ⟨?_, ?_, fun h => absurd rfl h⟩
    · split_ifs <;> first
        | rfl
        | exact (workerStopQuery_facts _).2.2.1
        | (rw [publish_inert _ _ rfl]; first | rfl | exact (workerStopQuery_facts _).2.2.1)
    · split_ifs <;> first
        | exact fun h => h
        | (intro h
           have := (workerStopQuery_facts
             { s with mDisplayTargetOperationRate := kLowPowerOperationRate }).2.2.2
           exact absurd (h.symm.trans this) (by decide))
        | (rw [publish_inert _ _ rfl]
           first
             | exact fun h => h
             | (intro h
                have := (workerStopQuery_facts
                  { s with mDisplayTargetOperationRate := kLowPowerOperationRate }).2.2.2
                exact absurd (h.symm.trans this) (by decide)))

/-- C17, counterexample. `onPowerMode(Doze)` on a manager whose worker is
accumulating leaves it accumulating, and an `onConfig` to 120 Hz arriving
in Doze notifies the worker through `startQuery`. -/
theorem doze_leaves_worker_armed :
    (sampleManager.onPowerMode sampleDisplay HWC2_POWER_MODE_DOZE).2.isLowPower = true ∧
      (sampleManager.onPowerMode sampleDisplay HWC2_POWER_MODE_DOZE).2.queryMode = true ∧
      sampleManagerDoze.isLowPower = true ∧
      sampleManagerDoze.signalCount = 0 ∧
      (sampleManagerDoze.onConfig sampleDisplay 1).2.signalCount = 1 := by
  refine ⟨by rfl, by rfl, by rfl, by rfl, by rfl⟩

/-- C17 (amended). Entering Doze or Doze-suspend only stores the power
mode and the low-power rate: the worker is left as it was, neither
disarmed nor armed. While in a low-power mode a luma-delta event only
writes the target, and a brightness report sends no notification to the
worker and does not set its accumulation flag. -/
theorem low_power_evaluation_never_arms (d : Display) (p : Properties)
    (s : OperationRateManager F) (mode dbv : Int)
    (hm : mode = HWC2_POWER_MODE_DOZE ∨ mode = HWC2_POWER_MODE_DOZE_SUSPEND) :
    (s.onPowerMode d mode).2 =
        { s with mDisplayPowerMode := some mode,
                 mDisplayTargetOperationRate := kLowPowerOperationRate } ∧
      (s.isLowPower = true →
        (s.onHistogram d).2 = { s with mDisplayTargetOperationRate := kLowPowerOperationRate } ∧
        (s.onBrightness d p dbv).2.signalCount = s.signalCount ∧
        ((s.onBrightness d p dbv).2.queryMode = true → s.queryMode = true)) := by
  constructor
  · have hlp : OperationRateManager.isLowPower { s with mDisplayPowerMode := some mode }
        = true := by
      rcases hm with h | h <;> subst h <;> rfl
    simp only [OperationRateManager.onPowerMode]
    exact (updateOperationRateLocked_low_power_inert d _ .PANEL_SET_POWER hlp
      (by decide)).2.2 (by decide)
  · intro hlp
    refine ⟨?_, ?_⟩
    · simp only [OperationRateManager.onHistogram]
      exact (updateOperationRateLocked_low_power_inert d s .HISTOGRAM_DELTA hlp
        (by decide)).2.2 (by decide)
    · rcases onBrightness_cases d p s dbv with h | ⟨pk, h⟩
      · rw [h]; exact ⟨rfl, fun h => h⟩
      · rw [h]
        have hlp2 : OperationRateManager.isLowPower
            { s with mDisplayDbv := toInt32 dbv, mDisplayPeakRefreshRate := pk } = true := hlp
        have h2 := updateOperationRateLocked_low_power_inert d _ .SET_DBV hlp2 (by decide)
        exact ⟨h2.1, h2.2.1⟩

theorem low_power_evaluation_never_arms_witness :
    (sampleManager.onPowerMode sampleDisplay HWC2_POWER_MODE_DOZE).2 =
      { sampleManager with mDisplayPowerMode := some HWC2_POWER_MODE_DOZE,
                           mDisplayTargetOperationRate := kLowPowerOperationRate } :=
  (low_power_evaluation_never_arms sampleDisplay sampleProperties sampleManager
    HWC2_POWER_MODE_DOZE 100 (Or.inl rfl)).1

/-! ## Config changes above the NS rate -/

theorem publish_zero (d : Display) (s : OperationRateManager F) (des : Int)
    (hgate : d.isConfigSettingEnabled = true ∨ s.mDisplayNsOperationRate ≠ 0) :
    s.publish d des 0 =
      (HWC2_ERROR_NONE,
        if s.mHistogramQueryWorker.isSome && s.mDisplayTargetOperationRate != des then
          s.workerStartQuery
        else s) := by
  have h1 : (!d.isConfigSettingEnabled && (0 : Int) == s.mDisplayNsOperationRate) = false := by
    rcases hgate with h | h
    · simp [h]
    · have : ((0 : Int) == s.mDisplayNsOperationRate) = false := by
        simp only [beq_eq_false_iff_ne, ne_eq]; exact fun e => h e.symm
      simp [this]
  have h2 : ¬ toUInt32 0 > kLowPowerOperationRate := by decide
  simp only [OperationRateManager.publish, h1, Bool.false_eq_true, if_false, h2, decide_False,
    Bool.false_and]

/-- The deferred switch: in power mode On under low battery, with the last
brightness outside the blocking zone and under the switch floor, a
`SET_CONFIG` evaluation for a refresh rate in (NS, HS] publishes nothing;
it stops the worker when the refresh rate equals the target and notifies
it otherwise. -/
theorem updateOperationRateLocked_deferred (d : Display) (s : OperationRateManager F)
    (hw : s.mHistogramQueryWorker.isSome = true)
    (hon : s.mDisplayPowerMode = some HWC2_POWER_MODE_ON)
    (hlb : s.mDisplayLowBatteryModeEnabled = true)
    (hnb : ¬ s.mDisplayLastDbv < s.mDisplayNsMinDbv)
    (hfloor : s.mDisplayHsSwitchMinDbv = 0 ∨ s.mDisplayLastDbv < s.mDisplayHsSwitchMinDbv)
    (hr2 : s.mDisplayRefreshRate ≤ s.mDisplayHsOperationRate)
    (hgate : d.isConfigSettingEnabled = true ∨ s.mDisplayNsOperationRate ≠ 0) :
    (s.updateOperationRateLocked d .SET_CONFIG).2 =
      if s.mDisplayRefreshRate = s.mDisplayTargetOperationRate then s.workerStopQuery
      else s.workerStartQuery := by
  rw [updateOperationRateLocked_on d s _ hon]
  have hc : (DispOpCondition.SET_CONFIG = DispOpCondition.SET_DBV) = False := by simp
  simp only [hc, if_false]
  have hb : s.inBlockingZone s.mDisplayLastDbv = false := by
    unfold OperationRateManager.inBlockingZone OperationRateManager.floorDbv
    rw [hlb]; simpa using hnb
  have hf : (s.mDisplayHsSwitchMinDbv == 0 ||
      decide (s.mDisplayLastDbv < s.mDisplayHsSwitchMinDbv)) = true := by
    rcases hfloor with h | h
    · simp [h]
    · simp [h]
  simp only [OperationRateManager.evaluate, hr2, if_true, hw, Bool.not_true, Bool.false_eq_true,
    if_false, hb, Bool.not_false, Bool.and_true, hlb, hf, Bool.and_self]
  by_cases he : s.mDisplayRefreshRate = s.mDisplayTargetOperationRate
  · have hgate2 : d.isConfigSettingEnabled = true ∨
        s.workerStopQuery.mDisplayNsOperationRate ≠ 0 := hgate
    simp only [he, beq_self_eq_true, if_true]
    rw [publish_zero d s.workerStopQuery _ hgate2]
    have : (s.workerStopQuery.mDisplayTargetOperationRate != s.mDisplayTargetOperationRate)
        = false := by
      show (s.mDisplayTargetOperationRate != s.mDisplayTargetOperationRate) = false
      simp
    simp only [this, Bool.and_false, Bool.false_eq_true, if_false]
  · have hbeq : (s.mDisplayRefreshRate == s.mDisplayTargetOperationRate) = false := by
      simpa using he
    simp only [hbeq, Bool.false_eq_true, if_false, if_neg he]
    rw [publish_zero d s _ hgate]
    have : (s.mDisplayTargetOperationRate != s.mDisplayRefreshRate) = true := by
      simp only [bne_iff_ne, ne_eq]; exact fun e => he e.symm
    simp only [hw, this, Bool.and_self, if_true]

theorem publishedTarget_hs (d : Display) (ns t hs : Int) (hne : hs ≠ ns)
    (h30 : kLowPowerOperationRate < hs) (hmax : hs ≤ 2147483647) :
    publishedTarget d ns t hs = hs := by
  have h1 : (hs == ns) = false := by simpa using hne
  have h2 : toUInt32 hs > kLowPowerOperationRate := by
    unfold kLowPowerOperationRate at *
    unfold toUInt32; omega
  simp only [publishedTarget, h1, Bool.and_false, Bool.false_eq_true, if_false, h2, if_true]

theorem configTarget_on (d : Display) (s : OperationRateManager F)
    (hon : s.mDisplayPowerMode = some HWC2_POWER_MODE_ON) :
    s.configTarget d =
      publishedTarget d s.mDisplayNsOperationRate s.mDisplayTargetOperationRate
        (s.configEffectiveRate s.mDisplayLastDbv (s.inBlockingZone s.mDisplayLastDbv) 0) := by
  have h1 := isLowPower_of_on s hon
  have h2 : (s.mDisplayPowerMode != some HWC2_POWER_MODE_ON) = false := by rw [hon]; simp
  simp only [OperationRateManager.configTarget, h1, h2, Bool.false_eq_true, if_false]

/-- In power mode On a `SET_CONFIG` evaluation for a refresh rate in
(NS, HS] leaves the target at HS when there is no worker, or when low
battery is disabled and the last brightness is outside the blocking zone. -/
theorem updateOperationRateLocked_config_hs (d : Display) (s : OperationRateManager F)
    (hon : s.mDisplayPowerMode = some HWC2_POWER_MODE_ON)
    (hr1 : s.mDisplayNsOperationRate < s.mDisplayRefreshRate)
    (hr2 : s.mDisplayRefreshRate ≤ s.mDisplayHsOperationRate)
    (h30 : kLowPowerOperationRate < s.mDisplayHsOperationRate)
    (hmax : s.mDisplayHsOperationRate ≤ 2147483647)
    (hcase : s.mHistogramQueryWorker.isSome = false ∨
      (s.mDisplayLowBatteryModeEnabled = false ∧
        ¬ s.mDisplayLastDbv < s.mDisplayHsSwitchMinDbv)) :
    (s.updateOperationRateLocked d .SET_CONFIG).2.mDisplayTargetOperationRate =
      s.mDisplayHsOperationRate := by
  rw [(updateOperationRateLocked_config d s).1, configTarget_on d s hon]
  have he : s.configEffectiveRate s.mDisplayLastDbv (s.inBlockingZone s.mDisplayLastDbv) 0 =
      s.mDisplayHsOperationRate := by
    unfold OperationRateManager.configEffectiveRate
    rcases hcase with h | ⟨hlb, hnb⟩
    · simp [hr2, h, hr1]
    · have hb : s.inBlockingZone s.mDisplayLastDbv = false := by
        unfold OperationRateManager.inBlockingZone OperationRateManager.floorDbv
        rw [hlb]; simpa using hnb
      simp [hr2, hb, hlb, hr1]
  rw [he]
  exact publishedTarget_hs d _ _ _ (by omega) h30 hmax

theorem onConfig_refreshRate (d : Display) (s : OperationRateManager F) (cfg : Nat) :
    (s.onConfig d cfg).2.mDisplayRefreshRate = d.getRefreshRate cfg := by
  rcases onConfig_cases d s cfg with ⟨w, hw, -, hr, h⟩ | h
  · rw [h]; exact hr
  · rw [h]
    exact (updateOperationRateLocked_sameSettings d
      { s with mDisplayRefreshRate := d.getRefreshRate cfg } .SET_CONFIG).2.2.2.2.1

/-- C18, counterexample. With the worker registered at another resolution
and the refresh rate already 120 Hz, `onConfig(1)` takes the
runtime-resolution shortcut: under low battery it does not notify the
worker although the target (60) differs from the refresh rate (120), and
with low battery disabled the target stays at 60 instead of becoming HS. -/
theorem onConfig_shortcut_neither_arms_nor_switches :
    sampleManagerResolutionLowBattery.mDisplayTargetOperationRate = 60 ∧
      sampleDisplay.getRefreshRate 1 = 120 ∧
      (sampleManagerResolutionLowBattery.onConfig sampleDisplay 1).2.signalCount =
        sampleManagerResolutionLowBattery.signalCount ∧
      sampleManagerResolution.mDisplayLowBatteryModeEnabled = false ∧
      (sampleManagerResolution.onConfig sampleDisplay 1).2.mDisplayTargetOperationRate = 60 ∧
      sampleManagerResolution.mDisplayHsOperationRate = 120 := by
  refine ⟨by rfl, by rfl, by rfl, by rfl, by rfl, by rfl⟩

/-- C18 (amended). For an `onConfig` that evaluates (it does not take the
runtime-resolution shortcut), with a worker, in power mode On, resolving to
a refresh rate r with nsRate < r <= hsRate. Under low battery, with the
last brightness outside the blocking zone and under the switch floor,
nothing is published: the state becomes the old one with the new refresh
rate and the worker notified by `startQuery` when the target differs from
r, stopped when it equals r. With low battery disabled and the brightness
outside the blocking zone, the target becomes HS. -/
theorem onConfig_deferred_or_immediate (d : Display) (s : OperationRateManager F) (cfg : Nat)
    (hw : s.mHistogramQueryWorker.isSome = true)
    (hon : s.mDisplayPowerMode = some HWC2_POWER_MODE_ON)
    (hshort : s.takesResolutionShortcut d cfg = false)
    (hr1 : s.mDisplayNsOperationRate < d.getRefreshRate cfg)
    (hr2 : d.getRefreshRate cfg ≤ s.mDisplayHsOperationRate)
    (h30 : kLowPowerOperationRate < s.mDisplayHsOperationRate)
    (hmax : s.mDisplayHsOperationRate ≤ 2147483647)
    (hgate : d.isConfigSettingEnabled = true ∨ s.mDisplayNsOperationRate ≠ 0) :
    (s.mDisplayLowBatteryModeEnabled = true →
      ¬ s.mDisplayLastDbv < s.mDisplayNsMinDbv →
      (s.mDisplayHsSwitchMinDbv = 0 ∨ s.mDisplayLastDbv < s.mDisplayHsSwitchMinDbv) →
      (s.onConfig d cfg).2.mDisplayTargetOperationRate = s.mDisplayTargetOperationRate ∧
        (s.onConfig d cfg).2 =
          if d.getRefreshRate cfg = s.mDisplayTargetOperationRate then
            OperationRateManager.workerStopQuery
              { s with mDisplayRefreshRate := d.getRefreshRate cfg }
          else
            OperationRateManager.workerStartQuery
              { s with mDisplayRefreshRate := d.getRefreshRate cfg }) ∧
    (s.mDisplayLowBatteryModeEnabled = false →
      ¬ s.mDisplayLastDbv < s.mDisplayHsSwitchMinDbv →
      (s.onConfig d cfg).2.mDisplayTargetOperationRate = s.mDisplayHsOperationRate) := by
  have e := takesResolutionShortcut_false d s cfg hshort
  constructor
  · intro hlb hnb hfloor
    have h := updateOperationRateLocked_deferred d
      { s with mDisplayRefreshRate := d.getRefreshRate cfg } hw hon hlb hnb hfloor hr2 hgate
    have h2 : (s.onConfig d cfg).2 =
        if d.getRefreshRate cfg = s.mDisplayTargetOperationRate then
          OperationRateManager.workerStopQuery
            { s with mDisplayRefreshRate := d.getRefreshRate cfg }
        else
          OperationRateManager.workerStartQuery
            { s with mDisplayRefreshRate := d.getRefreshRate cfg } := by
      rw [e]; exact h
    refine ⟨?_, h2⟩
    rw [h2]
    split_ifs <;> rfl
  · intro hlb hnb
    rw [e]
    exact updateOperationRateLocked_config_hs d
      { s with mDisplayRefreshRate := d.getRefreshRate cfg } hon hr1 hr2 h30 hmax
      (Or.inr ⟨hlb, hnb⟩)

theorem onConfig_deferred_or_immediate_witness :
    (sampleManagerDeferred.onConfig sampleDisplay 1).2.mDisplayTargetOperationRate = 60 ∧
      (sampleManagerDeferred.onConfig sampleDisplay 1).2.signalCount = 1 ∧
      (sampleManagerNs.onConfig sampleDisplay 1).2.mDisplayTargetOperationRate = 120 := by
  have a := (onConfig_deferred_or_immediate sampleDisplay sampleManagerDeferred 1 rfl rfl
    (by rfl) (by decide) (by decide) (by decide) (by decide) (Or.inl rfl)).1 rfl (by decide)
    (Or.inr (by decide))
  have b := (onConfig_deferred_or_immediate sampleDisplay sampleManagerNs 1 rfl rfl
    (by rfl) (by decide) (by decide) (by decide) (by decide) (Or.inl rfl)).2 rfl (by decide)
  exact ⟨a.1, by rfl, b⟩

/-- C19. In power mode On with lowPowerRate < nsRate < hsRate and rate
switching enabled, `onHistogram()` leaves the target equal to the desired
rate of steps 1-4 for the current state. In particular a luma-delta event
that follows an `onConfig` to a refresh rate above NS publishes HS, which
completes a deferred switch. -/
theorem histogram_delta_applies_desired (d : Display) (s : OperationRateManager F) (cfg : Nat)
    (hon : s.mDisplayPowerMode = some HWC2_POWER_MODE_ON)
    (hen : d.isConfigSettingEnabled = true)
    (hns : kLowPowerOperationRate < s.mDisplayNsOperationRate)
    (hhs : s.mDisplayNsOperationRate < s.mDisplayHsOperationRate)
    (hmax : s.mDisplayHsOperationRate ≤ 2147483647) :
    (s.onHistogram d).2.mDisplayTargetOperationRate = s.desiredRate s.mDisplayLastDbv ∧
      (s.mDisplayNsOperationRate < d.getRefreshRate cfg →
        ((s.onConfig d cfg).2.onHistogram d).2.mDisplayTargetOperationRate =
          s.mDisplayHsOperationRate) := by
  have key : ∀ t : OperationRateManager F, t.mDisplayPowerMode = some HWC2_POWER_MODE_ON →
      kLowPowerOperationRate < t.mDisplayNsOperationRate →
      t.mDisplayNsOperationRate < t.mDisplayHsOperationRate →
      t.mDisplayHsOperationRate ≤ 2147483647 →
      (t.onHistogram d).2.mDisplayTargetOperationRate = t.desiredRate t.mDisplayLastDbv := by
    intro t hon hns hhs hmax
    simp only [OperationRateManager.onHistogram]
    rw [updateOperationRateLocked_on d t _ hon]
    have hc : (DispOpCondition.HISTOGRAM_DELTA = DispOpCondition.SET_DBV) = False := by simp
    simp only [hc, if_false, OperationRateManager.evaluate]
    have hk : toUInt32 (t.desiredRate t.mDisplayLastDbv) > kLowPowerOperationRate := by
      unfold kLowPowerOperationRate at *
      rcases desiredRate_cases t t.mDisplayLastDbv with h | h <;> rw [h] <;>
        unfold toUInt32 <;> omega
    rw [publish_target_of_gt _ _ _ _ hk (Or.inl hen)]
  refine ⟨key s hon hns hhs hmax, fun hr => ?_⟩
  have hf := onConfig_facts d s cfg
  have hrr := onConfig_refreshRate d s cfg
  have hon1 : (s.onConfig d cfg).2.mDisplayPowerMode = some HWC2_POWER_MODE_ON := by
    rw [hf.2.1]; exact hon
  have hns1 : (s.onConfig d cfg).2.mDisplayNsOperationRate = s.mDisplayNsOperationRate :=
    hf.1.2.1
  have hhs1 : (s.onConfig d cfg).2.mDisplayHsOperationRate = s.mDisplayHsOperationRate :=
    hf.1.1
  rw [key (s.onConfig d cfg).2 hon1 (by rw [hns1]; exact hns) (by rw [hns1, hhs1]; exact hhs)
    (by rw [hhs1]; exact hmax)]
  unfold OperationRateManager.desiredRate OperationRateManager.steadyLowRefresh
  have hnot : decide ((s.onConfig d cfg).2.mDisplayRefreshRate ≤
      (s.onConfig d cfg).2.mDisplayNsOperationRate) = false := by
    rw [hrr, hns1]
    simp only [decide_eq_false_iff_not, not_le]; exact hr
  rw [hnot, hhs1]
  simp

theorem histogram_delta_applies_desired_witness :
    (sampleManagerDeferred.onConfig sampleDisplay 1).2.mDisplayTargetOperationRate = 60 ∧
      ((sampleManagerDeferred.onConfig sampleDisplay 1).2.onHistogram
        sampleDisplay).2.mDisplayTargetOperationRate = 120 :=
  ⟨by rfl, (histogram_delta_applies_desired sampleDisplay sampleManagerDeferred 1 rfl rfl
    (by decide) (by decide) (by decide)).2 (by decide)⟩

/-- C20. Without a worker, in power mode On with hsRate above the
low-power rate, an `onConfig` resolving to a refresh rate r with
nsRate < r <= hsRate leaves the target at HS, whatever the brightness, the
low-battery flag, the peak-rate hint and the rate-switching flag are. -/
theorem onConfig_without_worker_switches_to_hs (d : Display) (s : OperationRateManager F)
    (cfg : Nat) (hw : s.mHistogramQueryWorker = none)
    (hon : s.mDisplayPowerMode = some HWC2_POWER_MODE_ON)
    (h30 : kLowPowerOperationRate < s.mDisplayHsOperationRate)
    (hmax : s.mDisplayHsOperationRate ≤ 2147483647)
    (hr1 : s.mDisplayNsOperationRate < d.getRefreshRate cfg)
    (hr2 : d.getRefreshRate cfg ≤ s.mDisplayHsOperationRate) :
    (s.onConfig d cfg).2.mDisplayTargetOperationRate = s.mDisplayHsOperationRate := by
  have hshort : s.takesResolutionShortcut d cfg = false := by
    unfold OperationRateManager.takesResolutionShortcut
    rw [hw]
  rw [takesResolutionShortcut_false d s cfg hshort]
  exact updateOperationRateLocked_config_hs d
    { s with mDisplayRefreshRate := d.getRefreshRate cfg } hon hr1 hr2 h30 hmax
    (Or.inl (by show s.mHistogramQueryWorker.isSome = false; rw [hw]; rfl))

theorem onConfig_without_worker_switches_to_hs_witness :
    sampleManagerNoWorker.mDisplayTargetOperationRate = 60 ∧
      (sampleManagerNoWorker.onConfig lockedDisplay 1).2.mDisplayTargetOperationRate = 120 :=
  ⟨rfl, onConfig_without_worker_switches_to_hs lockedDisplay sampleManagerNoWorker 1 rfl rfl
    (by decide) (by decide) (by decide) (by decide)⟩

/-! ## Small brightness steps -/

theorem delta_within_threshold (level last : Int)
    (hdelta : |level - last| ≤ kBrightnessDeltaThreshold) :
    ¬ toUInt32 (abs32 (toInt32 (level - last))) > kBrightnessDeltaThreshold := by
  unfold kBrightnessDeltaThreshold at *
  unfold toUInt32 abs32 toInt32
  rcases abs_cases (level - last) with ⟨h, _⟩ | ⟨h, _⟩ <;> rw [h] at hdelta <;>
    split_ifs <;> omega

/-- A `SET_DBV` evaluation in power mode On (effective rate 0 on entry)
whose brightness step does not exceed the threshold: the brightness is
recorded, with a worker the target stays, and without one the target
stays or becomes the desired rate, which is then the HS rate. -/
theorem evaluate_set_dbv_small (d : Display) (s : OperationRateManager F) (dbv : Int) (b : Bool)
    (des : Int)
    (hdelta : ¬ toUInt32 (abs32 (toInt32 (dbv - s.mDisplayLastDbv))) > kBrightnessDeltaThreshold) :
    (s.evaluate d .SET_DBV dbv b des 0).2.mDisplayLastDbv = dbv ∧
      (s.mHistogramQueryWorker.isSome = true →
        (s.evaluate d .SET_DBV dbv b des 0).2.mDisplayTargetOperationRate =
          s.mDisplayTargetOperationRate) ∧
      (s.mHistogramQueryWorker.isSome = false →
        (s.evaluate d .SET_DBV dbv b des 0).2.mDisplayTargetOperationRate =
            s.mDisplayTargetOperationRate ∨
          (s.evaluate d .SET_DBV dbv b des 0).2.mDisplayTargetOperationRate =
            s.mDisplayHsOperationRate) := by
  have h0 : ¬ toUInt32 0 > kLowPowerOperationRate := by decide
  simp only [OperationRateManager.evaluate, hdelta, decide_False, Bool.or_false, Bool.and_false,
    Bool.false_eq_true, if_false]
  cases hw : s.mHistogramQueryWorker.isSome
  · simp only [Bool.not_false, if_true, Bool.true_or]
    refine ⟨?_, fun h => absurd h (by simp), fun _ => ?_⟩
    · split_ifs <;> first | rfl | (rw [publish_lastDbv])
    · by_cases hd : des = s.mDisplayHsOperationRate
      · subst hd
        simp only [beq_self_eq_true, if_true]
        split_ifs
        · rw [publish_target]
          split_ifs
          · exact Or.inl rfl
          · exact Or.inr rfl
          · exact Or.inl rfl
        · exact Or.inl rfl
      · have hd2 : (des == s.mDisplayHsOperationRate) = false := by simpa using hd
        simp only [hd2, Bool.false_eq_true, if_false, h0, decide_False, Bool.false_and]
        exact Or.inl trivial
  · simp only [Bool.not_true, Bool.false_eq_true, if_false, h0, decide_False, Bool.false_and,
      Bool.false_or]
    refine ⟨?_, fun _ => ?_, fun h => absurd h (by simp)⟩
    · split_ifs <;> first | rfl | (rw [publish_lastDbv])
    · split_ifs
      · rfl
      · rw [publish_target]
        simp only [h0, if_false, ite_self]

/-- C21. Brightness hysteresis: in power mode On, a non-zero brightness
report `level` whose step from the recorded brightness is at most the
threshold (10) leaves `level` as the recorded brightness; with a worker
the target is unchanged, without a worker the target is unchanged or
becomes the HS rate. So when the NS and HS rates differ, a target other
than NS is never switched to NS by such a report. -/
theorem small_brightness_step_keeps_target (d : Display) (p : Properties)
    (s : OperationRateManager F) (level : Int)
    (hon : s.mDisplayPowerMode = some HWC2_POWER_MODE_ON)
    (hl0 : level ≠ 0) (hl1 : 0 ≤ level) (hl2 : level ≤ 2147483647)
    (hlast : isInt32 s.mDisplayLastDbv)
    (hdelta : |level - s.mDisplayLastDbv| ≤ kBrightnessDeltaThreshold) :
    (s.onBrightness d p level).2.mDisplayLastDbv = level ∧
      (s.mHistogramQueryWorker.isSome = true →
        (s.onBrightness d p level).2.mDisplayTargetOperationRate =
          s.mDisplayTargetOperationRate) ∧
      (s.mHistogramQueryWorker.isSome = false →
        (s.onBrightness d p level).2.mDisplayTargetOperationRate =
            s.mDisplayTargetOperationRate ∨
          (s.onBrightness d p level).2.mDisplayTargetOperationRate =
            s.mDisplayHsOperationRate) ∧
      (s.mDisplayNsOperationRate ≠ s.mDisplayHsOperationRate →
        s.mDisplayTargetOperationRate ≠ s.mDisplayNsOperationRate →
        (s.onBrightness d p level).2.mDisplayTargetOperationRate ≠
          s.mDisplayNsOperationRate) := by
  have key : (s.onBrightness d p level).2.mDisplayLastDbv = level ∧
      (s.mHistogramQueryWorker.isSome = true →
        (s.onBrightness d p level).2.mDisplayTargetOperationRate =
          s.mDisplayTargetOperationRate) ∧
      (s.mHistogramQueryWorker.isSome = false →
        (s.onBrightness d p level).2.mDisplayTargetOperationRate =
            s.mDisplayTargetOperationRate ∨
          (s.onBrightness d p level).2.mDisplayTargetOperationRate =
            s.mDisplayHsOperationRate) := by
    by_cases hsame : toUInt32 s.mDisplayLastDbv = level
    · have hc : (level == 0 || toUInt32 s.mDisplayLastDbv == level) = true := by
        simp [hsame]
      have hr : s.onBrightness d p level = (0, s) := by
        simp only [OperationRateManager.onBrightness, hc, if_true]
      have heq : s.mDisplayLastDbv = level := by
        unfold isInt32 at hlast
        unfold toUInt32 at hsame
        omega
      rw [hr]
      exact ⟨heq, fun _ => rfl, fun _ => Or.inl rfl⟩
    · obtain ⟨pk, h⟩ := onBrightness_eval d p s level hl0 hsame
      have e1 : toInt32 level = level := toInt32_of_isInt32 level ⟨by omega, hl2⟩
      rw [h, e1]
      have hon2 : OperationRateManager.mDisplayPowerMode
          { s with mDisplayDbv := level, mDisplayPeakRefreshRate := pk } =
          some HWC2_POWER_MODE_ON := hon
      rw [updateOperationRateLocked_on d _ _ hon2]
      simp only [if_true]
      exact evaluate_set_dbv_small d
        { s with mDisplayDbv := level, mDisplayPeakRefreshRate := pk } level _ _
        (delta_within_threshold level s.mDisplayLastDbv hdelta)
  refine ⟨key.1, key.2.1, key.2.2, fun hne ht => ?_⟩
  cases hw : s.mHistogramQueryWorker.isSome
  · rcases key.2.2 hw with h | h
    · rw [h]; exact ht
    · rw [h]; exact fun e => hne e.symm
  · rw [key.2.1 hw]; exact ht

theorem small_brightness_step_keeps_target_witness :
    (sampleManager.onBrightness sampleDisplay sampleProperties 85).2.mDisplayLastDbv = 85 ∧
      (sampleManager.mHistogramQueryWorker.isSome = true →
        (sampleManager.onBrightness sampleDisplay sampleProperties
          85).2.mDisplayTargetOperationRate = sampleManager.mDisplayTargetOperationRate) ∧
      (sampleManager.mHistogramQueryWorker.isSome = false →
        (sampleManager.onBrightness sampleDisplay sampleProperties
            85).2.mDisplayTargetOperationRate = sampleManager.mDisplayTargetOperationRate ∨
          (sampleManager.onBrightness sampleDisplay sampleProperties
            85).2.mDisplayTargetOperationRate = sampleManager.mDisplayHsOperationRate) ∧
      (sampleManager.mDisplayNsOperationRate ≠ sampleManager.mDisplayHsOperationRate →
        sampleManager.mDisplayTargetOperationRate ≠ sampleManager.mDisplayNsOperationRate →
        (sampleManager.onBrightness sampleDisplay sampleProperties
          85).2.mDisplayTargetOperationRate ≠ sampleManager.mDisplayNsOperationRate) :=
  small_brightness_step_keeps_target sampleDisplay sampleProperties sampleManager 85 rfl
    (by decide) (by decide) (by decide) (by decide) (by decide)

/-! ## Same-rate resolution changes -/

/-- C22. When a worker exists, its configuration is a runtime-resolution
one and the config resolves to the current refresh rate, `onConfig`
returns 0 and changes nothing of the manager or of the worker (target,
refresh rate, brightness, power mode, flags, accumulating flag, wake-up
count) except the right and bottom of the region of interest, which
become the panel width and height; the worker's configuration is then no
longer a runtime-resolution one. -/
theorem same_rate_resolution_change_is_skipped (d : Display) (s : OperationRateManager F)
    (cfg : Nat) (w : HistogramQueryWorker F)
    (hw : s.mHistogramQueryWorker = some w)
    (hrt : w.isRuntimeResolutionConfig d = true)
    (hrate : d.getRefreshRate cfg = s.mDisplayRefreshRate)
    (hx0 : 0 ≤ d.mXres) (hx1 : d.mXres ≤ 4294967295) :
    s.onConfig d cfg =
        (0, s.setWorker { w with roiRight := toInt32 d.mXres, roiBottom := toInt32 d.mYres }) ∧
      HistogramQueryWorker.isRuntimeResolutionConfig
        { w with roiRight := toInt32 d.mXres, roiBottom := toInt32 d.mYres } d = false := by
  refine ⟨?_, ?_⟩
  · have hc : (w.isRuntimeResolutionConfig d && s.mDisplayRefreshRate == d.getRefreshRate cfg)
        = true := by
      rw [hrt, hrate]; simp
    simp only [OperationRateManager.onConfig]
    rw [hw]
    simp only [hc, if_true]
    rfl
  · have hr : w.mReady = true := by
      unfold HistogramQueryWorker.isRuntimeResolutionConfig at hrt
      cases h : w.mReady
      · rw [h] at hrt; simp at hrt
      · rfl
    unfold HistogramQueryWorker.isRuntimeResolutionConfig
    simp only [hr, toUInt32_toInt32 d.mXres hx0 hx1, Bool.not_true, Bool.false_eq_true, if_false,
      beq_self_eq_true, Bool.true_or, if_true]

theorem same_rate_resolution_change_is_skipped_witness :
    sampleManagerResolution.onConfig sampleDisplay 1 =
        (0, sampleManagerResolution.setWorker
          { sampleWorker with roiRight := 1080, roiBottom := 2400 }) ∧
      HistogramQueryWorker.isRuntimeResolutionConfig
        { sampleWorker with roiRight := 1080, roiBottom := 2400 } sampleDisplay = false :=
  same_rate_resolution_change_is_skipped sampleDisplay sampleManagerResolution 1
    { sampleWorker with roiRight := 720, roiBottom := 1600 } rfl (by decide) rfl
    (by decide) (by decide)

/-! ## Config changes in power mode On -/

/-- In power mode On an evaluation tagged `SET_CONFIG` leaves the target
as it was or at the HS rate. -/
theorem configTarget_on_cases (d : Display) (s : OperationRateManager F)
    (hon : s.mDisplayPowerMode = some HWC2_POWER_MODE_ON) :
    s.configTarget d = s.mDisplayTargetOperationRate ∨
      s.configTarget d = s.mDisplayHsOperationRate := by
  have h0 : ¬ toUInt32 0 > kLowPowerOperationRate := by decide
  rw [configTarget_on d s hon]
  unfold publishedTarget OperationRateManager.configEffectiveRate
  split_ifs <;> first | exact Or.inl rfl | exact Or.inr rfl

/-- C23. In power mode On, with or without a worker and for every config
id, `onConfig` leaves the target unchanged or equal to the HS rate; more
generally every evaluation tagged `SET_CONFIG` in power mode On does. -/
theorem onConfig_on_target_unchanged_or_hs (d : Display) (s : OperationRateManager F)
    (cfg : Nat) (hon : s.mDisplayPowerMode = some HWC2_POWER_MODE_ON) :
    ((s.onConfig d cfg).2.mDisplayTargetOperationRate = s.mDisplayTargetOperationRate ∨
        (s.onConfig d cfg).2.mDisplayTargetOperationRate = s.mDisplayHsOperationRate) ∧
      ((s.updateOperationRateLocked d .SET_CONFIG).2.mDisplayTargetOperationRate =
          s.mDisplayTargetOperationRate ∨
        (s.updateOperationRateLocked d .SET_CONFIG).2.mDisplayTargetOperationRate =
          s.mDisplayHsOperationRate) := by
  refine ⟨?_, ?_⟩
  · rcases onConfig_cases d s cfg with ⟨w, _, _, _, h⟩ | h
    · rw [h]; exact Or.inl rfl
    · rw [h]
      have hon2 : OperationRateManager.mDisplayPowerMode
          { s with mDisplayRefreshRate := d.getRefreshRate cfg } =
          some HWC2_POWER_MODE_ON := hon
      rw [(updateOperationRateLocked_config d _).1]
      exact configTarget_on_cases d { s with mDisplayRefreshRate := d.getRefreshRate cfg } hon2
  · rw [(updateOperationRateLocked_config d s).1]
    exact configTarget_on_cases d s hon

theorem onConfig_on_target_unchanged_or_hs_witness :
    ((sampleManagerNs.onConfig sampleDisplay 1).2.mDisplayTargetOperationRate =
          sampleManagerNs.mDisplayTargetOperationRate ∨
        (sampleManagerNs.onConfig sampleDisplay 1).2.mDisplayTargetOperationRate =
          sampleManagerNs.mDisplayHsOperationRate) ∧
      ((sampleManagerNs.updateOperationRateLocked sampleDisplay
            .SET_CONFIG).2.mDisplayTargetOperationRate =
          sampleManagerNs.mDisplayTargetOperationRate ∨
        (sampleManagerNs.updateOperationRateLocked sampleDisplay
            .SET_CONFIG).2.mDisplayTargetOperationRate =
          sampleManagerNs.mDisplayHsOperationRate) :=
  onConfig_on_target_unchanged_or_hs sampleDisplay sampleManagerNs 1 rfl

/-! ## A worker without a baseline -/

theorem lumaLoop_count (A : LumaArith F) (data : List Int) :
    ∀ (n : Nat) (acc : F) (cnt : Int), (∀ x ∈ data, 0 ≤ x ∧ x ≤ 65535) →
      n + data.length ≤ 32768 → 0 ≤ cnt → cnt ≤ n * 65535 →
      (lumaLoop A data n acc cnt).2 = cnt + data.sum := by
  induction data with
  | nil => intro n acc cnt _ _ _ _; simp [lumaLoop]
  | cons x xs ih =>
    intro n acc cnt hx hlen h0 h1
    have hx0 := hx x (List.mem_cons_self _ _)
    simp only [List.length_cons] at hlen
    have e1 : toInt32 ((n : Int) + 1) = ((n + 1 : Nat) : Int) := by
      rw [toInt32_of_isInt32 _ ⟨by omega, by omega⟩]; simp
    have e3 : toInt32 (cnt + x) = cnt + x :=
      toInt32_of_isInt32 _ ⟨by omega, by omega⟩
    simp only [lumaLoop, e1, e3]
    rw [ih (n + 1) _ _ (fun y hy => hx y (List.mem_cons_of_mem _ hy)) (by omega) (by omega)
      (by push_cast; omega)]
    simp only [List.sum_cons]; ring

theorem lumaLoop_count_total (A : LumaArith F) (data : List Int)
    (hx : ∀ x ∈ data, 0 ≤ x ∧ x ≤ 65535) (hlen : data.length ≤ 32768) :
    (lumaLoop A data 0 A.zero 0).2 = bucketTotal data := by
  have h := lumaLoop_count A data 0 A.zero 0 hx (by omega) (le_refl _) (by simp)
  simp only [Nat.cast_zero, zero_add] at h
  exact h

/-- A pass of the loop with a valid sample on a registered worker that
holds no baseline: no event, the worker is accumulating and its baseline is
the luma of the sample. -/
theorem Routine_no_baseline (A : LumaArith F) (hz : A.toBool A.zero = false) (d : Display)
    (s : OperationRateManager F) (w : HistogramQueryWorker F) (inp : RoutineInput)
    (hw : s.mHistogramQueryWorker = some w) (hctl : d.mHistogramController = true)
    (hready : w.mReady = true)
    (hbase : w.mQueryMode = true → A.toBool w.mPrevHistogramLuma = false)
    (hwait : inp.waitRet ≠ -EINTR) (hq : inp.queryStatusOk = true)
    (hqe : inp.queryErr ≠ HistogramErrorCode.BAD_TOKEN)
    (hx : ∀ x ∈ inp.data, 0 ≤ x ∧ x ≤ 65535) (hlen : inp.data.length ≤ 32768)
    (htotal : 0 < bucketTotal inp.data) :
    Routine A d s inp =
      (s.setWorker
        { w with mQueryMode := true, mPrevHistogramLuma := histogramLuma A inp.data }, 0) := by
  have hne : inp.data.length ≠ 0 := by
    intro h0
    have : inp.data = [] := List.length_eq_zero.mp h0
    rw [this] at htotal
    simp [bucketTotal] at htotal
  have hwait2 : (inp.waitRet == -EINTR) = false := by simpa using hwait
  have hqe2 : (inp.queryErr != HistogramErrorCode.BAD_TOKEN) = true := by simpa using hqe
  have hcnt : ((lumaLoop A inp.data 0 A.zero 0).2 == 0) = false := by
    rw [lumaLoop_count_total A inp.data hx hlen]
    simp only [beq_eq_false_iff_ne, ne_eq]; omega
  have hlen2 : (inp.data.length == 0) = false := by simpa using hne
  have hb : A.toBool (w.afterWait A).mPrevHistogramLuma = false := by
    unfold HistogramQueryWorker.afterWait
    cases hm : w.mQueryMode
    · simpa using hz
    · simpa using hbase hm
  have haw : (s.setWorker (w.afterWait A)).workerSetPrevLuma (histogramLuma A inp.data) =
      s.setWorker
        { w with mQueryMode := true, mPrevHistogramLuma := histogramLuma A inp.data } := by
    cases w with
    | mk b1 b2 b3 b4 b5 b6 b7 b8 b9 => cases b2 <;> rfl
  have hpass : Routine A d s inp =
      ((s.setWorker (w.afterWait A)).workerSetPrevLuma (histogramLuma A inp.data), 0) := by
    unfold Routine
    rw [hw]
    simp only [hctl, hready, hwait2, Bool.not_true, Bool.false_eq_true, if_false]
    unfold RoutineQuery
    simp only [hq, hqe2, Bool.and_self, if_true, hlen2, Bool.false_eq_true, if_false, hcnt, hb,
      Bool.false_and]
    rfl
  rw [hpass, haw]

theorem workerStartQuery_noBaseline (A : LumaArith F) (s : OperationRateManager F) :
    s.workerStartQuery.noBaseline A = s.noBaseline A := by
  unfold OperationRateManager.workerStartQuery OperationRateManager.noBaseline
  cases s.mHistogramQueryWorker with
  | none => rfl
  | some w =>
    simp only [Option.map_some', HistogramQueryWorker.startQuery]
    split_ifs <;> rfl

theorem workerStopQuery_noBaseline (A : LumaArith F) (s : OperationRateManager F) :
    s.workerStopQuery.noBaseline A = true := by
  unfold OperationRateManager.workerStopQuery OperationRateManager.noBaseline
  cases s.mHistogramQueryWorker <;> rfl

theorem publish_noBaseline (A : LumaArith F) (d : Display) (s : OperationRateManager F)
    (des eff : Int) : (s.publish d des eff).2.noBaseline A = s.noBaseline A := by
  simp only [OperationRateManager.publish]
  split_ifs <;> first
    | rfl
    | exact workerStartQuery_noBaseline A _

theorem evaluate_noBaseline (A : LumaArith F) (d : Display) (s : OperationRateManager F)
    (c : DispOpCondition) (dbv : Int) (b : Bool) (des eff : Int)
    (h : s.noBaseline A = true) : (s.evaluate d c dbv b des eff).2.noBaseline A = true := by
  cases c <;> simp only [OperationRateManager.evaluate] <;> (try split_ifs) <;>
    (try rw [publish_noBaseline]) <;>
    first
      | exact h
      | exact workerStopQuery_noBaseline A _

theorem updateOperationRateLocked_noBaseline (A : LumaArith F) (d : Display)
    (s : OperationRateManager F) (c : DispOpCondition) (h : s.noBaseline A = true) :
    (s.updateOperationRateLocked d c).2.noBaseline A = true := by
  simp only [OperationRateManager.updateOperationRateLocked]
  by_cases h1 : s.isLowPower = true
  · rw [if_pos h1]
    exact evaluate_noBaseline A d _ _ _ _ _ _ h
  · rw [if_neg h1]
    by_cases h2 : (s.mDisplayPowerMode != some HWC2_POWER_MODE_ON) = true
    · rw [if_pos h2]
      exact workerStopQuery_noBaseline A s
    · rw [if_neg h2]
      exact evaluate_noBaseline A d _ _ _ _ _ _ h

theorem afterWait_noBaseline (A : LumaArith F) (hz : A.toBool A.zero = false)
    (s : OperationRateManager F) (w : HistogramQueryWorker F)
    (hw : s.mHistogramQueryWorker = some w) (h : s.noBaseline A = true) :
    (s.setWorker (w.afterWait A)).noBaseline A = true := by
  unfold OperationRateManager.noBaseline at h
  rw [hw] at h
  dsimp only at h
  unfold OperationRateManager.noBaseline OperationRateManager.setWorker
    HistogramQueryWorker.afterWait
  cases hm : w.mQueryMode
  · simp [hz]
  · simpa [hm] using h

/-- A pass of the loop that ends without a sample keeps a worker without
a baseline that way. -/
theorem Routine_noSample_noBaseline (A : LumaArith F) (hz : A.toBool A.zero = false)
    (d : Display) (s : OperationRateManager F) (inp : RoutineInput)
    (hn : inp.noSample = true) (h : s.noBaseline A = true) :
    (Routine A d s inp).1.noBaseline A = true := by
  unfold Routine
  cases hw : s.mHistogramQueryWorker with
  | none => simp only []; exact h
  | some w =>
    simp only []
    by_cases hc : (!d.mHistogramController) = true
    · rw [if_pos hc]; exact h
    · rw [if_neg hc]
      by_cases hr : (!w.mReady) = true
      · rw [if_pos hr]
        have hq : (w.prepare d inp).mQueryMode = w.mQueryMode := by
          unfold HistogramQueryWorker.prepare
          split_ifs <;> rfl
        have hp : (w.prepare d inp).mPrevHistogramLuma = w.mPrevHistogramLuma := by
          unfold HistogramQueryWorker.prepare
          split_ifs <;> rfl
        unfold OperationRateManager.noBaseline at h
        rw [hw] at h
        dsimp only at h
        show (!(w.prepare d inp).mQueryMode || !A.toBool (w.prepare d inp).mPrevHistogramLuma)
          = true
        rw [hq, hp]; exact h
      · rw [if_neg hr]
        by_cases he : (inp.waitRet == -EINTR) = true
        · rw [if_pos he]; rfl
        · rw [if_neg he]
          have hk := afterWait_noBaseline A hz s w hw h
          unfold RoutineQuery
          by_cases hq : (inp.queryStatusOk && inp.queryErr != HistogramErrorCode.BAD_TOKEN) = true
          · rw [if_pos hq]
            by_cases hl : (inp.data.length == 0) = true
            · rw [if_pos hl]; exact hk
            · rw [if_neg hl]
              have hall : ∀ x ∈ inp.data, x = 0 := by
                unfold RoutineInput.noSample RoutineInput.queryFailed at hn
                rw [hq] at hn
                simp only [Bool.not_eq_true] at he
                simp only [he, Bool.not_true, Bool.or_self, Bool.false_or, List.all_eq_true,
                  beq_iff_eq] at hn
                exact hn
              have hcount := lumaLoop_count_zero A inp.data 0 A.zero hall
              simp only [hcount, beq_self_eq_true, if_true]
              exact hk
          · rw [if_neg hq]; exact hk

/-- Every signal other than a pass of the loop that obtains a sample
keeps a worker without a baseline that way. -/
theorem step_noBaseline (A : LumaArith F) (hz : A.toBool A.zero = false) (sys : System F)
    (d : Display) (sig : Signal) (hsig : sig.noSample = true)
    (h : sys.mgr.noBaseline A = true) : (sys.step A d sig).mgr.noBaseline A = true := by
  cases sig with
  | powerMode mode =>
    show (OperationRateManager.updateOperationRateLocked d
      { sys.mgr with mDisplayPowerMode := some mode } .PANEL_SET_POWER).2.noBaseline A = true
    exact updateOperationRateLocked_noBaseline A d _ _ h
  | brightness dbv =>
    show (sys.mgr.onBrightness d sys.props dbv).2.noBaseline A = true
    rcases onBrightness_cases d sys.props sys.mgr dbv with e | ⟨pk, e⟩
    · rw [e]; exact h
    · rw [e]; exact updateOperationRateLocked_noBaseline A d _ _ h
  | config cfg =>
    show (sys.mgr.onConfig d cfg).2.noBaseline A = true
    rcases onConfig_cases d sys.mgr cfg with ⟨w, hw, -, -, e⟩ | e
    · rw [e]
      unfold OperationRateManager.noBaseline at h
      rw [hw] at h
      exact h
    · rw [e]; exact updateOperationRateLocked_noBaseline A d _ _ h
  | peakRefreshRate rate => rw [step_peak]; exact h
  | lowPowerMode enabled => exact h
  | histogram => exact updateOperationRateLocked_noBaseline A d sys.mgr _ h
  | routine inp => exact Routine_noSample_noBaseline A hz d sys.mgr inp hsig h

theorem run_noBaseline (A : LumaArith F) (hz : A.toBool A.zero = false)
    (sigs : List (Display × Signal)) :
    ∀ sys : System F, (∀ ds ∈ sigs, ds.2.noSample = true) → sys.mgr.noBaseline A = true →
      (sys.run A sigs).mgr.noBaseline A = true := by
  induction sigs with
  | nil => intro sys _ h; exact h
  | cons ds rest ih =>
    intro sys hs h
    show ((sys.step A ds.1 ds.2).run A rest).mgr.noBaseline A = true
    exact ih _ (fun x hx => hs x (List.mem_cons_of_mem _ hx))
      (step_noBaseline A hz sys ds.1 ds.2 (hs ds (List.mem_cons_self _ _)) h)

theorem histogramLuma_exact (data : List Int) (hx : ∀ x ∈ data, 0 ≤ x ∧ x ≤ 65535)
    (hlen : data.length ≤ 32768) : histogramLuma exactArith data = meanBucketIndex data := by
  unfold histogramLuma
  rw [lumaLoop_exact_zero data hx hlen]
  rfl

/-- C24. Zero luma acts as no baseline. Start from a worker that is not
accumulating, or is accumulating with a baseline that is zero, and let any
signals arrive that are not passes of the loop obtaining a sample. Then a
pass of the loop on the registered worker with a valid sample (successful
query, positive total count) reports no event and changes nothing but the
worker, which is accumulating afterwards with the luma of the sample as
its baseline, whatever the threshold and the luma are. This covers the
first valid sample after each arming. -/
theorem zero_baseline_reports_no_event (A : LumaArith F) (hz : A.toBool A.zero = false)
    (sys : System F) (sigs : List (Display × Signal)) (d : Display)
    (w : HistogramQueryWorker F) (inp : RoutineInput)
    (hinit : sys.mgr.noBaseline A = true)
    (hsigs : ∀ ds ∈ sigs, ds.2.noSample = true)
    (hw : (sys.run A sigs).mgr.mHistogramQueryWorker = some w)
    (hctl : d.mHistogramController = true) (hready : w.mReady = true)
    (hwait : inp.waitRet ≠ -EINTR) (hq : inp.queryStatusOk = true)
    (hqe : inp.queryErr ≠ HistogramErrorCode.BAD_TOKEN)
    (hx : ∀ x ∈ inp.data, 0 ≤ x ∧ x ≤ 65535) (hlen : inp.data.length ≤ 32768)
    (htotal : 0 < bucketTotal inp.data) :
    Routine A d (sys.run A sigs).mgr inp =
      ((sys.run A sigs).mgr.setWorker
        { w with mQueryMode := true, mPrevHistogramLuma := histogramLuma A inp.data }, 0) := by
  have hinv := run_noBaseline A hz sigs sys hsigs hinit
  have hbase : w.mQueryMode = true → A.toBool w.mPrevHistogramLuma = false := by
    intro hm
    unfold OperationRateManager.noBaseline at hinv
    rw [hw] at hinv
    simpa [hm] using hinv
  exact Routine_no_baseline A hz d _ w inp hw hctl hready hbase hwait hq hqe hx hlen htotal

theorem zero_baseline_reports_no_event_witness :
    Routine exactArith sampleDisplay
        ((System.mk sampleManagerIdle sampleProperties).run exactArith
          failedPassThenBrightness).mgr (sampleInput (singleBucket 57)) =
      (((System.mk sampleManagerIdle sampleProperties).run exactArith
          failedPassThenBrightness).mgr.setWorker
        { sampleWorker with
          signalCount := 1, mQueryMode := true,
          mPrevHistogramLuma := histogramLuma exactArith (singleBucket 57) }, 0) ∧
      histogramLuma exactArith (singleBucket 57) = 57 ∧
      |(57 : ℚ) - 0| > sampleWorker.mHistogramLumaDeltaThreshold :=
  ⟨zero_baseline_reports_no_event exactArith (by decide)
      (System.mk sampleManagerIdle sampleProperties) failedPassThenBrightness sampleDisplay
      { sampleWorker with signalCount := 1, mPrevHistogramLuma := 0 }
      (sampleInput (singleBucket 57)) (by rfl) (by decide) (by rfl) rfl rfl (by decide) rfl
      (by decide) (singleBucket_range 57)
      (by rw [show (sampleInput (singleBucket 57)).data = singleBucket 57 from rfl,
        singleBucket_length]; decide) (by decide),
    by rw [histogramLuma_exact _ (singleBucket_range 57)
      (by rw [singleBucket_length]; decide)]; exact meanBucketIndex_singleBucket_57,
    by norm_num [sampleWorker]⟩

/-! ## The threshold rule in the arithmetic of the program -/

/-- C15, counterexample. A query that returns an ok status together with
a sensor-reported error other than `BAD_TOKEN` is not skipped: the
histogram that comes with it is taken as a sample. For the armed sample
worker (baseline 50, threshold 5) and 10 pixels in bucket 57 the pass
reports an event, disarms, replaces the baseline by 57 and the manager
moves the target from 120 to 60. -/
theorem sensor_error_is_sampled :
    (sensorErrorInput (bucketAt 57)).queryStatusOk = true ∧
      (sensorErrorInput (bucketAt 57)).queryErr = HistogramErrorCode.OTHER ∧
      sampleManagerBinary32.queryMode = true ∧
      sampleManagerBinary32.prevLuma = some (float32Arith.ofInt 50) ∧
      (Routine float32Arith sampleDisplay sampleManagerBinary32
        (sensorErrorInput (bucketAt 57))).2 = 1 ∧
      (Routine float32Arith sampleDisplay sampleManagerBinary32
        (sensorErrorInput (bucketAt 57))).1.queryMode = false ∧
      (Routine float32Arith sampleDisplay sampleManagerBinary32
        (sensorErrorInput (bucketAt 57))).1.prevLuma = some (float32Arith.ofInt 57) ∧
      (Routine float32Arith sampleDisplay sampleManagerBinary32
        (sensorErrorInput (bucketAt 57))).1.mDisplayTargetOperationRate = 60 := by
  refine ⟨rfl, rfl, rfl, rfl, by decide, by decide, by decide, by decide⟩

end zumapro
